import Mathlib

/-!
# Inspection scoring and report writer of `divi` (package `diveinspect`)

A shallow embedding of `pkg/diveinspect/models.go`,
`pkg/diveinspect/diveinspectsrv/vision_service.go`, the creation of inspections and
the photo upload of `pkg/diveinspect/diveinspectsrv/inspection_service.go` and the
document writer of `pkg/diveinspect/diveinspectsrv/report_service.go`, followed by the
properties proved about it.

Conventions of the embedding:

* Go `int` is the 64-bit two's-complement integer of the usual server targets.  It is
  embedded as `Int`; every addition or subtraction that can leave the 64-bit range on
  inputs of the right type is followed by `wrapInt64`.
* Go `float64` is embedded as a dyadic rational `mant * 2 ^ exp`, every operation being
  the exact result rounded to 53 significant bits, ties to even (IEEE 754 binary64,
  one rounding per operation).  All magnitudes met in this program are zero or lie far
  inside the normal range, so no exponent limits are modelled.
* The string-backed enumerations of `models.go` are strings here too, so that values
  outside the listed constants stay expressible.
* The strings the report writer handles are Go strings, that is byte sequences: lists
  of natural numbers below 256.  `len` is the length of the list, and `range` over a
  string decodes UTF-8 the way Go does, an invalid byte giving `utf8.RuneError`.
* Storage and the image-analysis provider are collaborators: the store is explicit
  state, and what the collaborators answer during one call is an explicit argument.
-/

namespace Divi

/-! ## Go machine integers -/

/-- Smallest value of a Go `int` (64 bit). -/
def minInt64 : Int := -9223372036854775808

/-- Largest value of a Go `int` (64 bit). -/
def maxInt64 : Int := 9223372036854775807

/-- Two's-complement wrap-around of an exact integer result into the range of `int`:
the representative of `x` modulo `2 ^ 64` in `[-2^63, 2^63)`. -/
def wrapInt64 (x : Int) : Int :=
  (x + 9223372036854775808) % 18446744073709551616 - 9223372036854775808

/-! ## Go `float64` (IEEE 754 binary64) -/

/-- Number of binary digits of `n`, by repeated halving (`fuel` bounds the halvings). -/
def bitLenAux : Nat → Nat → Nat
  | 0, _ => 0
  | fuel + 1, n => if n = 0 then 0 else bitLenAux fuel (n / 2) + 1

/-- Number of binary digits of `n` (`0` for `0`). -/
def bitLen (n : Nat) : Nat := bitLenAux n n

/-- A finite `float64` value, as the dyadic rational `mant * 2 ^ exp`. -/
structure F64 where
  mant : Int
  exp : Int
deriving DecidableEq, Repr

/-- Round the exact value `m * 2 ^ e` to 53 significant bits, round-to-nearest with
ties to even: the rounding every binary64 operation applies to its exact result. -/
def roundToF64 (m : Int) (e : Int) : F64 :=
  let n := m.natAbs
  let len := bitLen n
  if len ≤ 53 then ⟨m, e⟩
  else
    let s := len - 53
    let q := n / 2 ^ s
    let r := n % 2 ^ s
    let half := 2 ^ (s - 1)
    let q1 := if half < r ∨ (r = half ∧ q % 2 = 1) then q + 1 else q
    ⟨if m < 0 then -(q1 : Int) else (q1 : Int), e + (s : Int)⟩

/-- Conversion `float64(n)` of an `int`. -/
def F64.ofInt (n : Int) : F64 := roundToF64 n 0

/-- The `float64` nearest to the decimal constant `num / den` (`den > 0`), as the
compiler converts an untyped constant such as `0.35`: the quotient is taken with 200
fractional bits and a sticky bit, then rounded once. -/
def F64.ofRatio (num den : Nat) : F64 :=
  let q := (num * 2 ^ 200) / den
  let sticky := if (num * 2 ^ 200) % den = 0 then 0 else 1
  roundToF64 ((2 * q + sticky : Nat) : Int) (-201)

/-- Binary64 product `a * b`. -/
def F64.mul (a b : F64) : F64 := roundToF64 (a.mant * b.mant) (a.exp + b.exp)

/-- Binary64 sum `a + b`. -/
def F64.add (a b : F64) : F64 :=
  let e := min a.exp b.exp
  roundToF64 (a.mant * 2 ^ (a.exp - e).toNat + b.mant * 2 ^ (b.exp - e).toNat) e

/-- Go `math.Round(x)`: the nearest integer, halves away from zero (the result of
`math.Round` is integral, so it is given as an `Int`). -/
def F64.round (x : F64) : Int :=
  if 0 ≤ x.exp then x.mant * 2 ^ x.exp.toNat
  else
    let d := 2 ^ (-x.exp).toNat
    let q := (2 * x.mant.natAbs + d) / (2 * d)
    if x.mant < 0 then -(q : Int) else (q : Int)

/-- Conversion `int(v)` of an integral `float64`.  Inside the `int` range it is the
value; outside, Go leaves the result to the implementation, and the model takes the
amd64 answer (the smallest `int`). -/
def floatToInt (v : Int) : Int :=
  if minInt64 ≤ v ∧ v ≤ maxInt64 then v else minInt64

/-! ## Data model (`models.go`) -/

/-- Go `type PhotoZone string`. -/
abbrev PhotoZone := String
/-- Go `type FindingZone string`. -/
abbrev FindingZone := String
/-- Go `type FindingType string`. -/
abbrev FindingType := String
/-- Go `type FindingSeverity string`. -/
abbrev FindingSeverity := String
/-- Go `type InspectionStatus string`. -/
abbrev InspectionStatus := String

def InspectionPending : InspectionStatus := "pending"
def InspectionProcessing : InspectionStatus := "processing"
def InspectionCompleted : InspectionStatus := "completed"
def InspectionApproved : InspectionStatus := "approved"

def ZoneFront : FindingZone := "front"
def ZoneRear : FindingZone := "rear"
def ZoneLeft : FindingZone := "left"
def ZoneRight : FindingZone := "right"
def ZoneRoof : FindingZone := "roof"
def ZoneInteriorFront : FindingZone := "interior_front"
def ZoneInteriorRear : FindingZone := "interior_rear"
def ZoneEngine : FindingZone := "engine"
def ZoneTrunk : FindingZone := "trunk"
def ZoneTires : FindingZone := "tires"

def PhotoZoneFront : PhotoZone := "front"
def PhotoZoneRear : PhotoZone := "rear"
def PhotoZoneLeft : PhotoZone := "left"
def PhotoZoneRight : PhotoZone := "right"
def PhotoZoneFrontLeft : PhotoZone := "front_left"
def PhotoZoneRearRight : PhotoZone := "rear_right"
def PhotoZoneInteriorDriver : PhotoZone := "interior_driver"
def PhotoZoneInteriorPassenger : PhotoZone := "interior_passenger"
def PhotoZoneInteriorRear : PhotoZone := "interior_rear"
def PhotoZoneDashboard : PhotoZone := "dashboard"
def PhotoZoneInfotainment : PhotoZone := "infotainment"
def PhotoZoneEngine : PhotoZone := "engine"
def PhotoZoneTrunk : PhotoZone := "trunk"
def PhotoZoneCloseup : PhotoZone := "closeup"

/-- The fourteen `PhotoZone` constants, in declaration order. -/
def allPhotoZones : List PhotoZone :=
  [PhotoZoneFront, PhotoZoneRear, PhotoZoneLeft, PhotoZoneRight, PhotoZoneFrontLeft,
   PhotoZoneRearRight, PhotoZoneInteriorDriver, PhotoZoneInteriorPassenger,
   PhotoZoneInteriorRear, PhotoZoneDashboard, PhotoZoneInfotainment, PhotoZoneEngine,
   PhotoZoneTrunk, PhotoZoneCloseup]

/-- The ten `FindingZone` constants, in declaration order. -/
def allFindingZones : List FindingZone :=
  [ZoneFront, ZoneRear, ZoneLeft, ZoneRight, ZoneRoof, ZoneInteriorFront,
   ZoneInteriorRear, ZoneEngine, ZoneTrunk, ZoneTires]

/-- A reading of the clock (`time.Time`): the instant and its calendar year. -/
structure Time where
  UnixNano : Int
  Year : Int
deriving DecidableEq, Repr

/-- Go `Vehicle`, with the fields the inspection run reads. -/
structure Vehicle where
  ID : String
  Brand : String
  Model : String
  Version : Option String
  Year : Int
  MileageKM : Int
deriving DecidableEq, Repr

/-- Go `Inspection`; the two timestamps kept by the database are left out. -/
structure Inspection where
  ID : String
  VehicleID : String
  InspectorName : Option String
  InspectorBranch : Option String
  ScoreOverall : Option Int
  ScoreExterior : Option Int
  ScoreInterior : Option Int
  ScoreMechanical : Option Int
  ScoreTires : Option Int
  PhotosCount : Int
  FindingsCount : Int
  Status : InspectionStatus
  PDFURL : Option String
  InspectedAt : Option Time
deriving DecidableEq, Repr

/-- Go `InspectionFinding`. -/
structure InspectionFinding where
  ID : String
  InspectionID : String
  PhotoURL : Option String
  AnnotatedPhotoURL : Option String
  Zone : FindingZone
  FindingType : FindingType
  Severity : FindingSeverity
  Description : Option String
  AIConfidence : Option F64
  ConfirmedByHuman : Bool
deriving DecidableEq, Repr

/-- Go `InspectionPhoto`. -/
structure InspectionPhoto where
  ID : String
  InspectionID : String
  PhotoURL : String
  Zone : PhotoZone
  SortOrder : Int
  UploadedAt : Time
deriving DecidableEq, Repr

/-! ## Errors (`pkg/errx`) -/

/-- Modelled from the spec: the error classes of package `errx`, which is not among the
sources.  The spec's taxonomy names validation, external and internal errors; the
repositories also raise not-found errors. -/
inductive ErrorType where
  | TypeValidation
  | TypeNotFound
  | TypeInternal
  | TypeExternal
deriving DecidableEq, Repr

/-- Modelled from the spec: a Go `error` as this package meets it.  `plain` is an error
of another library (database driver, provider client), `errx` one built by
`errx.Validation` or `errx.NotFound`, `wrap` the result of `errx.Wrap(cause, message,
type)`. -/
inductive GoError where
  | plain (message : String)
  | errx (type : ErrorType) (message : String)
  | wrap (cause : GoError) (message : String) (type : ErrorType)
deriving DecidableEq, Repr

/-- Modelled from the spec: `errx.Validation(message)`, a validation failure. -/
def errx.Validation (message : String) : GoError := GoError.errx ErrorType.TypeValidation message

/-- Modelled from the spec: `errx.NotFound(message)`. -/
def errx.NotFound (message : String) : GoError := GoError.errx ErrorType.TypeNotFound message

/-- Modelled from the spec: `errx.Wrap(err, message, type)`. -/
def errx.Wrap (err : GoError) (message : String) (type : ErrorType) : GoError :=
  GoError.wrap err message type

/-- The class of an error as the caller sees it (none for a foreign error). -/
def GoError.type? : GoError → Option ErrorType
  | GoError.plain _ => none
  | GoError.errx t _ => some t
  | GoError.wrap _ _ t => some t

/-! ## Storage (`port.go`, `diveinspectinfra/inspection_repo.go`) -/

/-- The rows of the three inspection tables. -/
structure Store where
  inspections : List Inspection
  photos : List InspectionPhoto
  findings : List InspectionFinding
deriving DecidableEq, Repr

/-- `InspectionRepository.GetByID`: the row with that id, or a not-found error. -/
def InspectionRepository.GetByID (s : Store) (id : String) : Except GoError Inspection :=
  match s.inspections.find? (fun r => r.ID == id) with
  | some r => Except.ok r
  | none => Except.error (errx.NotFound "Inspection not found")

/-- The columns `InspectionRepository.Update` writes into a row: all but the id, the
vehicle id and the database timestamps. -/
def InspectionRepository.writeColumns (row i : Inspection) : Inspection :=
  { row with
    InspectorName := i.InspectorName, InspectorBranch := i.InspectorBranch,
    ScoreOverall := i.ScoreOverall, ScoreExterior := i.ScoreExterior,
    ScoreInterior := i.ScoreInterior, ScoreMechanical := i.ScoreMechanical,
    ScoreTires := i.ScoreTires, PhotosCount := i.PhotosCount,
    FindingsCount := i.FindingsCount, Status := i.Status, PDFURL := i.PDFURL,
    InspectedAt := i.InspectedAt }

/-- `InspectionRepository.Update`: `UPDATE inspections SET ... WHERE id = $1 RETURNING
updated_at`; without a matching row the scan of the returned row fails. -/
def InspectionRepository.Update (s : Store) (i : Inspection) : Except GoError Store :=
  if s.inspections.any (fun r => r.ID == i.ID) then
    Except.ok { s with inspections := s.inspections.map fun r =>
      if r.ID == i.ID then InspectionRepository.writeColumns r i else r }
  else Except.error (GoError.plain "sql: no rows in result set")

/-- `InspectionPhotoRepository.GetByInspectionID`: the photos of one inspection, in the
order the repository yields them. -/
def InspectionPhotoRepository.GetByInspectionID (s : Store) (inspectionID : String) :
    List InspectionPhoto :=
  s.photos.filter fun p => p.InspectionID == inspectionID

/-- `InspectionFindingRepository.CreateBatch`: all rows are inserted in one transaction
(the fresh ids the repository assigns are not modelled). -/
def InspectionFindingRepository.CreateBatch (s : Store) (findings : List InspectionFinding) :
    Store :=
  { s with findings := s.findings ++ findings }

/-! ## Vision service (`diveinspectsrv/vision_service.go`) -/

/-- One element of `photoAnalysisResult.Findings`. -/
structure photoAnalysisFinding where
  Typ : String
  Severity : String
  Location : String
  Description : String
  Confidence : F64
deriving DecidableEq, Repr

/-- Go `photoAnalysisResult`: what the provider answers for one photo. -/
structure photoAnalysisResult where
  Score : Int
  Findings : List photoAnalysisFinding
deriving DecidableEq, Repr

/-- What the collaborators answer during one call of `RunInspection`: for each
repository call whether it fails (and with what), the outcome of `analyzePhoto` for
every photo, and the two readings of the clock. -/
structure Collaborators where
  getByIDErr : Option GoError
  firstUpdateErr : Option GoError
  photosErr : Option GoError
  analyzePhoto : Vehicle → InspectionPhoto → FindingZone → Except GoError photoAnalysisResult
  createBatchErr : Option GoError
  finalUpdateErr : Option GoError
  nowScoring : Time
  nowUpdate : Time

/-- A call made to a collaborator (logging apart). -/
inductive Call where
  | GetByID (id : String)
  | Update (i : Inspection)
  | PhotosGetByInspectionID (id : String)
  | analyzePhoto (photo : InspectionPhoto) (zone : FindingZone)
  | CreateBatch (findings : List InspectionFinding)
deriving DecidableEq, Repr

/-- Go `mapPhotoZoneToFindingZone`. -/
def mapPhotoZoneToFindingZone (pz : PhotoZone) : FindingZone :=
  if pz = PhotoZoneFront ∨ pz = PhotoZoneFrontLeft then ZoneFront
  else if pz = PhotoZoneRear ∨ pz = PhotoZoneRearRight then ZoneRear
  else if pz = PhotoZoneLeft then ZoneLeft
  else if pz = PhotoZoneRight then ZoneRight
  else if pz = PhotoZoneInteriorDriver ∨ pz = PhotoZoneDashboard ∨ pz = PhotoZoneInfotainment then
    ZoneInteriorFront
  else if pz = PhotoZoneInteriorPassenger ∨ pz = PhotoZoneInteriorRear then ZoneInteriorRear
  else if pz = PhotoZoneEngine then ZoneEngine
  else if pz = PhotoZoneTrunk then ZoneTrunk
  else ZoneFront

/-- Go `isExteriorZone`. -/
def isExteriorZone (pz : PhotoZone) : Bool :=
  if pz = PhotoZoneFront ∨ pz = PhotoZoneRear ∨ pz = PhotoZoneLeft ∨ pz = PhotoZoneRight ∨
      pz = PhotoZoneFrontLeft ∨ pz = PhotoZoneRearRight then true
  else false

/-- Go `isInteriorZone`. -/
def isInteriorZone (pz : PhotoZone) : Bool :=
  if pz = PhotoZoneInteriorDriver ∨ pz = PhotoZoneInteriorPassenger ∨
      pz = PhotoZoneInteriorRear ∨ pz = PhotoZoneDashboard ∨ pz = PhotoZoneInfotainment then true
  else false

/-- Go `avgScore`: the running sum is an `int`, the quotient truncates toward zero. -/
def avgScore (scores : List Int) (defaultVal : Int) : Int :=
  if scores.length = 0 then defaultVal
  else
    let sum := scores.foldl (fun sum s => wrapInt64 (sum + s)) 0
    Int.tdiv sum (scores.length : Int)

/-- The `age` of `calculateMechanicalBase`: `time.Now().Year() - vehicle.Year`. -/
def vehicleAge (now : Time) (vehicle : Vehicle) : Int :=
  wrapInt64 (now.Year - vehicle.Year)

/-- Go `calculateMechanicalBase`, the clock reading being an argument. -/
def calculateMechanicalBase (now : Time) (vehicle : Vehicle) : Int :=
  let age := vehicleAge now vehicle
  let km := vehicle.MileageKM
  let score : Int := 10
  let score := if age > 5 then score - 2 else if age > 2 then score - 1 else score
  let score :=
    if km > 100000 then score - 3
    else if km > 50000 then score - 2
    else if km > 20000 then score - 1
    else score
  if score < 1 then 1 else score

/-- The overall score of `RunInspection` (the statement computing `overall` and its
clamp): `float64(e)*0.35*10 + float64(i)*0.30*10 + float64(m)*0.20*10 +
float64(t)*0.15*10`, evaluated left to right in binary64, rounded by `math.Round`,
converted to `int` and capped at 100. -/
def overallScore (scoreExterior scoreInterior scoreMechanical scoreTires : Int) : Int :=
  let x := F64.add (F64.add (F64.add
      (F64.mul (F64.mul (F64.ofInt scoreExterior) (F64.ofRatio 35 100)) (F64.ofInt 10))
      (F64.mul (F64.mul (F64.ofInt scoreInterior) (F64.ofRatio 30 100)) (F64.ofInt 10)))
      (F64.mul (F64.mul (F64.ofInt scoreMechanical) (F64.ofRatio 20 100)) (F64.ofInt 10)))
      (F64.mul (F64.mul (F64.ofInt scoreTires) (F64.ofRatio 15 100)) (F64.ofInt 10))
  let overall := floatToInt (F64.round x)
  if overall > 100 then 100 else overall

/-- The slices `RunInspection` fills while it walks over the photos. -/
structure Accumulators where
  allFindings : List InspectionFinding
  exteriorScores : List Int
  interiorScores : List Int
  mechanicalScores : List Int
  tireScores : List Int
deriving DecidableEq, Repr

/-- The accumulators before the first photo. -/
def Accumulators.empty : Accumulators := ⟨[], [], [], [], []⟩

/-- The finding record `RunInspection` builds from one finding of the provider
(the body of its inner loop). -/
def convertFinding (inspectionID : String) (photo : InspectionPhoto) (zone : FindingZone)
    (f : photoAnalysisFinding) : InspectionFinding :=
  let desc := if f.Location ≠ "" then f.Location ++ " - " ++ f.Description else f.Description
  { ID := "", InspectionID := inspectionID, PhotoURL := some photo.PhotoURL,
    AnnotatedPhotoURL := none, Zone := zone, FindingType := f.Typ, Severity := f.Severity,
    Description := some desc, AIConfidence := some f.Confidence, ConfirmedByHuman := false }

/-- The switch of `RunInspection` that files the score of an analysed photo. -/
def classifyScore (acc : Accumulators) (zone : PhotoZone) (score : Int) : Accumulators :=
  if isExteriorZone zone then { acc with exteriorScores := acc.exteriorScores ++ [score] }
  else if isInteriorZone zone then { acc with interiorScores := acc.interiorScores ++ [score] }
  else if zone = PhotoZoneEngine then
    { acc with mechanicalScores := acc.mechanicalScores ++ [score] }
  else acc

/-- One pass of the photo loop of `RunInspection`: a photo whose analysis fails is
skipped, otherwise its score is classified and its findings are converted. -/
def photoStep (analyze : InspectionPhoto → FindingZone → Except GoError photoAnalysisResult)
    (inspectionID : String) (acc : Accumulators) (photo : InspectionPhoto) : Accumulators :=
  let zone := mapPhotoZoneToFindingZone photo.Zone
  match analyze photo zone with
  | Except.error _ => acc
  | Except.ok result =>
    let acc := classifyScore acc photo.Zone result.Score
    { acc with allFindings :=
        acc.allFindings ++ result.Findings.map (convertFinding inspectionID photo zone) }

/-- The photo loop of `RunInspection`. -/
def photoLoop (analyze : InspectionPhoto → FindingZone → Except GoError photoAnalysisResult)
    (inspectionID : String) (photos : List InspectionPhoto) : Accumulators :=
  photos.foldl (photoStep analyze inspectionID) Accumulators.empty

/-- What a call of `RunInspection` leaves behind: the returned error (`none` for
`nil`), the store, and the calls made to the collaborators, in order. -/
structure Outcome where
  err : Option GoError
  store : Store
  calls : List Call
deriving DecidableEq, Repr

/-- An `InspectionRepository.Update` call that the collaborator may fail. -/
def tryUpdate (fault : Option GoError) (s : Store) (i : Inspection) : Except GoError Store :=
  match fault with
  | some e => Except.error e
  | none => InspectionRepository.Update s i

/-- The record `RunInspection` writes back after the photo loop. -/
def completedInspection (c : Collaborators) (vehicle : Vehicle) (inspection : Inspection)
    (acc : Accumulators) (photos : List InspectionPhoto) : Inspection :=
  let scoreExterior := avgScore acc.exteriorScores 10
  let scoreInterior := avgScore acc.interiorScores 10
  let scoreMechanical := avgScore acc.mechanicalScores (calculateMechanicalBase c.nowScoring vehicle)
  let scoreTires := avgScore acc.tireScores 8
  let overall := overallScore scoreExterior scoreInterior scoreMechanical scoreTires
  { inspection with
    ScoreOverall := some overall, ScoreExterior := some scoreExterior,
    ScoreInterior := some scoreInterior, ScoreMechanical := some scoreMechanical,
    ScoreTires := some scoreTires, FindingsCount := (acc.allFindings.length : Int),
    PhotosCount := (photos.length : Int), Status := InspectionCompleted,
    InspectedAt := some c.nowUpdate }

/-- The part of `VisionService.RunInspection` after the check for photos: the photo
loop, the scores, the batch save of the findings and the final update.  `s1` is the
store after the first update, `inspection` the record in memory, `calls1` the calls
made so far. -/
def VisionService.analyseAndStore (c : Collaborators) (s1 : Store) (vehicle : Vehicle)
    (inspectionID : String) (inspection : Inspection) (photos : List InspectionPhoto)
    (calls1 : List Call) : Outcome :=
  let acc := photoLoop (c.analyzePhoto vehicle) inspectionID photos
  let calls2 := calls1 ++
    photos.map fun p => Call.analyzePhoto p (mapPhotoZoneToFindingZone p.Zone)
  let saved :=
    if acc.allFindings.length > 0 then
      (match c.createBatchErr with
        | some _ => s1
        | none => InspectionFindingRepository.CreateBatch s1 acc.allFindings,
       calls2 ++ [Call.CreateBatch acc.allFindings])
    else (s1, calls2)
  let inspection := completedInspection c vehicle inspection acc photos
  let calls3 := saved.2 ++ [Call.Update inspection]
  match tryUpdate c.finalUpdateErr saved.1 inspection with
  | Except.error e =>
    ⟨some (errx.Wrap e "Failed to update inspection results" ErrorType.TypeInternal),
      saved.1, calls3⟩
  | Except.ok s3 => ⟨none, s3, calls3⟩

/-- Go `VisionService.RunInspection`. -/
def VisionService.RunInspection (c : Collaborators) (s : Store) (vehicle : Vehicle)
    (inspectionID : String) : Outcome :=
  let getResult :=
    match c.getByIDErr with
    | some e => Except.error e
    | none => InspectionRepository.GetByID s inspectionID
  match getResult with
  | Except.error e => ⟨some e, s, [Call.GetByID inspectionID]⟩
  | Except.ok found =>
    let inspection := { found with Status := InspectionProcessing }
    match tryUpdate c.firstUpdateErr s inspection with
    | Except.error e => ⟨some e, s, [Call.GetByID inspectionID, Call.Update inspection]⟩
    | Except.ok s1 =>
      let calls1 := [Call.GetByID inspectionID, Call.Update inspection,
        Call.PhotosGetByInspectionID inspectionID]
      match c.photosErr with
      | some e => ⟨some (errx.Wrap e "Failed to get inspection photos" ErrorType.TypeInternal),
          s1, calls1⟩
      | none =>
        let photos := InspectionPhotoRepository.GetByInspectionID s1 inspectionID
        if photos.length = 0 then
          ⟨some (errx.Validation "No photos uploaded for this inspection"), s1, calls1⟩
        else VisionService.analyseAndStore c s1 vehicle inspectionID inspection photos calls1

/-! ## Inspection service (`diveinspectsrv/inspection_service.go`) -/

/-- `InspectionRepository.Create`: a row without id gets the fresh identifier `newID`
(`uuid.New().String()`), and the row is inserted. -/
def InspectionRepository.Create (s : Store) (newID : String) (i : Inspection) :
    Store × Inspection :=
  let i := if i.ID = "" then { i with ID := newID } else i
  ({ s with inspections := s.inspections ++ [i] }, i)

/-- `InspectionPhotoRepository.Create`: a row without id gets the fresh identifier
`newID`, the row is inserted and the database returns its upload time. -/
def InspectionPhotoRepository.Create (s : Store) (newID : String) (uploadedAt : Time)
    (p : InspectionPhoto) : Store × InspectionPhoto :=
  let p := if p.ID = "" then { p with ID := newID } else p
  let p := { p with UploadedAt := uploadedAt }
  ({ s with photos := s.photos ++ [p] }, p)

/-- What the collaborators answer during one call of `CreateInspection`: whether the
lookup of the vehicle and the insertion fail, and the fresh identifier. -/
structure CreateCollaborators where
  vehicleErr : Option GoError
  createErr : Option GoError
  newID : String

/-- Go `InspectionService.CreateInspection`: the returned inspection or error, and the
store afterwards. -/
def InspectionService.CreateInspection (c : CreateCollaborators) (s : Store)
    (vehicleID : String) (inspectorName inspectorBranch : Option String) :
    Except GoError Inspection × Store :=
  match c.vehicleErr with
  | some e => (Except.error e, s)
  | none =>
    let inspection : Inspection :=
      { ID := "", VehicleID := vehicleID, InspectorName := inspectorName,
        InspectorBranch := inspectorBranch, ScoreOverall := none, ScoreExterior := none,
        ScoreInterior := none, ScoreMechanical := none, ScoreTires := none, PhotosCount := 0,
        FindingsCount := 0, Status := InspectionPending, PDFURL := none, InspectedAt := none }
    match c.createErr with
    | some e =>
      (Except.error (errx.Wrap e "Failed to create inspection" ErrorType.TypeInternal), s)
    | none =>
      let created := InspectionRepository.Create s c.newID inspection
      (Except.ok created.2, created.1)

/-- What the collaborators answer during one call of `UploadPhoto`: for each call
whether it fails, the two fresh identifiers (of the storage path and of the photo row)
and the upload time the database returns. -/
structure UploadCollaborators where
  getByIDErr : Option GoError
  writeFileErr : Option GoError
  photosErr : Option GoError
  createErr : Option GoError
  updateErr : Option GoError
  photoID : String
  newID : String
  uploadedAt : Time

/-- Go `InspectionService.UploadPhoto`: the returned photo or error, and the store
afterwards (the file system is not part of the store).  A failure of the photo listing
and a failure of the closing update of the photo count are ignored, as in the source;
the photo record starts with the zero `time.Time`, whose year is 1. -/
def InspectionService.UploadPhoto (c : UploadCollaborators) (s : Store) (inspectionID : String)
    (zone : PhotoZone) (filename : String) : Except GoError InspectionPhoto × Store :=
  let getResult :=
    match c.getByIDErr with
    | some e => Except.error e
    | none => InspectionRepository.GetByID s inspectionID
  match getResult with
  | Except.error e => (Except.error e, s)
  | Except.ok inspection =>
    let storagePath := "inspections/" ++ inspectionID ++ "/photos/" ++ c.photoID ++ "_" ++ filename
    match c.writeFileErr with
    | some e => (Except.error (errx.Wrap e "Failed to upload photo" ErrorType.TypeInternal), s)
    | none =>
      let photos :=
        match c.photosErr with
        | some _ => []
        | none => InspectionPhotoRepository.GetByInspectionID s inspectionID
      let sortOrder : Int := (photos.length : Int)
      let photo : InspectionPhoto :=
        { ID := "", InspectionID := inspectionID, PhotoURL := storagePath, Zone := zone,
          SortOrder := sortOrder, UploadedAt := ⟨0, 1⟩ }
      match c.createErr with
      | some e =>
        (Except.error (errx.Wrap e "Failed to save photo record" ErrorType.TypeInternal), s)
      | none =>
        let created := InspectionPhotoRepository.Create s c.newID c.uploadedAt photo
        let inspection := { inspection with PhotosCount := sortOrder + 1 }
        match tryUpdate c.updateErr created.1 inspection with
        | Except.error _ => (Except.ok created.2, created.1)
        | Except.ok s2 => (Except.ok created.2, s2)

/-- An operation on the store: a photo upload or an inspection run, with what the
collaborators answer during it.  The run is `VisionService.RunInspection` for any
vehicle; `InspectionService.RunInspection` only looks up the inspection and its vehicle
before it calls it. -/
inductive Operation where
  | UploadPhoto (c : UploadCollaborators) (inspectionID : String) (zone : PhotoZone)
      (filename : String)
  | RunInspection (c : Collaborators) (vehicle : Vehicle) (inspectionID : String)

/-- The error an operation returns (`none` for `nil`) and the store it leaves. -/
def Operation.apply (s : Store) : Operation → Option GoError × Store
  | Operation.UploadPhoto c inspectionID zone filename =>
    (match (InspectionService.UploadPhoto c s inspectionID zone filename).1 with
      | Except.ok _ => none
      | Except.error e => some e,
      (InspectionService.UploadPhoto c s inspectionID zone filename).2)
  | Operation.RunInspection c vehicle inspectionID =>
    ((VisionService.RunInspection c s vehicle inspectionID).err,
      (VisionService.RunInspection c s vehicle inspectionID).store)

/-- The store after a sequence of operations. -/
def runOperations (s : Store) (ops : List Operation) : Store :=
  ops.foldl (fun s op => (op.apply s).2) s

/-! ## Go strings and formatting -/

/-- A Go `string`: a sequence of bytes, not necessarily valid UTF-8.  A byte is a
natural number below 256. -/
abbrev GoString := List Nat

/-- The bytes of an ASCII string constant of the source. -/
def bytesOf (s : String) : GoString := s.toList.map Char.toNat

/-- The verb `%d` of `fmt.Sprintf` for a non-negative `int`: its decimal digits. -/
def decimal (n : Nat) : GoString := (Nat.toDigits 10 n).map Char.toNat

/-- The verb `%010d` of `fmt.Sprintf` for a non-negative `int`: the decimal digits,
padded on the left with zeros to at least ten characters. -/
def decimal10 (n : Nat) : GoString :=
  List.replicate (10 - (decimal n).length) 48 ++ decimal n

/-- `strings.ReplaceAll(s, old, new)` for a pattern `old` of one byte: every occurrence
of the byte is replaced. -/
def stringsReplaceAll (s : GoString) (old : Nat) (new : GoString) : GoString :=
  s.flatMap fun b => if b = old then new else [b]

/-- `strings.Split(s, sep)` for a separator of one byte: the pieces between the
occurrences of the separator, one more than there are occurrences. -/
def stringsSplit (sep : Nat) : GoString → List GoString
  | [] => [[]]
  | b :: rest =>
    if b = sep then [] :: stringsSplit sep rest
    else
      match stringsSplit sep rest with
      | line :: lines => (b :: line) :: lines
      | [] => [[b]]

/-- The rune `utf8.RuneError` (U+FFFD). -/
def RuneError : Nat := 65533

/-- Go's decoding of the first rune of a non-empty string (`utf8.DecodeRuneInString`,
which is what `range` over a string applies): the rune and the number of bytes it
takes.  An ASCII byte is itself; a well-formed sequence of two to four bytes gives its
code point; any other first byte gives `RuneError` with width 1. -/
def decodeRune (s : GoString) : Nat × Nat :=
  match s with
  | [] => (RuneError, 0)
  | s0 :: rest =>
    if s0 < 128 then (s0, 1)
    else if s0 < 194 then (RuneError, 1)
    else if s0 ≤ 223 then
      match rest with
      | s1 :: _ =>
        if s1 < 128 ∨ 191 < s1 then (RuneError, 1)
        else (s0 % 32 * 64 + s1 % 64, 2)
      | _ => (RuneError, 1)
    else if s0 ≤ 239 then
      match rest with
      | s1 :: s2 :: _ =>
        if s1 < (if s0 = 224 then 160 else 128) ∨ (if s0 = 237 then 159 else 191) < s1 then
          (RuneError, 1)
        else if s2 < 128 ∨ 191 < s2 then (RuneError, 1)
        else (s0 % 16 * 4096 + s1 % 64 * 64 + s2 % 64, 3)
      | _ => (RuneError, 1)
    else if s0 ≤ 244 then
      match rest with
      | s1 :: s2 :: s3 :: _ =>
        if s1 < (if s0 = 240 then 144 else 128) ∨ (if s0 = 244 then 143 else 191) < s1 then
          (RuneError, 1)
        else if s2 < 128 ∨ 191 < s2 then (RuneError, 1)
        else if s3 < 128 ∨ 191 < s3 then (RuneError, 1)
        else (s0 % 8 * 262144 + s1 % 64 * 4096 + s2 % 64 * 64 + s3 % 64, 4)
      | _ => (RuneError, 1)
    else (RuneError, 1)

/-- The runes `for _, r := range s` yields.  `skip` counts the bytes still to pass
over because they belong to the rune decoded last; the loop starts with `skip = 0`. -/
def rangeRunes (skip : Nat) : GoString → List Nat
  | [] => []
  | b :: rest =>
    if skip > 0 then rangeRunes (skip - 1) rest
    else (decodeRune (b :: rest)).1 :: rangeRunes ((decodeRune (b :: rest)).2 - 1) rest

/-! ## Report writer (`diveinspectsrv/report_service.go`) -/

/-- Go `pdfEscapeString`. -/
def pdfEscapeString (s : GoString) : GoString :=
  let s := stringsReplaceAll s 92 [92, 92]
  let s := stringsReplaceAll s 40 [92, 40]
  let s := stringsReplaceAll s 41 [92, 41]
  (rangeRunes 0 s).foldl (fun result r => if r > 127 then result ++ [63] else result ++ [r]) []

/-- Go `pdfWriter.buildTextStream`. -/
def buildTextStream (content : GoString) : GoString :=
  let stream := bytesOf "BT\n"
  let stream := stream ++ bytesOf "/F1 9 Tf\n"
  let stream := stream ++ bytesOf "1 0 0 1 40 800 Tm\n"
  let stream := stream ++ bytesOf "12 TL\n"
  let lines := stringsSplit 10 content
  let stream := lines.foldl
    (fun stream line => stream ++ (bytesOf "(" ++ pdfEscapeString line ++ bytesOf ") Tj T*\n"))
    stream
  stream ++ bytesOf "ET"

/-- Go `pdfWriter`. -/
structure pdfWriter where
  pages : List GoString
deriving DecidableEq, Repr

/-- Go `newPDFWriter`. -/
def newPDFWriter : pdfWriter := ⟨[]⟩

/-- Go `pdfWriter.addPage`. -/
def pdfWriter.addPage (w : pdfWriter) (content : GoString) : pdfWriter :=
  ⟨w.pages ++ [content]⟩

/-- The text of object 1 written by `pdfWriter.bytes`. -/
def catalogObject : GoString :=
  bytesOf "1 0 obj\n<< /Type /Catalog /Pages 2 0 R >>\nendobj\n"

/-- The string `pageRefs` that `pdfWriter.bytes` builds in its first loop. -/
def pdfWriter.pageRefs (w : pdfWriter) : GoString :=
  (List.range w.pages.length).foldl
    (fun pageRefs i =>
      (if i > 0 then pageRefs ++ bytesOf " " else pageRefs) ++
        (decimal (4 + i * 2) ++ bytesOf " 0 R"))
    []

/-- The text of object 2 written by `pdfWriter.bytes`. -/
def pdfWriter.pagesObject (w : pdfWriter) : GoString :=
  bytesOf "2 0 obj\n<< /Type /Pages /Kids [ " ++ w.pageRefs ++ bytesOf " ] /Count " ++
    decimal w.pages.length ++ bytesOf " >>\nendobj\n"

/-- The text of object 3 written by `pdfWriter.bytes`. -/
def fontObject : GoString :=
  bytesOf "3 0 obj\n<< /Type /Font /Subtype /Type1 /BaseFont /Courier >>\nendobj\n"

/-- The text of a page object written by `pdfWriter.bytes`. -/
def pageObject (pageObj contentObj : Nat) : GoString :=
  decimal pageObj ++
    bytesOf " 0 obj\n<< /Type /Page /Parent 2 0 R /MediaBox [0 0 595 842] /Contents " ++
    decimal contentObj ++ bytesOf " 0 R /Resources << /Font << /F1 3 0 R >> >> >>\nendobj\n"

/-- The text of a content-stream object written by `pdfWriter.bytes`. -/
def contentObject (contentObj : Nat) (stream : GoString) : GoString :=
  decimal contentObj ++ bytesOf " 0 obj\n<< /Length " ++ decimal stream.length ++
    bytesOf " >>\nstream\n" ++ stream ++ bytesOf "\nendstream\nendobj\n"

/-- The variables of `pdfWriter.bytes` while the objects are written: the builder, the
recorded offsets and the next object number. -/
structure renderState where
  b : GoString
  offsets : List Nat
  nextObj : Nat
deriving DecidableEq, Repr

/-- One pass of the page loop of `pdfWriter.bytes`. -/
def writePage (st : renderState) (pageContent : GoString) : renderState :=
  let pageObj := st.nextObj
  let contentObj := st.nextObj + 1
  let nextObj := st.nextObj + 2
  let stream := buildTextStream pageContent
  let offsets := st.offsets ++ [st.b.length]
  let b := st.b ++ pageObject pageObj contentObj
  let offsets := offsets ++ [b.length]
  let b := b ++ contentObject contentObj stream
  ⟨b, offsets, nextObj⟩

/-- The part of `pdfWriter.bytes` before the cross-reference table: header, catalog,
pages object, font and the page loop. -/
def pdfWriter.writeObjects (w : pdfWriter) : renderState :=
  let b := bytesOf "%PDF-1.4\n"
  let offsets := [b.length]
  let b := b ++ catalogObject
  let offsets := offsets ++ [b.length]
  let b := b ++ w.pagesObject
  let offsets := offsets ++ [b.length]
  let b := b ++ fontObject
  w.pages.foldl writePage ⟨b, offsets, 4⟩

/-- Go `pdfWriter.bytes`.  Lengths and object numbers are far below the range of `int`
for any document that fits in memory, so they are not wrapped. -/
def pdfWriter.bytes (w : pdfWriter) : GoString :=
  let st := w.writeObjects
  let xrefOffset := st.b.length
  let totalObjects := st.offsets.length + 1
  let b := st.b ++ (bytesOf "xref\n0 " ++ decimal totalObjects ++ bytesOf "\n")
  let b := b ++ bytesOf "0000000000 65535 f \n"
  let b := st.offsets.foldl (fun b offset => b ++ (decimal10 offset ++ bytesOf " 00000 n \n")) b
  b ++ (bytesOf "trailer\n<< /Size " ++ decimal totalObjects ++
    bytesOf " /Root 1 0 R >>\nstartxref\n" ++ decimal xrefOffset ++ bytesOf "\n%%EOF\n")

/-! ## Reference formula of the specification -/

/-- The overall score as the specification words it:
`round(3.5*exterior + 3*interior + 2*mechanical + 1.5*tires)` capped at 100, the
weighted sum taken exactly and halves rounded away from zero.  Twice the weighted sum
is the integer `n`, so the rounded sum is `(n + 1) / 2` for `n ≥ 0` and
`-((-n + 1) / 2)` below. -/
def specOverallScore (exterior interior mechanical tires : Int) : Int :=
  let n := 7 * exterior + 6 * interior + 4 * mechanical + 3 * tires
  let rounded := if 0 ≤ n then (n + 1) / 2 else -((-n + 1) / 2)
  min 100 rounded

/-- The reading of an escaped string that the specification describes: from left to
right, a backslash together with the character after it is replaced by that character;
every other character is kept (and so is a backslash that ends the string). -/
def specUnescape : GoString → GoString
  | [] => []
  | b :: rest =>
    if b = 92 then
      match rest with
      | [] => [b]
      | c :: rest2 => c :: specUnescape rest2
    else b :: specUnescape rest

/-! ## Closed forms of the photo loop and sample data -/

/-- The scores of the successfully analysed photos whose zone satisfies `bucket`, in
photo order. -/
def scoresWhere (analyze : InspectionPhoto → FindingZone → Except GoError photoAnalysisResult)
    (bucket : PhotoZone → Bool) (photos : List InspectionPhoto) : List Int :=
  photos.filterMap fun p =>
    match analyze p (mapPhotoZoneToFindingZone p.Zone) with
    | Except.ok result => if bucket p.Zone then some result.Score else none
    | Except.error _ => none

/-- The finding records one photo yields: none when its analysis fails. -/
def findingsOfPhoto (analyze : InspectionPhoto → FindingZone → Except GoError photoAnalysisResult)
    (inspectionID : String) (p : InspectionPhoto) : List InspectionFinding :=
  match analyze p (mapPhotoZoneToFindingZone p.Zone) with
  | Except.ok result =>
    result.Findings.map (convertFinding inspectionID p (mapPhotoZoneToFindingZone p.Zone))
  | Except.error _ => []

/-- Zones whose score reaches the interior bucket (second case of the switch). -/
def feedsInterior (z : PhotoZone) : Bool := !isExteriorZone z && isInteriorZone z

/-- Zones whose score reaches the mechanical bucket (third case of the switch). -/
def feedsMechanical (z : PhotoZone) : Bool :=
  !isExteriorZone z && !isInteriorZone z && decide (z = PhotoZoneEngine)

/-- The rows of the inspections table after `InspectionRepository.Update` has written
`i` into the rows with id `id`. -/
def updatedRows (rows : List Inspection) (id : String) (i : Inspection) : List Inspection :=
  rows.map fun r => if r.ID == id then InspectionRepository.writeColumns r i else r

/-- The store `VisionService.analyseAndStore` hands to the final update: the findings
are appended when there are some and the batch save succeeds. -/
def storeAfterBatch (c : Collaborators) (s1 : Store) (findings : List InspectionFinding) :
    Store :=
  if findings.length > 0 then
    match c.createBatchErr with
    | some _ => s1
    | none => InspectionFindingRepository.CreateBatch s1 findings
  else s1

/-- A sample vehicle. -/
def sampleVehicle : Vehicle :=
  { ID := "v1", Brand := "Jeep", Model := "Compass", Version := none, Year := 2015,
    MileageKM := 120000 }

/-- A recent sample vehicle with few kilometres. -/
def recentVehicle : Vehicle :=
  { ID := "v2", Brand := "Jeep", Model := "Avenger", Version := some "Altitude", Year := 2025,
    MileageKM := 8000 }

/-- A sample inspection row with status pending and no scores. -/
def sampleInspection : Inspection :=
  { ID := "i1", VehicleID := "v1", InspectorName := none, InspectorBranch := none,
    ScoreOverall := none, ScoreExterior := none, ScoreInterior := none,
    ScoreMechanical := none, ScoreTires := none, PhotosCount := 0, FindingsCount := 0,
    Status := InspectionPending, PDFURL := none, InspectedAt := none }

/-- A sample photo of inspection `i1`. -/
def samplePhoto (id : String) (zone : PhotoZone) (sortOrder : Int) : InspectionPhoto :=
  { ID := id, InspectionID := "i1", PhotoURL := "inspections/i1/photos/" ++ id,
    Zone := zone, SortOrder := sortOrder, UploadedAt := ⟨0, 2026⟩ }

/-- Collaborators that never fail, the provider answering `score zone` with no
findings for a photo of zone `zone`. -/
def sampleCollaborators (score : PhotoZone → Int) : Collaborators :=
  { getByIDErr := none, firstUpdateErr := none, photosErr := none,
    analyzePhoto := fun _ p _ => Except.ok ⟨score p.Zone, []⟩,
    createBatchErr := none, finalUpdateErr := none,
    nowScoring := ⟨0, 2026⟩, nowUpdate := ⟨1, 2026⟩ }

/-- Sample provider scores: 3 for a front photo, 9 for a dashboard photo, 5 otherwise. -/
def sampleScores (z : PhotoZone) : Int :=
  if z = PhotoZoneFront then 3 else if z = PhotoZoneDashboard then 9 else 5

/-- A store holding the sample inspection and three photos: front, dashboard, engine. -/
def sampleStore : Store :=
  { inspections := [sampleInspection],
    photos := [samplePhoto "p1" PhotoZoneFront 0, samplePhoto "p2" PhotoZoneDashboard 1,
      samplePhoto "p3" PhotoZoneEngine 2],
    findings := [] }

/-- A store holding the sample inspection and a single engine photo. -/
def engineOnlyStore : Store :=
  { inspections := [sampleInspection], photos := [samplePhoto "p1" PhotoZoneEngine 0],
    findings := [] }

/-- The sample store with its photos in the opposite order. -/
def reversedSampleStore : Store :=
  { sampleStore with photos := sampleStore.photos.reverse }

/-- A store holding the sample inspection and no photo. -/
def noPhotoStore : Store :=
  { inspections := [sampleInspection], photos := [], findings := [] }

/-- The stored status of the inspection with id `id`, if there is such a row. -/
def storedStatus (s : Store) (id : String) : Option InspectionStatus :=
  (s.inspections.find? fun r => r.ID == id).map fun r => r.Status

/-- The five scores of an inspection row: exterior, interior, mechanical, tires,
overall. -/
def Inspection.scores (i : Inspection) : List (Option Int) :=
  [i.ScoreExterior, i.ScoreInterior, i.ScoreMechanical, i.ScoreTires, i.ScoreOverall]

/-- Whether the analysis of a photo succeeds (the `err == nil` test of the photo loop). -/
def analysisSucceeded
    (analyze : InspectionPhoto → FindingZone → Except GoError photoAnalysisResult)
    (p : InspectionPhoto) : Bool :=
  match analyze p (mapPhotoZoneToFindingZone p.Zone) with
  | Except.ok _ => true
  | Except.error _ => false

/-- Collaborators whose repositories never fail and whose provider fails on every
photo. -/
def failingProvider : Collaborators :=
  { getByIDErr := none, firstUpdateErr := none, photosErr := none,
    analyzePhoto := fun _ _ _ => Except.error (GoError.plain "vision API call failed"),
    createBatchErr := none, finalUpdateErr := none,
    nowScoring := ⟨0, 2026⟩, nowUpdate := ⟨1, 2026⟩ }

/-- Collaborators whose provider fails on dashboard photos and answers score 6 with no
findings otherwise. -/
def dashboardFails : Collaborators :=
  { getByIDErr := none, firstUpdateErr := none, photosErr := none,
    analyzePhoto := fun _ p _ =>
      if p.Zone = PhotoZoneDashboard then Except.error (GoError.plain "vision API call failed")
      else Except.ok ⟨6, []⟩,
    createBatchErr := none, finalUpdateErr := none,
    nowScoring := ⟨0, 2026⟩, nowUpdate := ⟨1, 2026⟩ }

/-- The sample store without its dashboard photo. -/
def twoPhotoStore : Store :=
  { inspections := [sampleInspection],
    photos := [samplePhoto "p1" PhotoZoneFront 0, samplePhoto "p3" PhotoZoneEngine 2],
    findings := [] }

/-- A store holding the sample inspection and a single dashboard photo. -/
def dashboardStore : Store :=
  { inspections := [sampleInspection], photos := [samplePhoto "p1" PhotoZoneDashboard 0],
    findings := [] }

/-- Collaborators whose initial status update fails. -/
def firstUpdateFails : Collaborators :=
  { sampleCollaborators sampleScores with
    firstUpdateErr := some (GoError.plain "connection refused") }

/-- Collaborators whose final update fails. -/
def finalUpdateFails : Collaborators :=
  { sampleCollaborators sampleScores with
    finalUpdateErr := some (GoError.plain "connection refused") }

/-- A provider finding: a moderate dent with confidence 0.8 and no location text. -/
def dentFinding : photoAnalysisFinding :=
  { Typ := "dent", Severity := "moderate", Location := "", Description := "abolladura",
    Confidence := F64.ofRatio 8 10 }

/-- Collaborators that never fail, the provider answering score 7 and two findings, a
stain on the seat and the dent, for every photo. -/
def twoFindingsProvider : Collaborators :=
  { getByIDErr := none, firstUpdateErr := none, photosErr := none,
    analyzePhoto := fun _ _ _ => Except.ok ⟨7,
      [{ Typ := "stain", Severity := "minor", Location := "asiento", Description := "mancha",
         Confidence := F64.ofRatio 9 10 }, dentFinding]⟩,
    createBatchErr := none, finalUpdateErr := none,
    nowScoring := ⟨0, 2026⟩, nowUpdate := ⟨1, 2026⟩ }

/-- Collaborators whose provider fails on dashboard photos and answers score 6 with the
dent finding otherwise, and whose batch save of the findings fails. -/
def batchFails : Collaborators :=
  { getByIDErr := none, firstUpdateErr := none, photosErr := none,
    analyzePhoto := fun _ p _ =>
      if p.Zone = PhotoZoneDashboard then Except.error (GoError.plain "vision API call failed")
      else Except.ok ⟨6, [dentFinding]⟩,
    createBatchErr := some (GoError.plain "insert failed"), finalUpdateErr := none,
    nowScoring := ⟨0, 2026⟩, nowUpdate := ⟨1, 2026⟩ }

/-- Whether a call is the batch save of the findings. -/
def Call.isCreateBatch : Call → Bool
  | Call.CreateBatch _ => true
  | _ => false

/-- Collaborators that never fail, the provider answering score 6 and the dent finding
for every photo. -/
def dentProvider : Collaborators :=
  { getByIDErr := none, firstUpdateErr := none, photosErr := none,
    analyzePhoto := fun _ _ _ => Except.ok ⟨6, [dentFinding]⟩,
    createBatchErr := none, finalUpdateErr := none,
    nowScoring := ⟨0, 2026⟩, nowUpdate := ⟨1, 2026⟩ }

/-- Whether an operation, started in store `s`, is a run of inspection `id` that
returns no error. -/
def Operation.completesRun (id : String) (s : Store) : Operation → Bool
  | Operation.UploadPhoto _ _ _ _ => false
  | Operation.RunInspection c vehicle inspectionID =>
    inspectionID == id && (VisionService.RunInspection c s vehicle inspectionID).err.isNone

/-- The number of runs of inspection `id` that return no error while a sequence of
operations is carried out from store `s`. -/
def completedRuns (id : String) : Store → List Operation → Nat
  | _, [] => 0
  | s, op :: ops =>
    (if op.completesRun id s then 1 else 0) + completedRuns id (op.apply s).2 ops

/-- The rows of inspection `id` have status pending or processing and no score. -/
def rowsUnset (id : String) (s : Store) : Prop :=
  ∀ r ∈ s.inspections, r.ID = id →
    (r.Status = InspectionPending ∨ r.Status = InspectionProcessing) ∧
      r.scores = [none, none, none, none, none]

/-- The rows of inspection `id` have status processing or completed and all scores. -/
def rowsScored (id : String) (s : Store) : Prop :=
  ∀ r ∈ s.inspections, r.ID = id →
    (r.Status = InspectionProcessing ∨ r.Status = InspectionCompleted) ∧
      ∀ x ∈ r.scores, x.isSome = true

/-- The identifier and the status of every inspection row, in table order. -/
def statusColumn (s : Store) : List (String × InspectionStatus) :=
  s.inspections.map fun r => (r.ID, r.Status)

/-- A status column in which the rows with identifier `id` have status `st`. -/
def withStatus (id : String) (st : InspectionStatus)
    (column : List (String × InspectionStatus)) : List (String × InspectionStatus) :=
  column.map fun p => if p.1 == id then (p.1, st) else p

/-- Whether the overall score of the given category scores lies in `0..100`. -/
def overallInRange (e i m t : Int) : Bool :=
  decide ((2 * overallScore e i m t - 100).natAbs ≤ 100)

/-- Whether the overall score lies in `0..100` for every exterior, interior and
mechanical score in `1..10`, the tires score being the default 8. -/
def overallTable : Bool :=
  ([1, 2, 3, 4, 5, 6, 7, 8, 9, 10] : List Int).all fun e =>
    ([1, 2, 3, 4, 5, 6, 7, 8, 9, 10] : List Int).all fun i =>
      ([1, 2, 3, 4, 5, 6, 7, 8, 9, 10] : List Int).all fun m => overallInRange e i m 8

/-- Upload collaborators that never fail; `n` numbers the photo. -/
def sampleUpload (n : String) : UploadCollaborators :=
  { getByIDErr := none, writeFileErr := none, photosErr := none, createErr := none,
    updateErr := none, photoID := "f" ++ n, newID := "p" ++ n, uploadedAt := ⟨0, 2026⟩ }

/-- Collaborators whose fetch of the photos fails. -/
def photosFetchFails : Collaborators :=
  { sampleCollaborators sampleScores with photosErr := some (GoError.plain "connection refused") }

/-- The empty store. -/
def emptyStore : Store := ⟨[], [], []⟩

/-- The store after the sample inspection has been created in the empty store. -/
def createdStore : Store :=
  (InspectionService.CreateInspection ⟨none, none, "i1"⟩ emptyStore "v1" none none).2

/-- The sample store after a run that succeeded: the inspection is completed. -/
def completedStore : Store :=
  (VisionService.RunInspection (sampleCollaborators sampleScores) sampleStore sampleVehicle
    "i1").store

/-! ## Closed forms of the report writer -/

/-- What the three replacements of `pdfEscapeString` make of one byte: a backslash is
put before a backslash and before each parenthesis. -/
def escapeByte (b : Nat) : List Nat :=
  if b = 92 then [92, 92] else if b = 40 then [92, 40] else if b = 41 then [92, 41] else [b]

/-- Whether every parenthesis of a string is preceded by an odd number of consecutive
backslashes and every maximal run of backslashes that is not followed by a parenthesis
has even length.  `run` is the number of consecutive backslashes just before the
current position. -/
def delimitersEscaped : Nat → GoString → Bool
  | run, [] => run % 2 == 0
  | run, b :: rest =>
    if b = 92 then delimitersEscaped (run + 1) rest
    else if b = 40 ∨ b = 41 then run % 2 == 1 && delimitersEscaped 0 rest
    else run % 2 == 0 && delimitersEscaped 0 rest

/-- The texts of the page and content-stream objects of a list of pages, the first
page object having number `nextObj`. -/
def pageObjects (nextObj : Nat) : List GoString → List GoString
  | [] => []
  | page :: pages =>
    pageObject nextObj (nextObj + 1) ::
      contentObject (nextObj + 1) (buildTextStream page) :: pageObjects (nextObj + 2) pages

/-- The byte positions of consecutive objects, the first one starting at `start`. -/
def offsetsFrom (start : Nat) : List GoString → List Nat
  | [] => []
  | obj :: objs => start :: offsetsFrom (start + obj.length) objs

/-- All objects of the document, in the order they are written. -/
def pdfWriter.objects (w : pdfWriter) : List GoString :=
  catalogObject :: w.pagesObject :: fontObject :: pageObjects 4 w.pages

/-- A page text with a non-ASCII character, a backslash and parentheses, on two lines:
`café \ (x)` and `ok`. -/
def samplePage : GoString := [99, 97, 102, 195, 169, 32, 92, 32, 40, 120, 41, 10, 111, 107]

/-! ## Lemmas on Go integers and `avgScore` -/

theorem wrapInt64_add_left (a b : Int) : wrapInt64 (wrapInt64 a + b) = wrapInt64 (a + b) := by
  unfold wrapInt64
  omega

theorem wrapInt64_of_range (x : Int) (h1 : minInt64 ≤ x) (h2 : x ≤ maxInt64) :
    wrapInt64 x = x := by
  unfold minInt64 at h1
  unfold maxInt64 at h2
  unfold wrapInt64
  omega

theorem wrapInt64_zero : wrapInt64 0 = 0 := by decide

theorem foldl_wrap_sum (l : List Int) (a : Int) :
    l.foldl (fun sum s => wrapInt64 (sum + s)) (wrapInt64 a) = wrapInt64 (a + l.sum) := by
  induction l generalizing a with
  | nil => simp
  | cons x xs ih =>
    rw [List.foldl_cons, wrapInt64_add_left, ih, List.sum_cons, Int.add_assoc]

theorem avgScore_of_ne_nil (scores : List Int) (defaultVal : Int) (h : scores ≠ []) :
    avgScore scores defaultVal = Int.tdiv (wrapInt64 scores.sum) (scores.length : Int) := by
  have hlen : scores.length ≠ 0 := fun h0 => h (List.length_eq_zero.mp h0)
  have hfold := foldl_wrap_sum scores 0
  rw [wrapInt64_zero, Int.zero_add] at hfold
  unfold avgScore
  rw [if_neg hlen]
  simp only [hfold]

theorem avgScore_nil (defaultVal : Int) : avgScore [] defaultVal = defaultVal := by
  simp [avgScore]

/-! ## Lemmas on the zone predicates and the photo loop -/

theorem feedsInterior_eq (z : PhotoZone) : feedsInterior z = isInteriorZone z := by
  unfold feedsInterior isExteriorZone isInteriorZone
  by_cases h : z = PhotoZoneInteriorDriver ∨ z = PhotoZoneInteriorPassenger ∨
      z = PhotoZoneInteriorRear ∨ z = PhotoZoneDashboard ∨ z = PhotoZoneInfotainment
  · rw [if_pos h]
    rcases h with h | h | h | h | h <;> subst h <;> decide
  · rw [if_neg h]
    simp

theorem feedsMechanical_eq (z : PhotoZone) :
    feedsMechanical z = decide (z = PhotoZoneEngine) := by
  unfold feedsMechanical
  by_cases h : z = PhotoZoneEngine
  · subst h
    decide
  · simp [h]

theorem scoresWhere_singleton_append
    (analyze : InspectionPhoto → FindingZone → Except GoError photoAnalysisResult)
    (bucket : PhotoZone → Bool) (p : InspectionPhoto) (ps : List InspectionPhoto) :
    scoresWhere analyze bucket [p] ++ scoresWhere analyze bucket ps =
      scoresWhere analyze bucket (p :: ps) := by
  unfold scoresWhere
  rw [← List.filterMap_append]
  rfl

theorem classifyScore_eq (acc : Accumulators) (z : PhotoZone) (score : Int) :
    classifyScore acc z score =
      { allFindings := acc.allFindings,
        exteriorScores := acc.exteriorScores ++ (if isExteriorZone z then [score] else []),
        interiorScores := acc.interiorScores ++ (if feedsInterior z then [score] else []),
        mechanicalScores := acc.mechanicalScores ++ (if feedsMechanical z then [score] else []),
        tireScores := acc.tireScores } := by
  unfold classifyScore feedsInterior feedsMechanical
  by_cases h1 : isExteriorZone z = true
  · simp [h1]
  · by_cases h2 : isInteriorZone z = true
    · simp [h1, h2]
    · by_cases h3 : z = PhotoZoneEngine
      · have e1 : isExteriorZone PhotoZoneEngine = false := by decide
        have e2 : isInteriorZone PhotoZoneEngine = false := by decide
        subst h3
        simp [e1, e2]
      · simp [h1, h2, h3]

theorem photoStep_eq (analyze : InspectionPhoto → FindingZone → Except GoError photoAnalysisResult)
    (inspectionID : String) (acc : Accumulators) (p : InspectionPhoto) :
    photoStep analyze inspectionID acc p =
      { allFindings := acc.allFindings ++ findingsOfPhoto analyze inspectionID p,
        exteriorScores := acc.exteriorScores ++ scoresWhere analyze isExteriorZone [p],
        interiorScores := acc.interiorScores ++ scoresWhere analyze feedsInterior [p],
        mechanicalScores := acc.mechanicalScores ++ scoresWhere analyze feedsMechanical [p],
        tireScores := acc.tireScores } := by
  unfold photoStep findingsOfPhoto scoresWhere
  cases h : analyze p (mapPhotoZoneToFindingZone p.Zone) with
  | error e => simp [h]
  | ok result =>
    simp only [classifyScore_eq, List.filterMap_cons, List.filterMap_nil, h]
    cases isExteriorZone p.Zone <;> cases feedsInterior p.Zone <;>
      cases feedsMechanical p.Zone <;> simp

theorem foldl_photoStep_eq
    (analyze : InspectionPhoto → FindingZone → Except GoError photoAnalysisResult)
    (inspectionID : String) (photos : List InspectionPhoto) (acc : Accumulators) :
    photos.foldl (photoStep analyze inspectionID) acc =
      { allFindings := acc.allFindings ++ photos.flatMap (findingsOfPhoto analyze inspectionID),
        exteriorScores := acc.exteriorScores ++ scoresWhere analyze isExteriorZone photos,
        interiorScores := acc.interiorScores ++ scoresWhere analyze feedsInterior photos,
        mechanicalScores := acc.mechanicalScores ++ scoresWhere analyze feedsMechanical photos,
        tireScores := acc.tireScores } := by
  induction photos generalizing acc with
  | nil => simp [scoresWhere]
  | cons p ps ih =>
    rw [List.foldl_cons, ih, photoStep_eq]
    simp only [List.append_assoc, scoresWhere_singleton_append, List.flatMap_cons]

theorem photoLoop_eq (analyze : InspectionPhoto → FindingZone → Except GoError photoAnalysisResult)
    (inspectionID : String) (photos : List InspectionPhoto) :
    photoLoop analyze inspectionID photos =
      { allFindings := photos.flatMap (findingsOfPhoto analyze inspectionID),
        exteriorScores := scoresWhere analyze isExteriorZone photos,
        interiorScores := scoresWhere analyze feedsInterior photos,
        mechanicalScores := scoresWhere analyze feedsMechanical photos,
        tireScores := [] } := by
  unfold photoLoop
  rw [foldl_photoStep_eq]
  simp [Accumulators.empty]

theorem avgScore_perm (l1 l2 : List Int) (defaultVal : Int) (h : l1.Perm l2) :
    avgScore l1 defaultVal = avgScore l2 defaultVal := by
  by_cases hn : l1 = []
  · subst hn
    rw [List.Perm.nil_eq h]
  · have hn2 : l2 ≠ [] := fun h2 => hn (by subst h2; exact List.Perm.eq_nil h)
    rw [avgScore_of_ne_nil l1 defaultVal hn, avgScore_of_ne_nil l2 defaultVal hn2,
      List.Perm.sum_eq h, List.Perm.length_eq h]

theorem scoresWhere_perm (analyze : InspectionPhoto → FindingZone → Except GoError photoAnalysisResult)
    (bucket : PhotoZone → Bool) (l1 l2 : List InspectionPhoto) (h : l1.Perm l2) :
    (scoresWhere analyze bucket l1).Perm (scoresWhere analyze bucket l2) :=
  List.Perm.filterMap _ h

theorem scoresWhere_eq_nil (analyze : InspectionPhoto → FindingZone → Except GoError photoAnalysisResult)
    (bucket : PhotoZone → Bool) (photos : List InspectionPhoto)
    (h : ∀ p ∈ photos, ∀ r, analyze p (mapPhotoZoneToFindingZone p.Zone) = Except.ok r →
      bucket p.Zone = false) :
    scoresWhere analyze bucket photos = [] := by
  unfold scoresWhere
  rw [List.filterMap_eq_nil_iff]
  intro p hp
  cases hr : analyze p (mapPhotoZoneToFindingZone p.Zone) with
  | error e => rfl
  | ok r => simp [h p hp r hr]

/-! ## Lemmas on the repositories -/

theorem getByID_eq_ok (s : Store) (id : String) (found : Inspection) :
    InspectionRepository.GetByID s id = Except.ok found ↔
      s.inspections.find? (fun r => r.ID == id) = some found := by
  unfold InspectionRepository.GetByID
  cases h : s.inspections.find? (fun r => r.ID == id) <;> simp

theorem getByID_congr (s1 s2 : Store) (id : String) (h : s1.inspections = s2.inspections) :
    InspectionRepository.GetByID s1 id = InspectionRepository.GetByID s2 id := by
  unfold InspectionRepository.GetByID
  rw [h]

theorem getByID_id (s : Store) (id : String) (found : Inspection)
    (h : InspectionRepository.GetByID s id = Except.ok found) : found.ID = id := by
  rw [getByID_eq_ok] at h
  simpa using List.find?_some h

theorem update_of_found (s : Store) (id : String) (found i : Inspection)
    (h : InspectionRepository.GetByID s id = Except.ok found) (hi : i.ID = id) :
    InspectionRepository.Update s i =
      Except.ok { s with inspections := updatedRows s.inspections id i } := by
  have hid := getByID_id s id found h
  rw [getByID_eq_ok] at h
  have hmem := List.mem_of_find?_eq_some h
  have hany : s.inspections.any (fun r => r.ID == i.ID) = true := by
    rw [List.any_eq_true]
    exact ⟨found, hmem, by simp [hid, hi]⟩
  unfold InspectionRepository.Update updatedRows
  rw [if_pos hany, hi]

theorem getByID_updatedRows (s : Store) (id : String) (found i : Inspection)
    (photos : List InspectionPhoto) (findings : List InspectionFinding)
    (h : InspectionRepository.GetByID s id = Except.ok found) :
    InspectionRepository.GetByID
        { inspections := updatedRows s.inspections id i, photos := photos, findings := findings }
        id
      = Except.ok (InspectionRepository.writeColumns found i) := by
  have hid := getByID_id s id found h
  rw [getByID_eq_ok] at h ⊢
  unfold updatedRows
  rw [List.find?_map]
  have hfun : ((fun r : Inspection => r.ID == id) ∘
      fun r => if (r.ID == id) = true then InspectionRepository.writeColumns r i else r)
      = fun r => r.ID == id := by
    funext r
    simp only [Function.comp]
    by_cases hr : (r.ID == id) = true
    · rw [if_pos hr]
      rfl
    · rw [if_neg hr]
  rw [hfun, h]
  simp [hid]

theorem writeColumns_of_same_key (row i : Inspection) (h1 : row.ID = i.ID)
    (h2 : row.VehicleID = i.VehicleID) : InspectionRepository.writeColumns row i = i := by
  cases row
  cases i
  simp only [InspectionRepository.writeColumns] at *
  simp [h1, h2]

/-! ## Lemmas on the stages of `RunInspection` -/

theorem RunInspection_getByID_fault (c : Collaborators) (s : Store) (vehicle : Vehicle)
    (id : String) (e : GoError) (hget : c.getByIDErr = some e) :
    VisionService.RunInspection c s vehicle id = ⟨some e, s, [Call.GetByID id]⟩ := by
  simp [VisionService.RunInspection, hget]

theorem RunInspection_not_found (c : Collaborators) (s : Store) (vehicle : Vehicle)
    (id : String) (e : GoError) (hget : c.getByIDErr = none)
    (hmiss : InspectionRepository.GetByID s id = Except.error e) :
    VisionService.RunInspection c s vehicle id = ⟨some e, s, [Call.GetByID id]⟩ := by
  simp [VisionService.RunInspection, hget, hmiss]

theorem RunInspection_first_update_fault (c : Collaborators) (s : Store) (vehicle : Vehicle)
    (id : String) (found : Inspection) (e : GoError) (hget : c.getByIDErr = none)
    (hfound : InspectionRepository.GetByID s id = Except.ok found)
    (hu : c.firstUpdateErr = some e) :
    VisionService.RunInspection c s vehicle id =
      ⟨some e, s, [Call.GetByID id,
        Call.Update { found with Status := InspectionProcessing }]⟩ := by
  simp [VisionService.RunInspection, hget, hfound, hu, tryUpdate]

theorem RunInspection_photos_fault (c : Collaborators) (s : Store) (vehicle : Vehicle)
    (id : String) (found : Inspection) (e : GoError) (hget : c.getByIDErr = none)
    (hfound : InspectionRepository.GetByID s id = Except.ok found)
    (hu : c.firstUpdateErr = none) (hp : c.photosErr = some e) :
    VisionService.RunInspection c s vehicle id =
      ⟨some (errx.Wrap e "Failed to get inspection photos" ErrorType.TypeInternal),
        { s with inspections :=
            updatedRows s.inspections id { found with Status := InspectionProcessing } },
        [Call.GetByID id, Call.Update { found with Status := InspectionProcessing },
          Call.PhotosGetByInspectionID id]⟩ := by
  have hid := getByID_id s id found hfound
  have hupd := update_of_found s id found { found with Status := InspectionProcessing }
    hfound hid
  simp [VisionService.RunInspection, hget, hfound, hu, hp, tryUpdate, hupd]

theorem RunInspection_of_found (c : Collaborators) (s : Store) (vehicle : Vehicle)
    (id : String) (found : Inspection) (hget : c.getByIDErr = none)
    (hfound : InspectionRepository.GetByID s id = Except.ok found)
    (hu : c.firstUpdateErr = none) (hp : c.photosErr = none) :
    VisionService.RunInspection c s vehicle id =
      if (InspectionPhotoRepository.GetByInspectionID s id).length = 0 then
        ⟨some (errx.Validation "No photos uploaded for this inspection"),
          { s with inspections :=
              updatedRows s.inspections id { found with Status := InspectionProcessing } },
          [Call.GetByID id, Call.Update { found with Status := InspectionProcessing },
            Call.PhotosGetByInspectionID id]⟩
      else
        VisionService.analyseAndStore c
          { s with inspections :=
              updatedRows s.inspections id { found with Status := InspectionProcessing } }
          vehicle id { found with Status := InspectionProcessing }
          (InspectionPhotoRepository.GetByInspectionID s id)
          [Call.GetByID id, Call.Update { found with Status := InspectionProcessing },
            Call.PhotosGetByInspectionID id] := by
  have hid := getByID_id s id found hfound
  have hupd := update_of_found s id found { found with Status := InspectionProcessing }
    hfound hid
  simp only [VisionService.RunInspection, hget, hfound, hu, hp, tryUpdate, hupd]
  rfl

theorem storeAfterBatch_inspections (c : Collaborators) (s1 : Store)
    (findings : List InspectionFinding) :
    (storeAfterBatch c s1 findings).inspections = s1.inspections := by
  unfold storeAfterBatch InspectionFindingRepository.CreateBatch
  split
  · split <;> rfl
  · rfl

theorem storeAfterBatch_photos (c : Collaborators) (s1 : Store)
    (findings : List InspectionFinding) :
    (storeAfterBatch c s1 findings).photos = s1.photos := by
  unfold storeAfterBatch InspectionFindingRepository.CreateBatch
  split
  · split <;> rfl
  · rfl

theorem analyseAndStore_store_before_update (c : Collaborators) (s1 : Store) (vehicle : Vehicle)
    (id : String) (inspection : Inspection) (photos : List InspectionPhoto)
    (calls1 : List Call) (e : GoError) (hf : c.finalUpdateErr = some e) :
    VisionService.analyseAndStore c s1 vehicle id inspection photos calls1 =
      ⟨some (errx.Wrap e "Failed to update inspection results" ErrorType.TypeInternal),
        storeAfterBatch c s1 (photoLoop (c.analyzePhoto vehicle) id photos).allFindings,
        (if (photoLoop (c.analyzePhoto vehicle) id photos).allFindings.length > 0 then
            calls1 ++ photos.map (fun p => Call.analyzePhoto p (mapPhotoZoneToFindingZone p.Zone))
              ++ [Call.CreateBatch (photoLoop (c.analyzePhoto vehicle) id photos).allFindings]
          else
            calls1 ++ photos.map (fun p => Call.analyzePhoto p (mapPhotoZoneToFindingZone p.Zone)))
          ++ [Call.Update (completedInspection c vehicle inspection
            (photoLoop (c.analyzePhoto vehicle) id photos) photos)]⟩ := by
  unfold VisionService.analyseAndStore storeAfterBatch
  simp only [tryUpdate, hf]
  split <;> rfl

theorem analyseAndStore_ok (c : Collaborators) (s1 : Store) (vehicle : Vehicle)
    (id : String) (inspection row : Inspection) (photos : List InspectionPhoto)
    (calls1 : List Call) (hrow : InspectionRepository.GetByID s1 id = Except.ok row)
    (hid : inspection.ID = id) (hf : c.finalUpdateErr = none) :
    VisionService.analyseAndStore c s1 vehicle id inspection photos calls1 =
      ⟨none,
        { inspections := updatedRows s1.inspections id (completedInspection c vehicle inspection
            (photoLoop (c.analyzePhoto vehicle) id photos) photos),
          photos := s1.photos,
          findings := (storeAfterBatch c s1
            (photoLoop (c.analyzePhoto vehicle) id photos).allFindings).findings },
        (if (photoLoop (c.analyzePhoto vehicle) id photos).allFindings.length > 0 then
            calls1 ++ photos.map (fun p => Call.analyzePhoto p (mapPhotoZoneToFindingZone p.Zone))
              ++ [Call.CreateBatch (photoLoop (c.analyzePhoto vehicle) id photos).allFindings]
          else
            calls1 ++ photos.map (fun p => Call.analyzePhoto p (mapPhotoZoneToFindingZone p.Zone)))
          ++ [Call.Update (completedInspection c vehicle inspection
            (photoLoop (c.analyzePhoto vehicle) id photos) photos)]⟩ := by
  have hrow2 : InspectionRepository.GetByID
      (storeAfterBatch c s1 (photoLoop (c.analyzePhoto vehicle) id photos).allFindings) id
        = Except.ok row := by
    rw [← hrow]
    exact getByID_congr _ _ id (storeAfterBatch_inspections c s1 _)
  have hupd := update_of_found _ id row (completedInspection c vehicle inspection
    (photoLoop (c.analyzePhoto vehicle) id photos) photos) hrow2 hid
  rw [storeAfterBatch_inspections] at hupd
  have hph := storeAfterBatch_photos c s1
    (photoLoop (c.analyzePhoto vehicle) id photos).allFindings
  unfold VisionService.analyseAndStore
  simp only [tryUpdate, hf]
  unfold storeAfterBatch at hupd hph ⊢
  by_cases hlen : (photoLoop (c.analyzePhoto vehicle) id photos).allFindings.length > 0
  · simp only [if_pos hlen] at hupd hph ⊢
    rw [hupd, hph]
  · simp only [if_neg hlen] at hupd hph ⊢
    rw [hupd]

theorem RunInspection_err_none_inv (c : Collaborators) (s : Store) (vehicle : Vehicle)
    (id : String) (h : (VisionService.RunInspection c s vehicle id).err = none) :
    c.getByIDErr = none ∧ c.firstUpdateErr = none ∧ c.photosErr = none ∧
    c.finalUpdateErr = none ∧
    (InspectionPhotoRepository.GetByInspectionID s id).length ≠ 0 ∧
    ∃ found, InspectionRepository.GetByID s id = Except.ok found := by
  cases hget : c.getByIDErr with
  | some e => rw [RunInspection_getByID_fault c s vehicle id e hget] at h; cases h
  | none =>
    cases hfound : InspectionRepository.GetByID s id with
    | error e => rw [RunInspection_not_found c s vehicle id e hget hfound] at h; cases h
    | ok found =>
      cases hu : c.firstUpdateErr with
      | some e =>
        rw [RunInspection_first_update_fault c s vehicle id found e hget hfound hu] at h
        cases h
      | none =>
        cases hp : c.photosErr with
        | some e =>
          rw [RunInspection_photos_fault c s vehicle id found e hget hfound hu hp] at h
          cases h
        | none =>
          rw [RunInspection_of_found c s vehicle id found hget hfound hu hp] at h
          by_cases hlen : (InspectionPhotoRepository.GetByInspectionID s id).length = 0
          · rw [if_pos hlen] at h
            cases h
          · rw [if_neg hlen] at h
            cases hf : c.finalUpdateErr with
            | some e =>
              rw [analyseAndStore_store_before_update c _ vehicle id _ _ _ e hf] at h
              cases h
            | none => exact ⟨rfl, rfl, rfl, rfl, hlen, found, rfl⟩

theorem RunInspection_success (c : Collaborators) (s : Store) (vehicle : Vehicle)
    (id : String) (found : Inspection)
    (hfound : InspectionRepository.GetByID s id = Except.ok found)
    (h : (VisionService.RunInspection c s vehicle id).err = none) :
    InspectionRepository.GetByID (VisionService.RunInspection c s vehicle id).store id =
      Except.ok (completedInspection c vehicle { found with Status := InspectionProcessing }
        (photoLoop (c.analyzePhoto vehicle) id
          (InspectionPhotoRepository.GetByInspectionID s id))
        (InspectionPhotoRepository.GetByInspectionID s id)) := by
  obtain ⟨hget, hu, hp, hf, hlen, _⟩ := RunInspection_err_none_inv c s vehicle id h
  have hid := getByID_id s id found hfound
  have hrow := getByID_updatedRows s id found { found with Status := InspectionProcessing }
    s.photos s.findings hfound
  have hid2 : ({ found with Status := InspectionProcessing } : Inspection).ID = id := hid
  rw [RunInspection_of_found c s vehicle id found hget hfound hu hp, if_neg hlen,
    analyseAndStore_ok c _ vehicle id _ _ _ _ hrow hid2 hf]
  simp only []
  rw [getByID_updatedRows _ id _ _ _ _ hrow]
  exact congrArg Except.ok (writeColumns_of_same_key _ _ rfl rfl)

theorem isExteriorZone_iff (z : PhotoZone) :
    isExteriorZone z = true ↔
      z ∈ [PhotoZoneFront, PhotoZoneRear, PhotoZoneLeft, PhotoZoneRight, PhotoZoneFrontLeft,
        PhotoZoneRearRight] := by
  unfold isExteriorZone
  simp

theorem isInteriorZone_iff (z : PhotoZone) :
    isInteriorZone z = true ↔
      z ∈ [PhotoZoneInteriorDriver, PhotoZoneInteriorPassenger, PhotoZoneInteriorRear,
        PhotoZoneDashboard, PhotoZoneInfotainment] := by
  unfold isInteriorZone
  simp

theorem completedInspection_perm (c : Collaborators) (vehicle : Vehicle) (id : String)
    (inspection : Inspection) (l1 l2 : List InspectionPhoto) (h : l1.Perm l2) :
    completedInspection c vehicle inspection (photoLoop (c.analyzePhoto vehicle) id l1) l1 =
      completedInspection c vehicle inspection (photoLoop (c.analyzePhoto vehicle) id l2) l2 := by
  unfold completedInspection
  rw [photoLoop_eq, photoLoop_eq]
  simp only []
  rw [avgScore_perm _ _ 10 (scoresWhere_perm (c.analyzePhoto vehicle) isExteriorZone l1 l2 h),
    avgScore_perm _ _ 10 (scoresWhere_perm (c.analyzePhoto vehicle) feedsInterior l1 l2 h),
    avgScore_perm _ _ (calculateMechanicalBase c.nowScoring vehicle)
      (scoresWhere_perm (c.analyzePhoto vehicle) feedsMechanical l1 l2 h),
    List.Perm.length_eq (List.Perm.flatMap_right (findingsOfPhoto (c.analyzePhoto vehicle) id) h),
    List.Perm.length_eq h]

/-! ## Lemmas on failed analyses -/

theorem scoresWhere_filter_succeeded
    (analyze : InspectionPhoto → FindingZone → Except GoError photoAnalysisResult)
    (bucket : PhotoZone → Bool) (photos : List InspectionPhoto) :
    scoresWhere analyze bucket (photos.filter (analysisSucceeded analyze)) =
      scoresWhere analyze bucket photos := by
  induction photos with
  | nil => rfl
  | cons p ps ih =>
    rw [← scoresWhere_singleton_append analyze bucket p ps, ← ih]
    cases hok : analysisSucceeded analyze p with
    | true =>
      rw [List.filter_cons_of_pos hok, ← scoresWhere_singleton_append]
    | false =>
      have hnot : ¬ analysisSucceeded analyze p = true := by simp [hok]
      rw [List.filter_cons_of_neg hnot]
      unfold analysisSucceeded at hok
      unfold scoresWhere
      cases hr : analyze p (mapPhotoZoneToFindingZone p.Zone) with
      | ok r => simp [hr] at hok
      | error e => simp [hr]

theorem flatMap_findings_filter_succeeded
    (analyze : InspectionPhoto → FindingZone → Except GoError photoAnalysisResult)
    (id : String) (photos : List InspectionPhoto) :
    (photos.filter (analysisSucceeded analyze)).flatMap (findingsOfPhoto analyze id) =
      photos.flatMap (findingsOfPhoto analyze id) := by
  induction photos with
  | nil => rfl
  | cons p ps ih =>
    cases hok : analysisSucceeded analyze p with
    | true =>
      rw [List.filter_cons_of_pos hok, List.flatMap_cons, List.flatMap_cons, ih]
    | false =>
      have hnot : ¬ analysisSucceeded analyze p = true := by simp [hok]
      rw [List.filter_cons_of_neg hnot, List.flatMap_cons, ih]
      unfold analysisSucceeded at hok
      unfold findingsOfPhoto
      cases hr : analyze p (mapPhotoZoneToFindingZone p.Zone) with
      | ok r => simp [hr] at hok
      | error e => simp

theorem photoLoop_filter_succeeded
    (analyze : InspectionPhoto → FindingZone → Except GoError photoAnalysisResult)
    (id : String) (photos : List InspectionPhoto) :
    photoLoop analyze id (photos.filter (analysisSucceeded analyze)) =
      photoLoop analyze id photos := by
  rw [photoLoop_eq, photoLoop_eq, scoresWhere_filter_succeeded, scoresWhere_filter_succeeded,
    scoresWhere_filter_succeeded, flatMap_findings_filter_succeeded]

theorem completedInspection_scores (c : Collaborators) (vehicle : Vehicle)
    (inspection : Inspection) (acc : Accumulators) (photos1 photos2 : List InspectionPhoto) :
    (completedInspection c vehicle inspection acc photos1).scores =
      (completedInspection c vehicle inspection acc photos2).scores := rfl

theorem updatedRows_scores (rows : List Inspection) (id : String) (i1 i2 : Inspection)
    (h : i1.scores = i2.scores) :
    (updatedRows rows id i1).map Inspection.scores =
      (updatedRows rows id i2).map Inspection.scores := by
  unfold updatedRows
  rw [List.map_map, List.map_map]
  apply List.map_congr_left
  intro r _
  simp only [Function.comp]
  by_cases hr : (r.ID == id) = true
  · rw [if_pos hr, if_pos hr]
    exact h
  · rw [if_neg hr, if_neg hr]

/-! ## Lemmas on successful runs -/

theorem RunInspection_err_none_of (c : Collaborators) (s : Store) (vehicle : Vehicle)
    (id : String) (found : Inspection) (hget : c.getByIDErr = none)
    (hfound : InspectionRepository.GetByID s id = Except.ok found)
    (hu : c.firstUpdateErr = none) (hp : c.photosErr = none)
    (hlen : (InspectionPhotoRepository.GetByInspectionID s id).length ≠ 0)
    (hfin : c.finalUpdateErr = none) :
    (VisionService.RunInspection c s vehicle id).err = none := by
  have hid := getByID_id s id found hfound
  have hid2 : ({ found with Status := InspectionProcessing } : Inspection).ID = id := hid
  have hrow := getByID_updatedRows s id found { found with Status := InspectionProcessing }
    s.photos s.findings hfound
  rw [RunInspection_of_found c s vehicle id found hget hfound hu hp, if_neg hlen,
    analyseAndStore_ok c _ vehicle id _ _ _ _ hrow hid2 hfin]

theorem RunInspection_success_findings (c : Collaborators) (s : Store) (vehicle : Vehicle)
    (id : String) (h : (VisionService.RunInspection c s vehicle id).err = none) :
    (VisionService.RunInspection c s vehicle id).store.findings =
      (storeAfterBatch c s (photoLoop (c.analyzePhoto vehicle) id
        (InspectionPhotoRepository.GetByInspectionID s id)).allFindings).findings := by
  obtain ⟨hget, hu, hp, hf, hlen, found, hfound⟩ := RunInspection_err_none_inv c s vehicle id h
  have hid := getByID_id s id found hfound
  have hid2 : ({ found with Status := InspectionProcessing } : Inspection).ID = id := hid
  have hrow := getByID_updatedRows s id found { found with Status := InspectionProcessing }
    s.photos s.findings hfound
  rw [RunInspection_of_found c s vehicle id found hget hfound hu hp, if_neg hlen,
    analyseAndStore_ok c _ vehicle id _ _ _ _ hrow hid2 hf]
  simp only [storeAfterBatch, InspectionFindingRepository.CreateBatch]
  split
  · split <;> rfl
  · rfl

theorem RunInspection_success_calls (c : Collaborators) (s : Store) (vehicle : Vehicle)
    (id : String) (h : (VisionService.RunInspection c s vehicle id).err = none)
    (hsome : (photoLoop (c.analyzePhoto vehicle) id
      (InspectionPhotoRepository.GetByInspectionID s id)).allFindings ≠ []) :
    Call.CreateBatch (photoLoop (c.analyzePhoto vehicle) id
      (InspectionPhotoRepository.GetByInspectionID s id)).allFindings ∈
        (VisionService.RunInspection c s vehicle id).calls := by
  obtain ⟨hget, hu, hp, hf, hlen, found, hfound⟩ := RunInspection_err_none_inv c s vehicle id h
  have hid := getByID_id s id found hfound
  have hid2 : ({ found with Status := InspectionProcessing } : Inspection).ID = id := hid
  have hrow := getByID_updatedRows s id found { found with Status := InspectionProcessing }
    s.photos s.findings hfound
  have hpos : (photoLoop (c.analyzePhoto vehicle) id
      (InspectionPhotoRepository.GetByInspectionID s id)).allFindings.length > 0 :=
    List.length_pos.mpr hsome
  rw [RunInspection_of_found c s vehicle id found hget hfound hu hp, if_neg hlen,
    analyseAndStore_ok c _ vehicle id _ _ _ _ hrow hid2 hf]
  simp only [if_pos hpos]
  simp

theorem scoresWhere_ne_nil (analyze : InspectionPhoto → FindingZone → Except GoError photoAnalysisResult)
    (bucket : PhotoZone → Bool) (photos : List InspectionPhoto) (p : InspectionPhoto)
    (r : photoAnalysisResult) (hp : p ∈ photos)
    (hr : analyze p (mapPhotoZoneToFindingZone p.Zone) = Except.ok r)
    (hb : bucket p.Zone = true) : scoresWhere analyze bucket photos ≠ [] := by
  intro hnil
  unfold scoresWhere at hnil
  rw [List.filterMap_eq_nil_iff] at hnil
  have := hnil p hp
  simp [hr, hb] at this

theorem findingsOfPhoto_zone (analyze : InspectionPhoto → FindingZone → Except GoError photoAnalysisResult)
    (id : String) (p : InspectionPhoto) (f : InspectionFinding)
    (hf : f ∈ findingsOfPhoto analyze id p) : f.Zone = mapPhotoZoneToFindingZone p.Zone := by
  unfold findingsOfPhoto at hf
  cases hr : analyze p (mapPhotoZoneToFindingZone p.Zone) with
  | error e => simp [hr] at hf
  | ok r =>
    simp only [hr, List.mem_map] at hf
    obtain ⟨x, _, hx⟩ := hf
    rw [← hx]
    rfl

/-! ## Lemmas on `calculateMechanicalBase` -/

theorem ageDeduction_mono (a1 a2 : Int) (h : a1 ≤ a2) :
    (if a1 > 5 then (2 : Int) else if a1 > 2 then 1 else 0) ≤
      (if a2 > 5 then (2 : Int) else if a2 > 2 then 1 else 0) := by
  split_ifs <;> omega

theorem mileageDeduction_mono (k1 k2 : Int) (h : k1 ≤ k2) :
    (if k1 > 100000 then (3 : Int) else if k1 > 50000 then 2 else if k1 > 20000 then 1 else 0) ≤
      (if k2 > 100000 then (3 : Int) else if k2 > 50000 then 2 else if k2 > 20000 then 1
        else 0) := by
  split_ifs <;> omega

theorem calculateMechanicalBase_eq (now : Time) (vehicle : Vehicle) :
    calculateMechanicalBase now vehicle =
      10 - (if vehicleAge now vehicle > 5 then (2 : Int)
          else if vehicleAge now vehicle > 2 then 1 else 0)
        - (if vehicle.MileageKM > 100000 then (3 : Int)
          else if vehicle.MileageKM > 50000 then 2
          else if vehicle.MileageKM > 20000 then 1 else 0) := by
  unfold calculateMechanicalBase
  simp only []
  split_ifs <;> omega

/-! ## Lemmas on `pdfEscapeString` -/

theorem decodeRune_ascii (b : Nat) (rest : GoString) (hb : b < 128) :
    decodeRune (b :: rest) = (b, 1) := by
  simp [decodeRune, hb]

theorem decodeRune_nonascii (b : Nat) (rest : GoString) (hb : 128 ≤ b) :
    127 < (decodeRune (b :: rest)).1 ∧ 1 ≤ (decodeRune (b :: rest)).2 ∧
    ∀ x ∈ rest.take ((decodeRune (b :: rest)).2 - 1), 128 ≤ x := by
  have hb' : ¬ b < 128 := by omega
  unfold decodeRune
  simp only [hb', if_false]
  by_cases h1 : b < 194
  · simp [h1, RuneError]
  by_cases h2 : b ≤ 223
  · simp only [h1, h2, if_false, if_true]
    rcases rest with _ | ⟨s1, rest1⟩
    · simp [RuneError]
    · simp only []
      by_cases h5 : s1 < 128 ∨ 191 < s1
      · simp [h5, RuneError]
      · simp only [h5, if_false]
        refine ⟨by omega, by simp, ?_⟩
        simp
        omega
  by_cases h3 : b ≤ 239
  · simp only [h1, h2, h3, if_false, if_true]
    rcases rest with _ | ⟨s1, _ | ⟨s2, rest2⟩⟩
    · simp [RuneError]
    · simp [RuneError]
    · simp only []
      by_cases h5 : s1 < (if b = 224 then 160 else 128) ∨ (if b = 237 then 159 else 191) < s1
      · simp [h5, RuneError]
      · simp only [h5, if_false]
        by_cases h6 : s2 < 128 ∨ 191 < s2
        · simp [h6, RuneError]
        · simp only [h6, if_false]
          have hs1 : 128 ≤ s1 ∧ s1 ≤ 191 ∧ (b = 224 → 160 ≤ s1) := by
            split_ifs at h5 <;> omega
          refine ⟨by omega, by simp, ?_⟩
          simp
          omega
  by_cases h4 : b ≤ 244
  · simp only [h1, h2, h3, h4, if_false, if_true]
    rcases rest with _ | ⟨s1, _ | ⟨s2, _ | ⟨s3, rest3⟩⟩⟩
    · simp [RuneError]
    · simp [RuneError]
    · simp [RuneError]
    · simp only []
      by_cases h5 : s1 < (if b = 240 then 144 else 128) ∨ (if b = 244 then 143 else 191) < s1
      · simp [h5, RuneError]
      · simp only [h5, if_false]
        by_cases h6 : s2 < 128 ∨ 191 < s2
        · simp [h6, RuneError]
        · simp only [h6, if_false]
          by_cases h7 : s3 < 128 ∨ 191 < s3
          · simp [h7, RuneError]
          · simp only [h7, if_false]
            have hs1 : 128 ≤ s1 ∧ s1 ≤ 191 ∧ (b = 240 → 144 ≤ s1) := by
              split_ifs at h5 <;> omega
            refine ⟨by omega, by simp, ?_⟩
            simp
            omega
  · simp [h1, h2, h3, h4, RuneError]

theorem decodeRune_takeWhile (b : Nat) (rest : GoString) :
    decodeRune (b :: rest) = decodeRune (b :: rest.takeWhile (fun x => decide (128 ≤ x))) := by
  unfold decodeRune
  by_cases h0 : b < 128
  · simp [h0]
  by_cases h1 : b < 194
  · simp [h0, h1]
  by_cases h2 : b ≤ 223
  · simp only [h0, h1, h2, if_false, if_true]
    rcases rest with _ | ⟨s1, rest1⟩
    · rfl
    · by_cases c1 : 128 ≤ s1
      · simp [List.takeWhile, c1]
      · have : s1 < 128 := by omega
        simp [List.takeWhile, c1, this]
  by_cases h3 : b ≤ 239
  · simp only [h0, h1, h2, h3, if_false, if_true]
    have hlo : 128 ≤ (if b = 224 then 160 else 128) := by split_ifs <;> omega
    rcases rest with _ | ⟨s1, _ | ⟨s2, rest2⟩⟩
    · rfl
    · by_cases c1 : 128 ≤ s1 <;> simp [List.takeWhile, c1]
    · by_cases c1 : 128 ≤ s1
      · by_cases c2 : 128 ≤ s2
        · simp [List.takeWhile, c1, c2]
        · have : s2 < 128 := by omega
          simp [List.takeWhile, c1, c2, this]
      · have : s1 < (if b = 224 then 160 else 128) := by omega
        simp [List.takeWhile, c1, this]
  by_cases h4 : b ≤ 244
  · simp only [h0, h1, h2, h3, h4, if_false, if_true]
    have hlo : 128 ≤ (if b = 240 then 144 else 128) := by split_ifs <;> omega
    rcases rest with _ | ⟨s1, _ | ⟨s2, _ | ⟨s3, rest3⟩⟩⟩
    · rfl
    · by_cases c1 : 128 ≤ s1 <;> simp [List.takeWhile, c1]
    · by_cases c1 : 128 ≤ s1 <;> by_cases c2 : 128 ≤ s2 <;> simp [List.takeWhile, c1, c2]
    · by_cases c1 : 128 ≤ s1
      · by_cases c2 : 128 ≤ s2
        · by_cases c3 : 128 ≤ s3
          · simp [List.takeWhile, c1, c2, c3]
          · have : s3 < 128 := by omega
            simp [List.takeWhile, c1, c2, c3, this]
        · have : s2 < 128 := by omega
          simp [List.takeWhile, c1, c2, this]
      · have : s1 < (if b = 240 then 144 else 128) := by omega
        simp [List.takeWhile, c1, this]
  · simp [h0, h1, h2, h3, h4]

theorem takeWhile_flatMap_escapeByte (rest : GoString) :
    (rest.flatMap escapeByte).takeWhile (fun x => decide (128 ≤ x)) =
      rest.takeWhile (fun x => decide (128 ≤ x)) := by
  induction rest with
  | nil => rfl
  | cons r rest ih =>
    by_cases c : 128 ≤ r
    · have he : escapeByte r = [r] := by
        unfold escapeByte
        split_ifs <;> first | omega | rfl
      rw [List.flatMap_cons, he]
      simp [List.takeWhile, c, ih]
    · have hh : ∃ x tail, escapeByte r = x :: tail ∧ x < 128 := by
        unfold escapeByte
        split_ifs
        · exact ⟨92, [92], rfl, by omega⟩
        · exact ⟨92, [40], rfl, by omega⟩
        · exact ⟨92, [41], rfl, by omega⟩
        · exact ⟨r, [], rfl, by omega⟩
      obtain ⟨x, tail, hx, hlt⟩ := hh
      have hx' : ¬ 128 ≤ x := by omega
      rw [List.flatMap_cons, hx]
      simp [List.takeWhile, c, hx']

theorem decodeRune_escape (b : Nat) (rest : GoString) :
    decodeRune (b :: rest.flatMap escapeByte) = decodeRune (b :: rest) := by
  rw [decodeRune_takeWhile, takeWhile_flatMap_escapeByte, ← decodeRune_takeWhile]

theorem escapeByte_of_nonascii (r : Nat) (h : 128 ≤ r) : escapeByte r = [r] := by
  unfold escapeByte
  split_ifs <;> first | omega | rfl

theorem replaceAll_fusion (s : GoString) :
    stringsReplaceAll (stringsReplaceAll (stringsReplaceAll s 92 [92, 92]) 40 [92, 40]) 41
      [92, 41] = s.flatMap escapeByte := by
  unfold stringsReplaceAll
  induction s with
  | nil => rfl
  | cons b s ih =>
    simp only [List.flatMap_cons, List.flatMap_append, ih]
    congr 1
    unfold escapeByte
    by_cases h1 : b = 92
    · subst h1; rfl
    · by_cases h2 : b = 40
      · subst h2; rfl
      · by_cases h3 : b = 41
        · subst h3; rfl
        · simp [h1, h2, h3]

theorem rangeRunes_zero_cons (b : Nat) (rest : GoString) :
    rangeRunes 0 (b :: rest) =
      (decodeRune (b :: rest)).1 :: rangeRunes ((decodeRune (b :: rest)).2 - 1) rest := by
  simp [rangeRunes]

theorem rangeRunes_succ_cons (k b : Nat) (rest : GoString) :
    rangeRunes (k + 1) (b :: rest) = rangeRunes k rest := by
  simp [rangeRunes]

theorem rangeRunes_ascii_cons (b : Nat) (rest : GoString) (hb : b < 128) :
    rangeRunes 0 (b :: rest) = b :: rangeRunes 0 rest := by
  rw [rangeRunes_zero_cons, decodeRune_ascii b rest hb]
  rfl

theorem escapeByte_ascii (b : Nat) (hb : b < 128) : ∀ x ∈ escapeByte b, x < 128 := by
  unfold escapeByte
  split_ifs <;> simp
  omega

theorem rangeRunes_ascii_append (pre rest : GoString) (hpre : ∀ x ∈ pre, x < 128) :
    rangeRunes 0 (pre ++ rest) = pre ++ rangeRunes 0 rest := by
  induction pre with
  | nil => rfl
  | cons a pre ih =>
    rw [List.cons_append, rangeRunes_ascii_cons a _ (hpre a (by simp)),
      ih (fun x hx => hpre x (by simp [hx])), List.cons_append]

theorem rangeRunes_escape (s : GoString) (skip : Nat)
    (hskip : ∀ x ∈ s.take skip, 128 ≤ x) :
    rangeRunes skip (s.flatMap escapeByte) = (rangeRunes skip s).flatMap escapeByte := by
  induction s generalizing skip with
  | nil => rfl
  | cons b t ih =>
    by_cases hs : skip > 0
    · obtain ⟨k, rfl⟩ : ∃ k, skip = k + 1 := ⟨skip - 1, by omega⟩
      have hb : 128 ≤ b := hskip b (by simp)
      have ht : ∀ x ∈ t.take k, 128 ≤ x := fun x hx => hskip x (by simp [hx])
      rw [List.flatMap_cons, escapeByte_of_nonascii b hb, List.singleton_append,
        rangeRunes_succ_cons, rangeRunes_succ_cons]
      exact ih k ht
    · have hs0 : skip = 0 := by omega
      subst hs0
      by_cases hb : b < 128
      · rw [List.flatMap_cons, rangeRunes_ascii_append _ _ (escapeByte_ascii b hb),
          rangeRunes_ascii_cons b t hb, List.flatMap_cons, ih 0 (by simp)]
      · have hb' : 128 ≤ b := by omega
        obtain ⟨hr, hsz, htake⟩ := decodeRune_nonascii b t hb'
        rw [List.flatMap_cons, escapeByte_of_nonascii b hb', List.singleton_append,
          rangeRunes_zero_cons, rangeRunes_zero_cons, decodeRune_escape, List.flatMap_cons,
          escapeByte_of_nonascii _ (by omega), ih _ htake]
        rfl

theorem foldl_write_runes (runes : List Nat) (acc : GoString) :
    runes.foldl (fun result r => if r > 127 then result ++ [63] else result ++ [r]) acc =
      acc ++ runes.flatMap (fun r => if r > 127 then [63] else [r]) := by
  induction runes generalizing acc with
  | nil => simp
  | cons r rs ih =>
    rw [List.foldl_cons, ih, List.flatMap_cons]
    split_ifs <;> simp

theorem pdfEscapeString_eq (s : GoString) :
    pdfEscapeString s = (rangeRunes 0 s).flatMap (fun r =>
      if r = 92 ∨ r = 40 ∨ r = 41 then [92, r] else if r > 127 then [63] else [r]) := by
  unfold pdfEscapeString
  simp only []
  rw [replaceAll_fusion, foldl_write_runes, List.nil_append,
    rangeRunes_escape s 0 (by simp), List.flatMap_assoc]
  congr 1
  funext r
  unfold escapeByte
  by_cases h1 : r = 92
  · subst h1; rfl
  · by_cases h2 : r = 40
    · subst h2; rfl
    · by_cases h3 : r = 41
      · subst h3; rfl
      · simp [h1, h2, h3]

theorem rangeRunes_count (c : Nat) (hc : c < 128) (s : GoString) (skip : Nat)
    (hskip : ∀ x ∈ s.take skip, 128 ≤ x) :
    (rangeRunes skip s).count c = s.count c := by
  induction s generalizing skip with
  | nil => rfl
  | cons b t ih =>
    by_cases hs : skip > 0
    · obtain ⟨k, rfl⟩ : ∃ k, skip = k + 1 := ⟨skip - 1, by omega⟩
      have hb : 128 ≤ b := hskip b (by simp)
      have ht : ∀ x ∈ t.take k, 128 ≤ x := fun x hx => hskip x (by simp [hx])
      have hne : ¬ b = c := by omega
      rw [rangeRunes_succ_cons, ih k ht, List.count_cons]
      simp [hne]
    · have hs0 : skip = 0 := by omega
      subst hs0
      by_cases hb : b < 128
      · rw [rangeRunes_ascii_cons b t hb, List.count_cons, List.count_cons, ih 0 (by simp)]
      · have hb' : 128 ≤ b := by omega
        obtain ⟨hr, hsz, htake⟩ := decodeRune_nonascii b t hb'
        have hne : ¬ b = c := by omega
        have hne2 : ¬ (decodeRune (b :: t)).1 = c := by omega
        rw [rangeRunes_zero_cons, List.count_cons, List.count_cons, ih _ htake]
        simp [hne, hne2]

theorem escaped_count (runes : List Nat) :
    (runes.flatMap (fun r =>
      if r = 92 ∨ r = 40 ∨ r = 41 then [92, r] else if r > 127 then [63] else [r])).count 92
        = 2 * runes.count 92 + runes.count 40 + runes.count 41 ∧
    (runes.flatMap (fun r =>
      if r = 92 ∨ r = 40 ∨ r = 41 then [92, r] else if r > 127 then [63] else [r])).count 40
        = runes.count 40 ∧
    (runes.flatMap (fun r =>
      if r = 92 ∨ r = 40 ∨ r = 41 then [92, r] else if r > 127 then [63] else [r])).count 41
        = runes.count 41 := by
  induction runes with
  | nil => simp
  | cons r rs ih =>
    obtain ⟨ih1, ih2, ih3⟩ := ih
    rw [List.flatMap_cons, List.count_append, List.count_append, List.count_append, ih1, ih2,
      ih3, List.count_cons, List.count_cons, List.count_cons]
    by_cases h1 : r = 92
    · subst h1
      simp
      omega
    · by_cases h2 : r = 40
      · subst h2
        simp
        omega
      · by_cases h3 : r = 41
        · subst h3
          simp
          omega
        · by_cases h4 : r > 127
          · have h5 : ¬ r = 63 := by omega
            simp [h1, h2, h3, h4]
          · simp [h1, h2, h3, h4, List.count_cons]

theorem escaped_delimiters (runes : List Nat) (run : Nat) (hrun : run % 2 = 0) :
    delimitersEscaped run (runes.flatMap (fun r =>
      if r = 92 ∨ r = 40 ∨ r = 41 then [92, r] else if r > 127 then [63] else [r])) = true := by
  induction runes generalizing run with
  | nil => simp [delimitersEscaped, hrun]
  | cons r rs ih =>
    have h0 := ih 0 rfl
    rw [List.flatMap_cons]
    by_cases h1 : r = 92
    · subst h1
      simp [delimitersEscaped]
      exact ih (run + 1 + 1) (by omega)
    · by_cases h2 : r = 40
      · subst h2
        have : (run + 1) % 2 = 1 := by omega
        simp [delimitersEscaped, this]
        exact h0
      · by_cases h3 : r = 41
        · subst h3
          have : (run + 1) % 2 = 1 := by omega
          simp [delimitersEscaped, this]
          exact h0
        · by_cases h4 : r > 127
          · simp [h1, h2, h3, h4, delimitersEscaped, hrun]
            exact h0
          · simp [h1, h2, h3, h4, delimitersEscaped, hrun]
            exact h0

theorem escaped_seven_bit (runes : List Nat) :
    ∀ b ∈ runes.flatMap (fun r =>
      if r = 92 ∨ r = 40 ∨ r = 41 then [92, r] else if r > 127 then [63] else [r]), b < 128 := by
  intro b hb
  rw [List.mem_flatMap] at hb
  obtain ⟨r, _, hr⟩ := hb
  split_ifs at hr with h1 h2
  · simp at hr
    omega
  · simp at hr
    omega
  · simp at hr
    omega

/-! ## Lemmas on `pdfWriter.bytes` -/

theorem writePage_eq (b : GoString) (offsets : List Nat) (n : Nat) (page : GoString) :
    writePage ⟨b, offsets, n⟩ page =
      ⟨b ++ pageObject n (n + 1) ++ contentObject (n + 1) (buildTextStream page),
        offsets ++ [b.length] ++ [(b ++ pageObject n (n + 1)).length], n + 2⟩ := rfl

theorem foldl_writePage (pages : List GoString) (b : GoString) (offsets : List Nat) (n : Nat) :
    pages.foldl writePage ⟨b, offsets, n⟩ =
      ⟨b ++ (pageObjects n pages).flatten, offsets ++ offsetsFrom b.length (pageObjects n pages),
        n + 2 * pages.length⟩ := by
  induction pages generalizing b offsets n with
  | nil => simp [pageObjects, offsetsFrom]
  | cons page pages ih =>
    rw [List.foldl_cons, writePage_eq, ih]
    simp only [pageObjects, offsetsFrom, List.flatten_cons, List.length_append,
      List.append_assoc, List.length_cons, List.cons_append, List.nil_append,
      List.singleton_append, renderState.mk.injEq, Nat.add_assoc]
    refine ⟨trivial, trivial, ?_⟩
    omega

theorem writeObjects_eq (w : pdfWriter) :
    w.writeObjects =
      ⟨bytesOf "%PDF-1.4\n" ++ w.objects.flatten,
        offsetsFrom (bytesOf "%PDF-1.4\n").length w.objects, 4 + 2 * w.pages.length⟩ := by
  unfold pdfWriter.writeObjects pdfWriter.objects
  simp only []
  rw [foldl_writePage]
  simp only [offsetsFrom, List.flatten_cons, List.length_append, List.append_assoc,
    List.cons_append, List.nil_append, List.singleton_append, renderState.mk.injEq,
    Nat.add_assoc]

theorem foldl_xref (offsets : List Nat) (b : GoString) :
    offsets.foldl (fun b offset => b ++ (decimal10 offset ++ bytesOf " 00000 n \n")) b =
      b ++ offsets.flatMap (fun offset => decimal10 offset ++ bytesOf " 00000 n \n") := by
  induction offsets generalizing b with
  | nil => simp
  | cons o os ih => rw [List.foldl_cons, ih, List.flatMap_cons, List.append_assoc]

theorem offsetsFrom_length (start : Nat) (objs : List GoString) :
    (offsetsFrom start objs).length = objs.length := by
  induction objs generalizing start with
  | nil => rfl
  | cons o os ih => simp [offsetsFrom, ih]

theorem pageObjects_length (n : Nat) (pages : List GoString) :
    (pageObjects n pages).length = 2 * pages.length := by
  induction pages generalizing n with
  | nil => rfl
  | cons p ps ih =>
    simp [pageObjects, ih]
    omega

theorem drop_offsetsFrom (objs : List GoString) (pre post : GoString) (k off : Nat)
    (hk : (offsetsFrom pre.length objs)[k]? = some off) :
    (pre ++ objs.flatten ++ post).drop off = (objs.drop k).flatten ++ post := by
  induction objs generalizing pre k with
  | nil => simp [offsetsFrom] at hk
  | cons o os ih =>
    cases k with
    | zero =>
      simp only [offsetsFrom, List.getElem?_cons_zero, Option.some.injEq] at hk
      subst hk
      rw [List.append_assoc, List.drop_left]
      rfl
    | succ k =>
      simp only [offsetsFrom, List.getElem?_cons_succ] at hk
      have hlen : pre.length + o.length = (pre ++ o).length := by simp
      rw [hlen] at hk
      have := ih (pre ++ o) k hk
      simpa [List.append_assoc] using this

theorem pageObjects_numbered (pages : List GoString) (n j : Nat) (obj : GoString)
    (hj : (pageObjects n pages)[j]? = some obj) :
    (decimal (n + j) ++ bytesOf " 0 obj\n") <+: obj := by
  induction pages generalizing n j with
  | nil => simp [pageObjects] at hj
  | cons p ps ih =>
    match j with
    | 0 =>
      simp only [pageObjects, List.getElem?_cons_zero, Option.some.injEq] at hj
      subst hj
      exact ⟨bytesOf "<< /Type /Page /Parent 2 0 R /MediaBox [0 0 595 842] /Contents " ++
        decimal (n + 1) ++ bytesOf " 0 R /Resources << /Font << /F1 3 0 R >> >> >>\nendobj\n",
        by simp [pageObject, bytesOf]⟩
    | 1 =>
      simp only [pageObjects, List.getElem?_cons_succ, List.getElem?_cons_zero,
        Option.some.injEq] at hj
      subst hj
      exact ⟨bytesOf "<< /Length " ++ decimal (buildTextStream p).length ++
        bytesOf " >>\nstream\n" ++ buildTextStream p ++ bytesOf "\nendstream\nendobj\n",
        by simp [contentObject, bytesOf]⟩
    | j + 2 =>
      simp only [pageObjects, List.getElem?_cons_succ] at hj
      have := ih (n + 2) j hj
      have he : n + 2 + j = n + (j + 2) := by omega
      rw [he] at this
      exact this

theorem pageObjects_at (pages : List GoString) (n i : Nat) (page : GoString)
    (hi : pages[i]? = some page) :
    (pageObjects n pages)[2 * i]? = some (pageObject (n + 2 * i) (n + 2 * i + 1)) ∧
    (pageObjects n pages)[2 * i + 1]? =
      some (contentObject (n + 2 * i + 1) (buildTextStream page)) := by
  induction pages generalizing n i with
  | nil => simp at hi
  | cons p ps ih =>
    cases i with
    | zero =>
      simp only [List.getElem?_cons_zero, Option.some.injEq] at hi
      subst hi
      simp [pageObjects]
    | succ i =>
      simp only [List.getElem?_cons_succ] at hi
      obtain ⟨h1, h2⟩ := ih (n + 2) i hi
      have e1 : 2 * (i + 1) = 2 * i + 1 + 1 := by omega
      have e2 : n + (2 * i + 1 + 1) = n + 2 + 2 * i := by omega
      rw [e1, e2]
      simp only [pageObjects, List.getElem?_cons_succ]
      exact ⟨h1, h2⟩

theorem objects_length (w : pdfWriter) : w.objects.length = 2 * w.pages.length + 3 := by
  simp [pdfWriter.objects, pageObjects_length]

theorem objects_numbered (w : pdfWriter) (k : Nat) (obj : GoString)
    (hk : w.objects[k]? = some obj) : (decimal (k + 1) ++ bytesOf " 0 obj\n") <+: obj := by
  unfold pdfWriter.objects at hk
  match k with
  | 0 =>
    simp only [List.getElem?_cons_zero, Option.some.injEq] at hk
    subst hk
    exact ⟨bytesOf "<< /Type /Catalog /Pages 2 0 R >>\nendobj\n", by decide⟩
  | 1 =>
    simp only [List.getElem?_cons_succ, List.getElem?_cons_zero, Option.some.injEq] at hk
    subst hk
    have h2 : bytesOf "2 0 obj\n<< /Type /Pages /Kids [ " =
        (decimal 2 ++ bytesOf " 0 obj\n") ++ bytesOf "<< /Type /Pages /Kids [ " := by decide
    exact ⟨bytesOf "<< /Type /Pages /Kids [ " ++ w.pageRefs ++ bytesOf " ] /Count " ++
      decimal w.pages.length ++ bytesOf " >>\nendobj\n",
      by rw [pdfWriter.pagesObject, h2]; simp only [List.append_assoc]⟩
  | 2 =>
    simp only [List.getElem?_cons_succ, List.getElem?_cons_zero, Option.some.injEq] at hk
    subst hk
    exact ⟨bytesOf "<< /Type /Font /Subtype /Type1 /BaseFont /Courier >>\nendobj\n", by decide⟩
  | j + 3 =>
    simp only [List.getElem?_cons_succ] at hk
    have := pageObjects_numbered w.pages 4 j obj hk
    have he : 4 + j = j + 3 + 1 := by omega
    rw [he] at this
    exact this

theorem bytes_eq (w : pdfWriter) :
    w.bytes = bytesOf "%PDF-1.4\n" ++ w.objects.flatten ++
      (bytesOf "xref\n0 " ++ decimal (2 * w.pages.length + 4) ++ bytesOf "\n" ++
        bytesOf "0000000000 65535 f \n" ++
        (offsetsFrom (bytesOf "%PDF-1.4\n").length w.objects).flatMap
          (fun offset => decimal10 offset ++ bytesOf " 00000 n \n") ++
        (bytesOf "trailer\n<< /Size " ++ decimal (2 * w.pages.length + 4) ++
          bytesOf " /Root 1 0 R >>\nstartxref\n" ++
          decimal (bytesOf "%PDF-1.4\n" ++ w.objects.flatten).length ++ bytesOf "\n%%EOF\n")) := by
  unfold pdfWriter.bytes
  simp only []
  rw [foldl_xref, writeObjects_eq]
  simp only [offsetsFrom_length, objects_length, List.append_assoc]

/-! ## Lemmas on the zone table -/

theorem mapPhotoZoneToFindingZone_mem (pz : PhotoZone) :
    mapPhotoZoneToFindingZone pz ∈
      [ZoneFront, ZoneRear, ZoneLeft, ZoneRight, ZoneInteriorFront, ZoneInteriorRear,
        ZoneEngine, ZoneTrunk] := by
  unfold mapPhotoZoneToFindingZone
  split_ifs <;> simp

theorem classifyScore_of_no_bucket (acc : Accumulators) (pz : PhotoZone) (score : Int)
    (h1 : isExteriorZone pz = false) (h2 : isInteriorZone pz = false)
    (h3 : pz ≠ PhotoZoneEngine) : classifyScore acc pz score = acc := by
  unfold classifyScore
  simp [h1, h2, h3]

/-! ## Lemmas on the ranges of the scores -/

theorem sum_bounds (l : List Int) (h : ∀ x ∈ l, 1 ≤ x ∧ x ≤ 10) :
    (l.length : Int) ≤ l.sum ∧ l.sum ≤ 10 * (l.length : Int) := by
  induction l with
  | nil => simp
  | cons x xs ih =>
    have hx := h x (List.mem_cons_self _ _)
    have ih2 := ih (fun y hy => h y (List.mem_cons_of_mem _ hy))
    rw [List.sum_cons, List.length_cons]
    push_cast
    omega

theorem avgScore_range (scores : List Int) (defaultVal : Int)
    (h : ∀ x ∈ scores, 1 ≤ x ∧ x ≤ 10) (hne : scores ≠ [])
    (hlen : 10 * scores.length < 2 ^ 63) :
    1 ≤ avgScore scores defaultVal ∧ avgScore scores defaultVal ≤ 10 := by
  obtain ⟨h1, h2⟩ := sum_bounds scores h
  have hpos : 0 < (scores.length : Int) := by
    have : 0 < scores.length := List.length_pos.mpr hne
    exact_mod_cast this
  have hl : (10 : Int) * (scores.length : Int) < 2 ^ 63 := by exact_mod_cast hlen
  rw [avgScore_of_ne_nil scores defaultVal hne,
    wrapInt64_of_range _ (by unfold minInt64; omega) (by unfold maxInt64; omega),
    Int.tdiv_eq_ediv (by omega) (by omega)]
  constructor
  · exact (Int.le_ediv_iff_mul_le hpos).mpr (by omega)
  · exact Int.ediv_le_of_le_mul hpos (by omega)

theorem scoresWhere_range
    (analyze : InspectionPhoto → FindingZone → Except GoError photoAnalysisResult)
    (bucket : PhotoZone → Bool) (photos : List InspectionPhoto)
    (h : ∀ p z r, analyze p z = Except.ok r → 1 ≤ r.Score ∧ r.Score ≤ 10) :
    ∀ x ∈ scoresWhere analyze bucket photos, 1 ≤ x ∧ x ≤ 10 := by
  intro x hx
  unfold scoresWhere at hx
  obtain ⟨p, _, hp⟩ := List.mem_filterMap.mp hx
  cases hr : analyze p (mapPhotoZoneToFindingZone p.Zone) with
  | error e => rw [hr] at hp; cases hp
  | ok r =>
    rw [hr] at hp
    simp only [] at hp
    by_cases hb : bucket p.Zone = true
    · rw [if_pos hb] at hp
      cases hp
      exact h p _ r hr
    · rw [if_neg hb] at hp
      cases hp

theorem scoresWhere_length_le
    (analyze : InspectionPhoto → FindingZone → Except GoError photoAnalysisResult)
    (bucket : PhotoZone → Bool) (photos : List InspectionPhoto) :
    (scoresWhere analyze bucket photos).length ≤ photos.length :=
  List.length_filterMap_le _ _

theorem avgScore_bucket_range
    (analyze : InspectionPhoto → FindingZone → Except GoError photoAnalysisResult)
    (bucket : PhotoZone → Bool) (photos : List InspectionPhoto) (defaultVal : Int)
    (h : ∀ p z r, analyze p z = Except.ok r → 1 ≤ r.Score ∧ r.Score ≤ 10)
    (hlen : 10 * photos.length < 2 ^ 63)
    (hd : 1 ≤ defaultVal ∧ defaultVal ≤ 10) :
    1 ≤ avgScore (scoresWhere analyze bucket photos) defaultVal ∧
      avgScore (scoresWhere analyze bucket photos) defaultVal ≤ 10 := by
  by_cases hne : scoresWhere analyze bucket photos = []
  · rw [hne, avgScore_nil]
    exact hd
  · have := scoresWhere_length_le analyze bucket photos
    exact avgScore_range _ _ (scoresWhere_range analyze bucket photos h) hne (by omega)

set_option maxRecDepth 1000000 in
theorem overallTable_true : overallTable = true := by decide!

theorem mem_one_to_ten (x : Int) (h1 : 1 ≤ x) (h2 : x ≤ 10) :
    x ∈ ([1, 2, 3, 4, 5, 6, 7, 8, 9, 10] : List Int) := by
  interval_cases x <;> simp

theorem overallScore_range (e i m : Int) (he : 1 ≤ e ∧ e ≤ 10) (hi : 1 ≤ i ∧ i ≤ 10)
    (hm : 1 ≤ m ∧ m ≤ 10) : 0 ≤ overallScore e i m 8 ∧ overallScore e i m 8 ≤ 100 := by
  have ht := overallTable_true
  unfold overallTable at ht
  rw [List.all_eq_true] at ht
  have h1 := ht e (mem_one_to_ten e he.1 he.2)
  rw [List.all_eq_true] at h1
  have h2 := h1 i (mem_one_to_ten i hi.1 hi.2)
  rw [List.all_eq_true] at h2
  have h3 := h2 m (mem_one_to_ten m hm.1 hm.2)
  unfold overallInRange at h3
  have h4 := of_decide_eq_true h3
  omega

theorem sampleCollaborators_range (vehicle : Vehicle) :
    ∀ p z r, (sampleCollaborators sampleScores).analyzePhoto vehicle p z = Except.ok r →
      1 ≤ r.Score ∧ r.Score ≤ 10 := by
  intro p z r h
  have hr : r = ⟨sampleScores p.Zone, []⟩ := by
    cases h
    rfl
  rw [hr]
  simp only [sampleScores]
  split_ifs <;> omega

/-! ## Lemmas on the stores a run leaves -/

theorem getByID_mem (s : Store) (id : String) (found : Inspection)
    (h : InspectionRepository.GetByID s id = Except.ok found) :
    found ∈ s.inspections ∧ found.ID = id :=
  ⟨List.mem_of_find?_eq_some ((getByID_eq_ok s id found).mp h), getByID_id s id found h⟩

theorem mem_updatedRows (rows : List Inspection) (id : String) (i r2 : Inspection)
    (h : r2 ∈ updatedRows rows id i) :
    (r2 ∈ rows ∧ r2.ID ≠ id) ∨
      ∃ r ∈ rows, r.ID = id ∧ r2 = InspectionRepository.writeColumns r i := by
  unfold updatedRows at h
  obtain ⟨r, hr, heq⟩ := List.mem_map.mp h
  by_cases hid : r.ID = id
  · right
    refine ⟨r, hr, hid, ?_⟩
    rw [← heq]
    simp [hid]
  · left
    have : r2 = r := by
      rw [← heq]
      simp [hid]
    rw [this]
    exact ⟨hr, hid⟩

theorem RunInspection_store_cases (c : Collaborators) (s : Store) (vehicle : Vehicle)
    (id : String) :
    ((VisionService.RunInspection c s vehicle id).err ≠ none ∧
      (VisionService.RunInspection c s vehicle id).store = s) ∨
    ∃ found, InspectionRepository.GetByID s id = Except.ok found ∧
      InspectionRepository.Update s { found with Status := InspectionProcessing } =
        Except.ok { s with inspections :=
          (updatedRows s.inspections id { found with Status := InspectionProcessing }) } ∧
      (((VisionService.RunInspection c s vehicle id).err ≠ none ∧
          (VisionService.RunInspection c s vehicle id).store.inspections =
            updatedRows s.inspections id { found with Status := InspectionProcessing }) ∨
        ((VisionService.RunInspection c s vehicle id).err = none ∧
          (VisionService.RunInspection c s vehicle id).store.inspections =
            updatedRows
              (updatedRows s.inspections id { found with Status := InspectionProcessing }) id
              (completedInspection c vehicle { found with Status := InspectionProcessing }
                (photoLoop (c.analyzePhoto vehicle) id
                  (InspectionPhotoRepository.GetByInspectionID s id))
                (InspectionPhotoRepository.GetByInspectionID s id)))) := by
  cases hget : c.getByIDErr with
  | some e =>
    rw [RunInspection_getByID_fault c s vehicle id e hget]
    exact Or.inl ⟨by simp, rfl⟩
  | none =>
    cases hfound : InspectionRepository.GetByID s id with
    | error e =>
      rw [RunInspection_not_found c s vehicle id e hget hfound]
      exact Or.inl ⟨by simp, rfl⟩
    | ok found =>
      have hid := getByID_id s id found hfound
      have hupd := update_of_found s id found { found with Status := InspectionProcessing }
        hfound hid
      cases hu : c.firstUpdateErr with
      | some e =>
        rw [RunInspection_first_update_fault c s vehicle id found e hget hfound hu]
        exact Or.inl ⟨by simp, rfl⟩
      | none =>
        refine Or.inr ⟨found, rfl, hupd, ?_⟩
        cases hp : c.photosErr with
        | some e =>
          rw [RunInspection_photos_fault c s vehicle id found e hget hfound hu hp]
          exact Or.inl ⟨by simp, rfl⟩
        | none =>
          rw [RunInspection_of_found c s vehicle id found hget hfound hu hp]
          by_cases hlen : (InspectionPhotoRepository.GetByInspectionID s id).length = 0
          · rw [if_pos hlen]
            exact Or.inl ⟨by simp, rfl⟩
          · rw [if_neg hlen]
            cases hf : c.finalUpdateErr with
            | some e =>
              rw [analyseAndStore_store_before_update c _ vehicle id _ _ _ e hf]
              exact Or.inl ⟨by simp, storeAfterBatch_inspections c _ _⟩
            | none =>
              have hrow := getByID_updatedRows s id found
                { found with Status := InspectionProcessing } s.photos s.findings hfound
              have hid2 : ({ found with Status := InspectionProcessing } : Inspection).ID = id :=
                hid
              rw [analyseAndStore_ok c _ vehicle id _ _ _ _ hrow hid2 hf]
              exact Or.inr ⟨rfl, rfl⟩

theorem statusColumn_updatedRows (rows : List Inspection) (id : String) (i : Inspection)
    (photos : List InspectionPhoto) (findings : List InspectionFinding) :
    statusColumn ⟨updatedRows rows id i, photos, findings⟩ =
      withStatus id i.Status (statusColumn ⟨rows, photos, findings⟩) := by
  unfold statusColumn withStatus updatedRows
  rw [List.map_map, List.map_map]
  apply List.map_congr_left
  intro r _
  by_cases h : (r.ID == id) = true
  · simp only [Function.comp, h, if_true]
    rfl
  · simp only [Function.comp, h]
    rfl

theorem statusColumn_congr (s1 s2 : Store) (h : s1.inspections = s2.inspections) :
    statusColumn s1 = statusColumn s2 := by
  unfold statusColumn
  rw [h]

theorem withStatus_status (id : String) (st : InspectionStatus)
    (column : List (String × InspectionStatus)) :
    ∀ p ∈ withStatus id st column, p.1 = id → p.2 = st := by
  intro p hp hid
  unfold withStatus at hp
  obtain ⟨q, _, hq⟩ := List.mem_map.mp hp
  by_cases h : (q.1 == id) = true
  · rw [if_pos h] at hq
    rw [← hq]
  · rw [if_neg h] at hq
    rw [hq] at h
    exact absurd (beq_iff_eq.mpr hid) h

/-! ## Lemmas on sequences of operations -/

theorem UploadPhoto_inspections (c : UploadCollaborators) (s : Store) (id : String)
    (zone : PhotoZone) (filename : String) :
    (InspectionService.UploadPhoto c s id zone filename).2.inspections = s.inspections ∨
    ∃ found n, InspectionRepository.GetByID s id = Except.ok found ∧
      (InspectionService.UploadPhoto c s id zone filename).2.inspections =
        updatedRows s.inspections id { found with PhotosCount := n } := by
  unfold InspectionService.UploadPhoto
  cases hget : c.getByIDErr with
  | some e => exact Or.inl rfl
  | none =>
    cases hfound : InspectionRepository.GetByID s id with
    | error e => exact Or.inl rfl
    | ok found =>
      cases hw : c.writeFileErr with
      | some e => exact Or.inl rfl
      | none =>
        cases hc : c.createErr with
        | some e => exact Or.inl rfl
        | none =>
          cases hu : c.updateErr with
          | some e => exact Or.inl rfl
          | none =>
            right
            have hid := getByID_id s id found hfound
            refine ⟨found, ((match c.photosErr with
              | some _ => []
              | none => InspectionPhotoRepository.GetByInspectionID s id).length : Int) + 1,
              rfl, ?_⟩
            simp only [tryUpdate]
            have hupd := fun (st : Store) (hst : st.inspections = s.inspections) (n : Int) =>
              update_of_found st id found { found with PhotosCount := n }
                (by rw [← hfound]; exact getByID_congr _ _ id hst) hid
            rw [hupd (InspectionPhotoRepository.Create s c.newID c.uploadedAt _).1 rfl]
            rfl

theorem apply_row (id : String) (s : Store) (op : Operation) (r2 : Inspection)
    (h2 : r2 ∈ (op.apply s).2.inspections) (hid : r2.ID = id) :
    ∃ r ∈ s.inspections, r.ID = id ∧
      ((r2.Status = r.Status ∧ r2.scores = r.scores) ∨
        (r2.Status = InspectionProcessing ∧ r2.scores = r.scores) ∨
        (r2.Status = InspectionCompleted ∧ (∀ x ∈ r2.scores, x.isSome = true) ∧
          op.completesRun id s = true)) := by
  cases op with
  | UploadPhoto c id2 zone filename =>
    have hstore : (Operation.apply s (Operation.UploadPhoto c id2 zone filename)).2 =
        (InspectionService.UploadPhoto c s id2 zone filename).2 := rfl
    rw [hstore] at h2
    rcases UploadPhoto_inspections c s id2 zone filename with h | ⟨found, n, hfound, h⟩
    · rw [h] at h2
      exact ⟨r2, h2, hid, Or.inl ⟨rfl, rfl⟩⟩
    · rw [h] at h2
      obtain ⟨hmem, hfid⟩ := getByID_mem s id2 found hfound
      rcases mem_updatedRows _ _ _ _ h2 with ⟨hr, _⟩ | ⟨r, hr, hrid, heq⟩
      · exact ⟨r2, hr, hid, Or.inl ⟨rfl, rfl⟩⟩
      · have hid2 : id2 = id := by
          rw [← hid, heq, ← hrid]
          rfl
        refine ⟨found, hmem, by rw [hfid, hid2], Or.inl ?_⟩
        rw [heq]
        exact ⟨rfl, rfl⟩
  | RunInspection c vehicle id2 =>
    have hstore : (Operation.apply s (Operation.RunInspection c vehicle id2)).2 =
        (VisionService.RunInspection c s vehicle id2).store := rfl
    rw [hstore] at h2
    rcases RunInspection_store_cases c s vehicle id2 with
      ⟨_, h⟩ | ⟨found, hfound, _, ⟨_, h⟩ | ⟨herr, h⟩⟩
    · rw [h] at h2
      exact ⟨r2, h2, hid, Or.inl ⟨rfl, rfl⟩⟩
    · rw [h] at h2
      obtain ⟨hmem, hfid⟩ := getByID_mem s id2 found hfound
      rcases mem_updatedRows _ _ _ _ h2 with ⟨hr, _⟩ | ⟨r, hr, hrid, heq⟩
      · exact ⟨r2, hr, hid, Or.inl ⟨rfl, rfl⟩⟩
      · have hid2 : id2 = id := by
          rw [← hid, heq, ← hrid]
          rfl
        refine ⟨found, hmem, by rw [hfid, hid2], Or.inr (Or.inl ?_)⟩
        rw [heq]
        exact ⟨rfl, rfl⟩
    · rw [h] at h2
      obtain ⟨hmem, hfid⟩ := getByID_mem s id2 found hfound
      rcases mem_updatedRows _ _ _ _ h2 with ⟨hr, hne⟩ | ⟨r, hr, hrid, heq⟩
      · rcases mem_updatedRows _ _ _ _ hr with ⟨hr0, _⟩ | ⟨r0, _, hr0id, heq0⟩
        · exact ⟨r2, hr0, hid, Or.inl ⟨rfl, rfl⟩⟩
        · exact absurd (by rw [heq0, ← hr0id]; rfl) hne
      · have hid2 : id2 = id := by
          rw [← hid, heq, ← hrid]
          rfl
        refine ⟨found, hmem, by rw [hfid, hid2], Or.inr (Or.inr ?_)⟩
        rw [heq]
        refine ⟨rfl, ?_, ?_⟩
        · intro x hx
          simp only [Inspection.scores, InspectionRepository.writeColumns, completedInspection,
            List.mem_cons, List.mem_singleton, List.not_mem_nil, or_false] at hx
          rcases hx with hx | hx | hx | hx | hx <;> rw [hx] <;> rfl
        · subst hid2
          simp [Operation.completesRun, herr]

theorem completedInspection_scores_set (c : Collaborators) (vehicle : Vehicle)
    (inspection r : Inspection) (acc : Accumulators) (photos : List InspectionPhoto) :
    ∀ x ∈ (InspectionRepository.writeColumns r
      (completedInspection c vehicle inspection acc photos)).scores, x.isSome = true := by
  intro x hx
  simp only [Inspection.scores, InspectionRepository.writeColumns, completedInspection,
    List.mem_cons, List.mem_singleton, List.not_mem_nil, or_false] at hx
  rcases hx with hx | hx | hx | hx | hx <;> rw [hx] <;> rfl

theorem apply_row_completed (id : String) (s : Store) (op : Operation) (r2 : Inspection)
    (h2 : r2 ∈ (op.apply s).2.inspections) (hid : r2.ID = id)
    (hc : op.completesRun id s = true) :
    r2.Status = InspectionCompleted ∧ ∀ x ∈ r2.scores, x.isSome = true := by
  cases op with
  | UploadPhoto c id2 zone filename => cases hc
  | RunInspection c vehicle id2 =>
    have hstore : (Operation.apply s (Operation.RunInspection c vehicle id2)).2 =
        (VisionService.RunInspection c s vehicle id2).store := rfl
    rw [hstore] at h2
    simp only [Operation.completesRun, Bool.and_eq_true, beq_iff_eq, Option.isNone_iff_eq_none]
      at hc
    obtain ⟨hid2, herr⟩ := hc
    rcases RunInspection_store_cases c s vehicle id2 with
      ⟨hne, _⟩ | ⟨found, hfound, _, ⟨hne, _⟩ | ⟨_, h⟩⟩
    · exact absurd herr hne
    · exact absurd herr hne
    · rw [h] at h2
      rcases mem_updatedRows _ _ _ _ h2 with ⟨_, hne⟩ | ⟨r, _, _, heq⟩
      · exact absurd (hid.trans hid2.symm) hne
      · rw [heq]
        exact ⟨rfl, completedInspection_scores_set c vehicle _ r _ _⟩

theorem runOperations_cons (s : Store) (op : Operation) (ops : List Operation) :
    runOperations s (op :: ops) = runOperations (op.apply s).2 ops := rfl

theorem rowsScored_apply (id : String) (s : Store) (op : Operation) (h : rowsScored id s) :
    rowsScored id (op.apply s).2 := by
  intro r2 h2 hid
  obtain ⟨r, hr, hrid, hcase⟩ := apply_row id s op r2 h2 hid
  obtain ⟨hst, hsc⟩ := h r hr hrid
  rcases hcase with ⟨h1, h3⟩ | ⟨h1, h3⟩ | ⟨h1, h3, _⟩
  · rw [h1, h3]
    exact ⟨hst, hsc⟩
  · rw [h1, h3]
    exact ⟨Or.inl rfl, hsc⟩
  · exact ⟨Or.inr h1, h3⟩

theorem rowsScored_runOperations (id : String) (ops : List Operation) (s : Store)
    (h : rowsScored id s) : rowsScored id (runOperations s ops) := by
  induction ops generalizing s with
  | nil => exact h
  | cons op ops ih =>
    rw [runOperations_cons]
    exact ih _ (rowsScored_apply id s op h)

theorem rowsUnset_apply (id : String) (s : Store) (op : Operation) (h : rowsUnset id s)
    (hc : op.completesRun id s = false) : rowsUnset id (op.apply s).2 := by
  intro r2 h2 hid
  obtain ⟨r, hr, hrid, hcase⟩ := apply_row id s op r2 h2 hid
  obtain ⟨hst, hsc⟩ := h r hr hrid
  rcases hcase with ⟨h1, h3⟩ | ⟨h1, h3⟩ | ⟨_, _, h4⟩
  · rw [h1, h3]
    exact ⟨hst, hsc⟩
  · rw [h1, h3]
    exact ⟨Or.inr rfl, hsc⟩
  · rw [hc] at h4
    cases h4

theorem rows_runOperations (id : String) (ops : List Operation) (s : Store)
    (h : rowsUnset id s) :
    (completedRuns id s ops = 0 → rowsUnset id (runOperations s ops)) ∧
    (completedRuns id s ops ≠ 0 → rowsScored id (runOperations s ops)) := by
  induction ops generalizing s with
  | nil => exact ⟨fun _ => h, fun hne => absurd rfl hne⟩
  | cons op ops ih =>
    rw [runOperations_cons]
    cases hc : op.completesRun id s with
    | true =>
      have hscored : rowsScored id (op.apply s).2 := fun r2 h2 hid =>
        ⟨Or.inr (apply_row_completed id s op r2 h2 hid hc).1,
          (apply_row_completed id s op r2 h2 hid hc).2⟩
      constructor
      · intro h0
        simp [completedRuns, hc] at h0
      · intro _
        exact rowsScored_runOperations id ops _ hscored
    | false =>
      have hruns : completedRuns id s (op :: ops) = completedRuns id (op.apply s).2 ops := by
        simp [completedRuns, hc]
      rw [hruns]
      exact ih _ (rowsUnset_apply id s op h hc)

theorem CreateInspection_ok (c : CreateCollaborators) (s0 : Store) (vehicleID : String)
    (inspectorName inspectorBranch : Option String) (created : Inspection)
    (h : (InspectionService.CreateInspection c s0 vehicleID inspectorName inspectorBranch).1 =
      Except.ok created) :
    created =
      { ID := c.newID, VehicleID := vehicleID, InspectorName := inspectorName,
        InspectorBranch := inspectorBranch, ScoreOverall := none, ScoreExterior := none,
        ScoreInterior := none, ScoreMechanical := none, ScoreTires := none, PhotosCount := 0,
        FindingsCount := 0, Status := InspectionPending, PDFURL := none, InspectedAt := none } ∧
    (InspectionService.CreateInspection c s0 vehicleID inspectorName inspectorBranch).2 =
      { s0 with inspections := s0.inspections ++ [created] } := by
  unfold InspectionService.CreateInspection at h ⊢
  cases hv : c.vehicleErr with
  | some e => rw [hv] at h; cases h
  | none =>
    cases hc : c.createErr with
    | some e => rw [hv, hc] at h; cases h
    | none =>
      rw [hv, hc] at h
      simp only [InspectionRepository.Create, if_true] at h ⊢
      cases h
      exact ⟨rfl, rfl⟩

/-! ## Lemmas on `buildTextStream` and the page tree -/

theorem foldl_append_flatMap {α : Type} (f : α → GoString) (l : List α) (acc : GoString) :
    l.foldl (fun acc x => acc ++ f x) acc = acc ++ l.flatMap f := by
  induction l generalizing acc with
  | nil => simp
  | cons x xs ih => rw [List.foldl_cons, ih, List.flatMap_cons, List.append_assoc]

theorem stringsSplit_ne_nil (sep : Nat) (s : GoString) : stringsSplit sep s ≠ [] := by
  cases s with
  | nil => simp [stringsSplit]
  | cons b rest =>
    unfold stringsSplit
    by_cases hb : b = sep
    · simp [hb]
    · simp only [if_neg hb]
      split <;> simp

theorem stringsSplit_length (sep : Nat) (s : GoString) :
    (stringsSplit sep s).length = s.count sep + 1 := by
  induction s with
  | nil => simp [stringsSplit]
  | cons b rest ih =>
    unfold stringsSplit
    by_cases hb : b = sep
    · subst hb
      simp [ih]
    · simp only [if_neg hb]
      have hc : (b :: rest).count sep = rest.count sep := by
        rw [List.count_cons]
        simp [hb]
      rw [hc, ← ih]
      split
      · next line lines heq => rw [heq]; rfl
      · next heq => exact absurd heq (stringsSplit_ne_nil sep rest)

theorem stringsSplit_intercalate (sep : Nat) (s : GoString) :
    [sep].intercalate (stringsSplit sep s) = s := by
  induction s with
  | nil => simp [stringsSplit, List.intercalate]
  | cons b rest ih =>
    unfold stringsSplit
    by_cases hb : b = sep
    · subst hb
      simp only [if_true]
      rcases hsp : stringsSplit b rest with _ | ⟨line, lines⟩
      · exact absurd hsp (stringsSplit_ne_nil b rest)
      · rw [hsp] at ih
        rw [← ih]
        simp [List.intercalate]
    · simp only [if_neg hb]
      rcases hsp : stringsSplit sep rest with _ | ⟨line, lines⟩
      · exact absurd hsp (stringsSplit_ne_nil sep rest)
      · rw [hsp] at ih
        rw [← ih]
        cases lines <;> simp [List.intercalate]

theorem stringsSplit_no_sep (sep : Nat) (s : GoString) :
    ∀ line ∈ stringsSplit sep s, sep ∉ line := by
  induction s with
  | nil => simp [stringsSplit]
  | cons b rest ih =>
    unfold stringsSplit
    by_cases hb : b = sep
    · simp only [if_pos hb]
      intro line hl
      rcases List.mem_cons.mp hl with h | h
      · simp [h]
      · exact ih line h
    · simp only [if_neg hb]
      rcases hsp : stringsSplit sep rest with _ | ⟨line, lines⟩
      · exact absurd hsp (stringsSplit_ne_nil sep rest)
      · rw [hsp] at ih
        intro l hl
        rcases List.mem_cons.mp hl with h | h
        · rw [h]
          intro hmem
          rcases List.mem_cons.mp hmem with h2 | h2
          · exact hb h2.symm
          · exact ih line (List.mem_cons_self _ _) h2
        · exact ih l (List.mem_cons_of_mem _ h)

theorem buildTextStream_eq (content : GoString) :
    buildTextStream content =
      bytesOf "BT\n/F1 9 Tf\n1 0 0 1 40 800 Tm\n12 TL\n" ++
        (stringsSplit 10 content).flatMap
          (fun line => bytesOf "(" ++ pdfEscapeString line ++ bytesOf ") Tj T*\n") ++
        bytesOf "ET" := by
  unfold buildTextStream
  simp only []
  rw [foldl_append_flatMap]
  rfl

theorem buildTextStream_length (content : GoString) :
    (buildTextStream content).length =
      38 + ((stringsSplit 10 content).map fun line => (pdfEscapeString line).length + 9).sum := by
  rw [buildTextStream_eq, List.length_append, List.length_append, List.length_flatMap]
  have h1 : (bytesOf "BT\n/F1 9 Tf\n1 0 0 1 40 800 Tm\n12 TL\n").length = 36 := by decide
  have h2 : (bytesOf "ET").length = 2 := by decide
  have h3 : ∀ line : GoString,
      (bytesOf "(" ++ pdfEscapeString line ++ bytesOf ") Tj T*\n").length =
        (pdfEscapeString line).length + 9 := by
    intro line
    rw [List.length_append, List.length_append]
    have h4 : (bytesOf "(").length = 1 := by decide
    have h5 : (bytesOf ") Tj T*\n").length = 8 := by decide
    omega
  have h6 : (List.length ∘ fun line =>
      bytesOf "(" ++ pdfEscapeString line ++ bytesOf ") Tj T*\n") =
        fun line => (pdfEscapeString line).length + 9 := funext h3
  rw [h1, h2, h6]
  omega

theorem intercalate_concat (sep : GoString) (l : List GoString) (x : GoString) (h : l ≠ []) :
    sep.intercalate (l ++ [x]) = sep.intercalate l ++ sep ++ x := by
  induction l with
  | nil => exact absurd rfl h
  | cons y ys ih =>
    cases ys with
    | nil => simp [List.intercalate]
    | cons z zs =>
      have ih2 := ih (by simp)
      simp only [List.intercalate, List.cons_append, List.intersperse_cons₂, List.flatten_cons,
        List.append_assoc] at ih2 ⊢
      rw [ih2]

theorem foldl_pageRefs (n : Nat) :
    (List.range n).foldl
      (fun pageRefs i =>
        (if i > 0 then pageRefs ++ bytesOf " " else pageRefs) ++
          (decimal (4 + i * 2) ++ bytesOf " 0 R"))
      [] =
    (bytesOf " ").intercalate
      ((List.range n).map fun i => decimal (4 + 2 * i) ++ bytesOf " 0 R") := by
  induction n with
  | zero => rfl
  | succ k ih =>
    rw [List.range_succ, List.foldl_append, ih, List.map_append]
    have e : 4 + k * 2 = 4 + 2 * k := by omega
    simp only [List.foldl_cons, List.foldl_nil, List.map_cons, List.map_nil, e]
    by_cases hk : k > 0
    · rw [if_pos hk, intercalate_concat]
      intro hnil
      have := congrArg List.length hnil
      simp at this
      omega
    · have hk0 : k = 0 := by omega
      subst hk0
      rfl

theorem pagesObject_eq (w : pdfWriter) :
    w.pagesObject = bytesOf "2 0 obj\n<< /Type /Pages /Kids [ " ++
      (bytesOf " ").intercalate
        ((List.range w.pages.length).map fun i => decimal (4 + 2 * i) ++ bytesOf " 0 R") ++
      bytesOf " ] /Count " ++ decimal w.pages.length ++ bytesOf " >>\nendobj\n" := by
  unfold pdfWriter.pagesObject pdfWriter.pageRefs
  rw [foldl_pageRefs]

theorem flatten_split_at (objs : List GoString) (k : Nat) (obj : GoString)
    (h : objs[k]? = some obj) :
    objs.flatten = (objs.take k).flatten ++ obj ++ (objs.drop (k + 1)).flatten := by
  obtain ⟨hk, hget⟩ := List.getElem?_eq_some.mp h
  conv_lhs => rw [← List.take_append_drop k objs, List.drop_eq_getElem_cons hk, hget]
  simp

theorem objects_at (w : pdfWriter) (i : Nat) (page : GoString) (hi : w.pages[i]? = some page) :
    w.objects[3 + 2 * i]? = some (pageObject (4 + 2 * i) (5 + 2 * i)) ∧
    w.objects[4 + 2 * i]? = some (contentObject (5 + 2 * i) (buildTextStream page)) := by
  obtain ⟨h1, h2⟩ := pageObjects_at w.pages 4 i page hi
  have e1 : 3 + 2 * i = 2 * i + 1 + 1 + 1 := by omega
  have e2 : 4 + 2 * i = 2 * i + 1 + 1 + 1 + 1 := by omega
  have e3 : 5 + 2 * i = 4 + 2 * i + 1 := by omega
  constructor
  · rw [e1]
    simp only [pdfWriter.objects, List.getElem?_cons_succ]
    rw [h1, e3]
  · rw [e2]
    simp only [pdfWriter.objects, List.getElem?_cons_succ]
    rw [h2, e3]

theorem bytes_split (w : pdfWriter) :
    ∃ tail : GoString, w.bytes = bytesOf "%PDF-1.4\n" ++ w.objects.flatten ++ tail ∧
      bytesOf "xref\n" <+: tail :=
  ⟨_, bytes_eq w, ⟨_, by simp only [List.append_assoc]; rfl⟩⟩

theorem foldl_addPage (pages : List GoString) (w : pdfWriter) :
    (pages.foldl pdfWriter.addPage w).pages = w.pages ++ pages := by
  induction pages generalizing w with
  | nil => simp
  | cons p ps ih =>
    rw [List.foldl_cons, ih]
    simp [pdfWriter.addPage]

/-! ## Lemmas on unescaping -/

theorem pdfEscapeString_ascii (s : GoString) (hascii : ∀ b ∈ s, b < 128) :
    pdfEscapeString s = s.flatMap (fun b => if b = 92 ∨ b = 40 ∨ b = 41 then [92, b] else [b]) := by
  have hrunes : rangeRunes 0 s = s := by
    have := rangeRunes_ascii_append s [] hascii
    simpa [rangeRunes] using this
  rw [pdfEscapeString_eq, hrunes]
  apply List.flatMap_congr
  intro b hb
  have h1 : ¬ b > 127 := by have := hascii b hb; omega
  simp [h1]

theorem specUnescape_pair (c : Nat) (rest : GoString) :
    specUnescape (92 :: c :: rest) = c :: specUnescape rest := by
  rw [specUnescape.eq_def]
  simp

theorem specUnescape_plain (b : Nat) (rest : GoString) (hb : b ≠ 92) :
    specUnescape (b :: rest) = b :: specUnescape rest := by
  rw [specUnescape.eq_def]
  simp [hb]

theorem specUnescape_escaped (s : GoString) :
    specUnescape (s.flatMap (fun b => if b = 92 ∨ b = 40 ∨ b = 41 then [92, b] else [b])) = s := by
  induction s with
  | nil => rfl
  | cons b rest ih =>
    rw [List.flatMap_cons]
    by_cases h : b = 92 ∨ b = 40 ∨ b = 41
    · rw [if_pos h, List.cons_append, List.cons_append, List.nil_append, specUnescape_pair, ih]
    · rw [if_neg h, List.cons_append, List.nil_append,
        specUnescape_plain b _ (fun e => h (Or.inl e)), ih]

theorem length_escaped (s : GoString) :
    (s.flatMap (fun b => if b = 92 ∨ b = 40 ∨ b = 41 then [92, b] else [b])).length =
      s.length + s.count 92 + s.count 40 + s.count 41 := by
  induction s with
  | nil => rfl
  | cons b rest ih =>
    rw [List.flatMap_cons, List.length_append, ih, List.count_cons, List.count_cons,
      List.count_cons, List.length_cons]
    by_cases h1 : b = 92
    · subst h1; simp; omega
    · by_cases h2 : b = 40
      · subst h2; simp; omega
      · by_cases h3 : b = 41
        · subst h3; simp; omega
        · simp [h1, h2, h3]; omega

/-! ## Properties -/

/-- C1. For every non-empty list of scores and every default value, `avgScore` returns
the sum of the scores divided by their count, the quotient truncated toward zero; the
default value does not occur in the result.  The sum is the sum the loop forms in Go's
`int`; whenever the exact sum fits in an `int` it is that exact sum. -/
theorem avgScore_is_truncated_mean (scores : List Int) (defaultVal : Int) (h : scores ≠ []) :
    avgScore scores defaultVal = Int.tdiv (wrapInt64 scores.sum) (scores.length : Int) ∧
    (minInt64 ≤ scores.sum → scores.sum ≤ maxInt64 →
      avgScore scores defaultVal = Int.tdiv scores.sum (scores.length : Int)) := by
  refine ⟨avgScore_of_ne_nil scores defaultVal h, fun h1 h2 => ?_⟩
  rw [avgScore_of_ne_nil scores defaultVal h, wrapInt64_of_range _ h1 h2]

/-- C1 on the scores 7, 8, -2, with two further evaluations that show the truncation toward zero. -/
theorem avgScore_is_truncated_mean_witness :
    ([7, 8, -2] : List Int) ≠ [] ∧
    avgScore [7, 8, -2] 10 = Int.tdiv (wrapInt64 ([7, 8, -2] : List Int).sum) 3 ∧
    avgScore [7, 8, -2] 10 = 4 ∧ avgScore [-7] 10 = -7 ∧ avgScore [-7, 0] 3 = -3 :=
  ⟨by decide, (avgScore_is_truncated_mean [7, 8, -2] 10 (by decide)).1, by decide, by decide,
    by decide⟩

/-- C2. A run on which the stored overall score differs from the exactly rounded
weighted sum: a front photo scored 3, a dashboard photo scored 9 and an engine photo
scored 5 give the category scores 3, 9, 5 and tires 8; the stored overall score is 59,
whereas `3.5*3 + 3*9 + 2*5 + 1.5*8 = 59.5` rounds (halves away from zero) to 60. -/
theorem RunInspection_overall_3_9_5_8 :
    (VisionService.RunInspection
        (sampleCollaborators sampleScores) sampleStore sampleVehicle
        "i1").store.inspections.map Inspection.scores
      = [[some 3, some 9, some 5, some 8, some 59]] ∧
    overallScore 3 9 5 8 = 59 ∧ specOverallScore 3 9 5 8 = 60 ∧
    overallScore 3 0 0 0 = 10 ∧ specOverallScore 3 0 0 0 = 11 := by
  set_option maxRecDepth 100000 in decide

/-- C3. In a run of `RunInspection` that stores its result, the tires score is 8
whatever the photos are; the exterior score is 10 when no successfully analysed photo
has an exterior zone, and the interior score is 10 when none has an interior zone. -/
theorem RunInspection_empty_bucket_defaults (c : Collaborators) (s : Store)
    (vehicle : Vehicle) (id : String)
    (h : (VisionService.RunInspection c s vehicle id).err = none) :
    ∃ stored,
      InspectionRepository.GetByID (VisionService.RunInspection c s vehicle id).store id
        = Except.ok stored ∧
      stored.ScoreTires = some 8 ∧
      ((∀ p ∈ InspectionPhotoRepository.GetByInspectionID s id, ∀ r,
          c.analyzePhoto vehicle p (mapPhotoZoneToFindingZone p.Zone) = Except.ok r →
          isExteriorZone p.Zone = false) → stored.ScoreExterior = some 10) ∧
      ((∀ p ∈ InspectionPhotoRepository.GetByInspectionID s id, ∀ r,
          c.analyzePhoto vehicle p (mapPhotoZoneToFindingZone p.Zone) = Except.ok r →
          isInteriorZone p.Zone = false) → stored.ScoreInterior = some 10) := by
  obtain ⟨_, _, _, _, _, found, hfound⟩ := RunInspection_err_none_inv c s vehicle id h
  refine ⟨_, RunInspection_success c s vehicle id found hfound h, ?_, ?_, ?_⟩
  · simp [completedInspection, photoLoop_eq, avgScore_nil]
  · intro hext
    simp [completedInspection, photoLoop_eq,
      scoresWhere_eq_nil (c.analyzePhoto vehicle) isExteriorZone _ hext, avgScore_nil]
  · intro hint
    have hint2 : ∀ p ∈ InspectionPhotoRepository.GetByInspectionID s id, ∀ r,
        c.analyzePhoto vehicle p (mapPhotoZoneToFindingZone p.Zone) = Except.ok r →
        feedsInterior p.Zone = false := by
      intro p hp r hr
      rw [feedsInterior_eq]
      exact hint p hp r hr
    simp [completedInspection, photoLoop_eq,
      scoresWhere_eq_nil (c.analyzePhoto vehicle) feedsInterior _ hint2, avgScore_nil]

/-- C3 on a run with a single engine photo scored 6: exterior 10, interior 10, tires 8. -/
theorem RunInspection_empty_bucket_defaults_witness :
    (VisionService.RunInspection (sampleCollaborators fun _ => 6) engineOnlyStore sampleVehicle
      "i1").err = none ∧
    ((VisionService.RunInspection (sampleCollaborators fun _ => 6) engineOnlyStore sampleVehicle
      "i1").store.inspections.map Inspection.scores
        = [[some 10, some 10, some 6, some 8, some 89]]) ∧
    ∃ stored,
      InspectionRepository.GetByID (VisionService.RunInspection
        (sampleCollaborators fun _ => 6) engineOnlyStore sampleVehicle "i1").store "i1"
        = Except.ok stored ∧
      stored.ScoreTires = some 8 ∧
      ((∀ p ∈ InspectionPhotoRepository.GetByInspectionID engineOnlyStore "i1", ∀ r,
          (sampleCollaborators fun _ => 6).analyzePhoto sampleVehicle p
            (mapPhotoZoneToFindingZone p.Zone) = Except.ok r →
          isExteriorZone p.Zone = false) → stored.ScoreExterior = some 10) ∧
      ((∀ p ∈ InspectionPhotoRepository.GetByInspectionID engineOnlyStore "i1", ∀ r,
          (sampleCollaborators fun _ => 6).analyzePhoto sampleVehicle p
            (mapPhotoZoneToFindingZone p.Zone) = Except.ok r →
          isInteriorZone p.Zone = false) → stored.ScoreInterior = some 10) :=
  ⟨by decide, by set_option maxRecDepth 100000 in decide,
    RunInspection_empty_bucket_defaults (sampleCollaborators fun _ => 6) engineOnlyStore
      sampleVehicle "i1" (by decide)⟩

/-- C4. `mapPhotoZoneToFindingZone` maps each of the 14 photo zones to one finding
zone, which is one of the 10 report zones; the table is the one listed. -/
theorem mapPhotoZoneToFindingZone_table :
    allPhotoZones.length = 14 ∧ allPhotoZones.Nodup ∧
    allFindingZones.length = 10 ∧ allFindingZones.Nodup ∧
    (∀ pz ∈ allPhotoZones, mapPhotoZoneToFindingZone pz ∈ allFindingZones) ∧
    (∀ pz ∈ allPhotoZones, ∃! fz, mapPhotoZoneToFindingZone pz = fz) ∧
    allPhotoZones.map mapPhotoZoneToFindingZone =
      [ZoneFront, ZoneRear, ZoneLeft, ZoneRight, ZoneFront, ZoneRear, ZoneInteriorFront,
        ZoneInteriorRear, ZoneInteriorRear, ZoneInteriorFront, ZoneInteriorFront, ZoneEngine,
        ZoneTrunk, ZoneFront] := by
  refine ⟨by decide, by decide, by decide, by decide, by decide, ?_, by decide⟩
  intro pz _
  exact ⟨mapPhotoZoneToFindingZone pz, rfl, fun y hy => hy.symm⟩

/-- C5. One pass of the photo loop on a successfully analysed photo: the score is
appended to the exterior bucket exactly when the zone is front, rear, left, right,
front_left or rear_right, to the interior bucket exactly when it is interior_driver,
interior_passenger, interior_rear, dashboard or infotainment, to the mechanical bucket
exactly when it is engine; the tires bucket is never touched, at most one bucket grows
(by one score), and a trunk or closeup photo changes no bucket. -/
theorem photoStep_buckets
    (analyze : InspectionPhoto → FindingZone → Except GoError photoAnalysisResult)
    (inspectionID : String) (acc : Accumulators) (p : InspectionPhoto)
    (result : photoAnalysisResult)
    (h : analyze p (mapPhotoZoneToFindingZone p.Zone) = Except.ok result) :
    (photoStep analyze inspectionID acc p).exteriorScores =
      (if p.Zone ∈ [PhotoZoneFront, PhotoZoneRear, PhotoZoneLeft, PhotoZoneRight,
          PhotoZoneFrontLeft, PhotoZoneRearRight]
        then acc.exteriorScores ++ [result.Score] else acc.exteriorScores) ∧
    (photoStep analyze inspectionID acc p).interiorScores =
      (if p.Zone ∈ [PhotoZoneInteriorDriver, PhotoZoneInteriorPassenger,
          PhotoZoneInteriorRear, PhotoZoneDashboard, PhotoZoneInfotainment]
        then acc.interiorScores ++ [result.Score] else acc.interiorScores) ∧
    (photoStep analyze inspectionID acc p).mechanicalScores =
      (if p.Zone = PhotoZoneEngine
        then acc.mechanicalScores ++ [result.Score] else acc.mechanicalScores) ∧
    (photoStep analyze inspectionID acc p).tireScores = acc.tireScores ∧
    ((photoStep analyze inspectionID acc p).exteriorScores.length +
        (photoStep analyze inspectionID acc p).interiorScores.length +
        (photoStep analyze inspectionID acc p).mechanicalScores.length +
        (photoStep analyze inspectionID acc p).tireScores.length
      ≤ acc.exteriorScores.length + acc.interiorScores.length +
        acc.mechanicalScores.length + acc.tireScores.length + 1) ∧
    (p.Zone = PhotoZoneTrunk ∨ p.Zone = PhotoZoneCloseup →
      (photoStep analyze inspectionID acc p).exteriorScores = acc.exteriorScores ∧
      (photoStep analyze inspectionID acc p).interiorScores = acc.interiorScores ∧
      (photoStep analyze inspectionID acc p).mechanicalScores = acc.mechanicalScores ∧
      (photoStep analyze inspectionID acc p).tireScores = acc.tireScores) := by
  have hstep : photoStep analyze inspectionID acc p =
      { allFindings := acc.allFindings ++
          result.Findings.map (convertFinding inspectionID p (mapPhotoZoneToFindingZone p.Zone)),
        exteriorScores := acc.exteriorScores ++ (if isExteriorZone p.Zone then [result.Score] else []),
        interiorScores := acc.interiorScores ++ (if isInteriorZone p.Zone then [result.Score] else []),
        mechanicalScores :=
          acc.mechanicalScores ++ (if p.Zone = PhotoZoneEngine then [result.Score] else []),
        tireScores := acc.tireScores } := by
    unfold photoStep
    simp only [h, classifyScore_eq, feedsInterior_eq, feedsMechanical_eq, decide_eq_true_eq]
  have hext := isExteriorZone_iff p.Zone
  have hint := isInteriorZone_iff p.Zone
  rw [hstep]
  refine ⟨?_, ?_, ?_, rfl, ?_, ?_⟩
  · by_cases hz : isExteriorZone p.Zone = true
    · simp only [hz, if_true, if_pos (hext.mp hz)]
    · simp only [hz, if_neg (fun hm => hz (hext.mpr hm))]
      simp
  · by_cases hz : isInteriorZone p.Zone = true
    · simp only [hz, if_true, if_pos (hint.mp hz)]
    · simp only [hz, if_neg (fun hm => hz (hint.mpr hm))]
      simp
  · by_cases hz : p.Zone = PhotoZoneEngine
    · simp only [if_pos hz]
    · simp only [if_neg hz]
      simp
  · have hdisj : ¬ (isExteriorZone p.Zone = true ∧ isInteriorZone p.Zone = true) := by
      intro hboth
      have hfi := feedsInterior_eq p.Zone
      unfold feedsInterior at hfi
      rw [hboth.1, hboth.2] at hfi
      cases hfi
    have e1 : isExteriorZone PhotoZoneEngine = false := by decide
    have e2 : isInteriorZone PhotoZoneEngine = false := by decide
    simp only []
    by_cases h3 : p.Zone = PhotoZoneEngine
    · simp [h3, e1, e2]
      omega
    · by_cases h1 : isExteriorZone p.Zone = true
      · have h2 : isInteriorZone p.Zone = false := by
          cases hi : isInteriorZone p.Zone
          · rfl
          · exact absurd ⟨h1, hi⟩ hdisj
        simp [h1, h2, h3]
        omega
      · have h1f : isExteriorZone p.Zone = false := by simpa using h1
        cases h2 : isInteriorZone p.Zone
        · simp [h1f, h3]
        · simp [h1f, h3]
          omega
  · intro hz
    have hfacts : isExteriorZone p.Zone = false ∧ isInteriorZone p.Zone = false ∧
        p.Zone ≠ PhotoZoneEngine := by
      rcases hz with hz | hz <;> rw [hz] <;> decide
    simp [hfacts.1, hfacts.2.1, hfacts.2.2]

/-- C5 on a dashboard photo scored 7: only the interior bucket grows. -/
theorem photoStep_buckets_witness :
    (fun (_ : InspectionPhoto) (_ : FindingZone) =>
        (Except.ok ⟨7, []⟩ : Except GoError photoAnalysisResult))
      (samplePhoto "p1" PhotoZoneDashboard 0)
      (mapPhotoZoneToFindingZone (samplePhoto "p1" PhotoZoneDashboard 0).Zone)
        = Except.ok ⟨7, []⟩ ∧
    (photoStep (fun _ _ => Except.ok ⟨7, []⟩) "i1" ⟨[], [4], [5], [6], []⟩
        (samplePhoto "p1" PhotoZoneDashboard 0)) = ⟨[], [4], [5, 7], [6], []⟩ ∧
    (photoStep (fun _ _ => Except.ok ⟨7, []⟩) "i1" ⟨[], [4], [5], [6], []⟩
        (samplePhoto "p1" PhotoZoneDashboard 0)).interiorScores = [5] ++ [7] :=
  ⟨rfl, by decide,
    (photoStep_buckets (fun _ _ => Except.ok ⟨7, []⟩) "i1" ⟨[], [4], [5], [6], []⟩
      (samplePhoto "p1" PhotoZoneDashboard 0) ⟨7, []⟩ rfl).2.1.trans (by decide)⟩

/-- C6, as stated, fails: a vehicle of age 11 with 120,000 km has base score 5, not
the floor value 1. -/
theorem calculateMechanicalBase_old_high_mileage_is_not_floor :
    ¬ (∀ (now : Time) (vehicle : Vehicle), 5 < vehicleAge now vehicle →
        100000 < vehicle.MileageKM → calculateMechanicalBase now vehicle = 1) := by
  intro hall
  have h := hall ⟨0, 2026⟩ sampleVehicle (by decide) (by decide)
  revert h
  decide

/-- C6, amended. For every vehicle whose age (current year minus model year) is greater
than 5 and whose mileage is greater than 100,000 km, `calculateMechanicalBase` returns
5, that is 10 - 2 - 3. -/
theorem calculateMechanicalBase_old_high_mileage (now : Time) (vehicle : Vehicle)
    (hage : 5 < vehicleAge now vehicle) (hkm : 100000 < vehicle.MileageKM) :
    calculateMechanicalBase now vehicle = 5 := by
  unfold calculateMechanicalBase
  simp only [gt_iff_lt, hage, hkm, if_true]
  decide

/-- C6, amended, on a vehicle of age 11 with 120,000 km. -/
theorem calculateMechanicalBase_old_high_mileage_witness :
    5 < vehicleAge ⟨0, 2026⟩ sampleVehicle ∧ 100000 < sampleVehicle.MileageKM ∧
    calculateMechanicalBase ⟨0, 2026⟩ sampleVehicle = 5 :=
  ⟨by decide, by decide,
    calculateMechanicalBase_old_high_mileage ⟨0, 2026⟩ sampleVehicle (by decide) (by decide)⟩

/-- C7. For every vehicle whose age is between 0 and 2 and whose mileage is between 0
and 20,000 km, both inclusive, `calculateMechanicalBase` returns 10. -/
theorem calculateMechanicalBase_recent_low_mileage (now : Time) (vehicle : Vehicle)
    (hage0 : 0 ≤ vehicleAge now vehicle) (hage2 : vehicleAge now vehicle ≤ 2)
    (hkm0 : 0 ≤ vehicle.MileageKM) (hkm : vehicle.MileageKM ≤ 20000) :
    calculateMechanicalBase now vehicle = 10 := by
  unfold calculateMechanicalBase
  have h1 : ¬ vehicleAge now vehicle > 5 := by omega
  have h2 : ¬ vehicleAge now vehicle > 2 := by omega
  have h3 : ¬ vehicle.MileageKM > 100000 := by omega
  have h4 : ¬ vehicle.MileageKM > 50000 := by omega
  have h5 : ¬ vehicle.MileageKM > 20000 := by omega
  simp only [h1, h2, h3, h4, h5, if_false]
  decide

/-- C7 on a vehicle of age 1 with 8,000 km. -/
theorem calculateMechanicalBase_recent_low_mileage_witness :
    0 ≤ vehicleAge ⟨0, 2026⟩ recentVehicle ∧ vehicleAge ⟨0, 2026⟩ recentVehicle ≤ 2 ∧
    0 ≤ recentVehicle.MileageKM ∧ recentVehicle.MileageKM ≤ 20000 ∧
    calculateMechanicalBase ⟨0, 2026⟩ recentVehicle = 10 :=
  ⟨by decide, by decide, by decide, by decide,
    calculateMechanicalBase_recent_low_mileage ⟨0, 2026⟩ recentVehicle (by decide) (by decide)
      (by decide) (by decide)⟩

/-- C8. `calculateMechanicalBase` is non-increasing in age and in mileage: for one
reading of the clock, a vehicle that is at least as old and has at least as many
kilometres as another has a base score that is at most the other's. -/
theorem calculateMechanicalBase_antitone (now : Time) (v1 v2 : Vehicle)
    (hage : vehicleAge now v1 ≤ vehicleAge now v2) (hkm : v1.MileageKM ≤ v2.MileageKM) :
    calculateMechanicalBase now v2 ≤ calculateMechanicalBase now v1 := by
  rw [calculateMechanicalBase_eq, calculateMechanicalBase_eq]
  have h1 := ageDeduction_mono _ _ hage
  have h2 := mileageDeduction_mono _ _ hkm
  omega

/-- C8 on a recent vehicle and an older one with more kilometres. -/
theorem calculateMechanicalBase_antitone_witness :
    vehicleAge ⟨0, 2026⟩ recentVehicle ≤ vehicleAge ⟨0, 2026⟩ sampleVehicle ∧
    recentVehicle.MileageKM ≤ sampleVehicle.MileageKM ∧
    calculateMechanicalBase ⟨0, 2026⟩ sampleVehicle ≤
      calculateMechanicalBase ⟨0, 2026⟩ recentVehicle :=
  ⟨by decide, by decide,
    calculateMechanicalBase_antitone ⟨0, 2026⟩ recentVehicle sampleVehicle (by decide)
      (by decide)⟩

/-- C9. The aggregation does not depend on the order of the photos: on two stores with
the same inspections whose photo lists are permutations of each other, `RunInspection`
returns the same error, leaves the same inspection rows (hence the same exterior,
interior, mechanical, tires and overall scores) and sends the same record to its last
repository call. -/
theorem RunInspection_photo_order_independent (c : Collaborators) (s1 s2 : Store)
    (vehicle : Vehicle) (id : String) (hi : s1.inspections = s2.inspections)
    (hperm : s1.photos.Perm s2.photos) :
    (VisionService.RunInspection c s1 vehicle id).err =
      (VisionService.RunInspection c s2 vehicle id).err ∧
    (VisionService.RunInspection c s1 vehicle id).store.inspections =
      (VisionService.RunInspection c s2 vehicle id).store.inspections ∧
    (VisionService.RunInspection c s1 vehicle id).calls.getLast? =
      (VisionService.RunInspection c s2 vehicle id).calls.getLast? := by
  have hphotos : (InspectionPhotoRepository.GetByInspectionID s1 id).Perm
      (InspectionPhotoRepository.GetByInspectionID s2 id) := List.Perm.filter _ hperm
  have hg := getByID_congr s1 s2 id hi
  cases hget : c.getByIDErr with
  | some e =>
    rw [RunInspection_getByID_fault c s1 vehicle id e hget,
      RunInspection_getByID_fault c s2 vehicle id e hget]
    exact ⟨rfl, hi, rfl⟩
  | none =>
    cases hf1 : InspectionRepository.GetByID s1 id with
    | error e =>
      have hf2 : InspectionRepository.GetByID s2 id = Except.error e := by rw [← hg, hf1]
      rw [RunInspection_not_found c s1 vehicle id e hget hf1,
        RunInspection_not_found c s2 vehicle id e hget hf2]
      exact ⟨rfl, hi, rfl⟩
    | ok found =>
      have hf2 : InspectionRepository.GetByID s2 id = Except.ok found := by rw [← hg, hf1]
      cases hu : c.firstUpdateErr with
      | some e =>
        rw [RunInspection_first_update_fault c s1 vehicle id found e hget hf1 hu,
          RunInspection_first_update_fault c s2 vehicle id found e hget hf2 hu]
        exact ⟨rfl, hi, rfl⟩
      | none =>
        cases hp : c.photosErr with
        | some e =>
          rw [RunInspection_photos_fault c s1 vehicle id found e hget hf1 hu hp,
            RunInspection_photos_fault c s2 vehicle id found e hget hf2 hu hp]
          exact ⟨rfl, by simp only [hi], rfl⟩
        | none =>
          rw [RunInspection_of_found c s1 vehicle id found hget hf1 hu hp,
            RunInspection_of_found c s2 vehicle id found hget hf2 hu hp]
          by_cases hlen : (InspectionPhotoRepository.GetByInspectionID s1 id).length = 0
          · have hlen2 : (InspectionPhotoRepository.GetByInspectionID s2 id).length = 0 := by
              rw [← List.Perm.length_eq hphotos]
              exact hlen
            rw [if_pos hlen, if_pos hlen2]
            exact ⟨rfl, by simp only [hi], rfl⟩
          · have hlen2 : ¬ (InspectionPhotoRepository.GetByInspectionID s2 id).length = 0 := by
              rw [← List.Perm.length_eq hphotos]
              exact hlen
            rw [if_neg hlen, if_neg hlen2]
            have hcomp := completedInspection_perm c vehicle id
              { found with Status := InspectionProcessing } _ _ hphotos
            cases hfin : c.finalUpdateErr with
            | some e =>
              rw [analyseAndStore_store_before_update c _ vehicle id _ _ _ e hfin,
                analyseAndStore_store_before_update c _ vehicle id _ _ _ e hfin]
              refine ⟨rfl, ?_, ?_⟩
              · simp only [storeAfterBatch_inspections, hi]
              · simp only [List.getLast?_concat, hcomp]
            | none =>
              have hid := getByID_id s1 id found hf1
              have hid2 : ({ found with Status := InspectionProcessing } : Inspection).ID = id :=
                hid
              have hrow1 := getByID_updatedRows s1 id found
                { found with Status := InspectionProcessing } s1.photos s1.findings hf1
              have hrow2 := getByID_updatedRows s2 id found
                { found with Status := InspectionProcessing } s2.photos s2.findings hf2
              rw [analyseAndStore_ok c _ vehicle id _ _ _ _ hrow1 hid2 hfin,
                analyseAndStore_ok c _ vehicle id _ _ _ _ hrow2 hid2 hfin]
              refine ⟨rfl, ?_, ?_⟩
              · simp only [hi, hcomp]
              · simp only [List.getLast?_concat, hcomp]

/-- C9 on the sample store and the same store with its photos reversed. -/
theorem RunInspection_photo_order_independent_witness :
    sampleStore.inspections = reversedSampleStore.inspections ∧
    sampleStore.photos.Perm reversedSampleStore.photos ∧
    (VisionService.RunInspection (sampleCollaborators sampleScores) sampleStore sampleVehicle
        "i1").err =
      (VisionService.RunInspection (sampleCollaborators sampleScores) reversedSampleStore
        sampleVehicle "i1").err ∧
    (VisionService.RunInspection (sampleCollaborators sampleScores) sampleStore sampleVehicle
        "i1").store.inspections =
      (VisionService.RunInspection (sampleCollaborators sampleScores) reversedSampleStore
        sampleVehicle "i1").store.inspections ∧
    (VisionService.RunInspection (sampleCollaborators sampleScores) sampleStore sampleVehicle
        "i1").calls.getLast? =
      (VisionService.RunInspection (sampleCollaborators sampleScores) reversedSampleStore
        sampleVehicle "i1").calls.getLast? :=
  ⟨rfl, (List.reverse_perm _).symm,
    RunInspection_photo_order_independent (sampleCollaborators sampleScores) sampleStore
      reversedSampleStore sampleVehicle "i1" rfl (List.reverse_perm _).symm⟩

/-- C10, as stated, fails. With the inspection stored as pending, no photo and no
failing collaborator, `RunInspection` returns the validation failure but the stored
status has become processing; and when the inspection row is missing, the error for
an inspection without photos is a not-found error, not a validation failure. -/
theorem RunInspection_no_photos_changes_status :
    InspectionPhotoRepository.GetByInspectionID noPhotoStore "i1" = [] ∧
    (VisionService.RunInspection (sampleCollaborators fun _ => 7) noPhotoStore sampleVehicle
      "i1").err = some (errx.Validation "No photos uploaded for this inspection") ∧
    storedStatus noPhotoStore "i1" = some InspectionPending ∧
    storedStatus (VisionService.RunInspection (sampleCollaborators fun _ => 7) noPhotoStore
      sampleVehicle "i1").store "i1" = some InspectionProcessing ∧
    storedStatus (VisionService.RunInspection (sampleCollaborators fun _ => 7) noPhotoStore
      sampleVehicle "i1").store "i1" ≠ storedStatus noPhotoStore "i1" ∧
    InspectionPhotoRepository.GetByInspectionID noPhotoStore "i2" = [] ∧
    (VisionService.RunInspection (sampleCollaborators fun _ => 7) noPhotoStore sampleVehicle
      "i2").err = some (errx.NotFound "Inspection not found") := by
  decide

/-- C10, amended. When the inspection is found, the first update succeeds and the photo
list is read and empty, `RunInspection` returns the validation failure "No photos
uploaded for this inspection" and does nothing more: its calls are the lookup, the
update to processing and the photo query; photos and findings are untouched, and the
stored inspection is the one found before the call with status processing. -/
theorem RunInspection_no_photos (c : Collaborators) (s : Store) (vehicle : Vehicle)
    (id : String) (found : Inspection) (hget : c.getByIDErr = none)
    (hfound : InspectionRepository.GetByID s id = Except.ok found)
    (hu : c.firstUpdateErr = none) (hp : c.photosErr = none)
    (hnone : InspectionPhotoRepository.GetByInspectionID s id = []) :
    (VisionService.RunInspection c s vehicle id).err =
      some (errx.Validation "No photos uploaded for this inspection") ∧
    (VisionService.RunInspection c s vehicle id).calls =
      [Call.GetByID id, Call.Update { found with Status := InspectionProcessing },
        Call.PhotosGetByInspectionID id] ∧
    (VisionService.RunInspection c s vehicle id).store.photos = s.photos ∧
    (VisionService.RunInspection c s vehicle id).store.findings = s.findings ∧
    InspectionRepository.GetByID (VisionService.RunInspection c s vehicle id).store id =
      Except.ok { found with Status := InspectionProcessing } ∧
    storedStatus (VisionService.RunInspection c s vehicle id).store id =
      some InspectionProcessing := by
  have hrow := getByID_updatedRows s id found { found with Status := InspectionProcessing }
    s.photos s.findings hfound
  rw [writeColumns_of_same_key found { found with Status := InspectionProcessing } rfl rfl]
    at hrow
  have hstat : storedStatus
      { inspections := updatedRows s.inspections id { found with Status := InspectionProcessing },
        photos := s.photos, findings := s.findings } id = some InspectionProcessing := by
    rw [getByID_eq_ok] at hrow
    unfold storedStatus
    rw [hrow]
    rfl
  rw [RunInspection_of_found c s vehicle id found hget hfound hu hp, hnone]
  rw [if_pos List.length_nil]
  exact ⟨rfl, rfl, rfl, rfl, hrow, hstat⟩

/-- C10, amended, on a pending inspection without photos. -/
theorem RunInspection_no_photos_witness :
    (sampleCollaborators fun _ => 7).getByIDErr = none ∧
    InspectionRepository.GetByID noPhotoStore "i1" = Except.ok sampleInspection ∧
    (sampleCollaborators fun _ => 7).firstUpdateErr = none ∧
    (sampleCollaborators fun _ => 7).photosErr = none ∧
    InspectionPhotoRepository.GetByInspectionID noPhotoStore "i1" = [] ∧
    (VisionService.RunInspection (sampleCollaborators fun _ => 7) noPhotoStore sampleVehicle
      "i1").calls =
      [Call.GetByID "i1", Call.Update { sampleInspection with Status := InspectionProcessing },
        Call.PhotosGetByInspectionID "i1"] ∧
    storedStatus (VisionService.RunInspection (sampleCollaborators fun _ => 7) noPhotoStore
      sampleVehicle "i1").store "i1" = some InspectionProcessing :=
  ⟨rfl, (getByID_eq_ok _ _ _).mpr (by decide), rfl, rfl, by decide,
    (RunInspection_no_photos (sampleCollaborators fun _ => 7) noPhotoStore sampleVehicle "i1"
      sampleInspection rfl ((getByID_eq_ok _ _ _).mpr (by decide)) rfl rfl (by decide)).2.1,
    (RunInspection_no_photos (sampleCollaborators fun _ => 7) noPhotoStore sampleVehicle "i1"
      sampleInspection rfl ((getByID_eq_ok _ _ _).mpr (by decide)) rfl rfl
      (by decide)).2.2.2.2.2⟩

/-- C11, as stated, fails when every analysis fails. On a store with one photo whose
analysis fails, `RunInspection` completes and stores the default scores; on the same
store with the failed photo removed there is no photo left, the run is a validation
failure and no score is stored. -/
theorem RunInspection_all_failed_differs_from_empty :
    noPhotoStore.inspections = engineOnlyStore.inspections ∧
    noPhotoStore.findings = engineOnlyStore.findings ∧
    noPhotoStore.photos =
      engineOnlyStore.photos.filter (analysisSucceeded (failingProvider.analyzePhoto sampleVehicle)) ∧
    (VisionService.RunInspection failingProvider engineOnlyStore sampleVehicle "i1").err = none ∧
    (VisionService.RunInspection failingProvider engineOnlyStore sampleVehicle
      "i1").store.inspections.map Inspection.scores
        = [[some 10, some 10, some 5, some 8, some 87]] ∧
    (VisionService.RunInspection failingProvider noPhotoStore sampleVehicle "i1").err =
      some (errx.Validation "No photos uploaded for this inspection") ∧
    (VisionService.RunInspection failingProvider noPhotoStore sampleVehicle
      "i1").store.inspections.map Inspection.scores = [[none, none, none, none, none]] := by
  set_option maxRecDepth 100000 in decide

/-- C11, amended. A photo whose analysis fails contributes to neither scores nor
findings: when at least one photo of the inspection is analysed successfully, the
run on the store without the failed photos returns the same error, stores the same
five scores and leaves the same findings as the run on the full store. -/
theorem RunInspection_failed_photos_removed (c : Collaborators) (s s2 : Store)
    (vehicle : Vehicle) (id : String) (hi : s2.inspections = s.inspections)
    (hfind : s2.findings = s.findings)
    (hphotos : s2.photos = s.photos.filter (analysisSucceeded (c.analyzePhoto vehicle)))
    (hne : InspectionPhotoRepository.GetByInspectionID s2 id ≠ []) :
    (VisionService.RunInspection c s vehicle id).err =
      (VisionService.RunInspection c s2 vehicle id).err ∧
    (VisionService.RunInspection c s vehicle id).store.inspections.map Inspection.scores =
      (VisionService.RunInspection c s2 vehicle id).store.inspections.map Inspection.scores ∧
    (VisionService.RunInspection c s vehicle id).store.findings =
      (VisionService.RunInspection c s2 vehicle id).store.findings := by
  have hsel : InspectionPhotoRepository.GetByInspectionID s2 id =
      (InspectionPhotoRepository.GetByInspectionID s id).filter
        (analysisSucceeded (c.analyzePhoto vehicle)) := by
    unfold InspectionPhotoRepository.GetByInspectionID
    rw [hphotos, List.filter_filter, List.filter_filter]
    apply List.filter_congr
    intro p _
    exact Bool.and_comm _ _
  have hg := getByID_congr s2 s id hi
  cases hget : c.getByIDErr with
  | some e =>
    rw [RunInspection_getByID_fault c s vehicle id e hget,
      RunInspection_getByID_fault c s2 vehicle id e hget]
    exact ⟨rfl, by rw [hi], hfind.symm⟩
  | none =>
    cases hf1 : InspectionRepository.GetByID s id with
    | error e =>
      have hf2 : InspectionRepository.GetByID s2 id = Except.error e := by rw [hg, hf1]
      rw [RunInspection_not_found c s vehicle id e hget hf1,
        RunInspection_not_found c s2 vehicle id e hget hf2]
      exact ⟨rfl, by rw [hi], hfind.symm⟩
    | ok found =>
      have hf2 : InspectionRepository.GetByID s2 id = Except.ok found := by rw [hg, hf1]
      cases hu : c.firstUpdateErr with
      | some e =>
        rw [RunInspection_first_update_fault c s vehicle id found e hget hf1 hu,
          RunInspection_first_update_fault c s2 vehicle id found e hget hf2 hu]
        exact ⟨rfl, by rw [hi], hfind.symm⟩
      | none =>
        cases hp : c.photosErr with
        | some e =>
          rw [RunInspection_photos_fault c s vehicle id found e hget hf1 hu hp,
            RunInspection_photos_fault c s2 vehicle id found e hget hf2 hu hp]
          exact ⟨rfl, by simp only [hi], hfind.symm⟩
        | none =>
          have hlen2 : ¬ (InspectionPhotoRepository.GetByInspectionID s2 id).length = 0 :=
            fun h0 => hne (List.length_eq_zero.mp h0)
          have hlen1 : ¬ (InspectionPhotoRepository.GetByInspectionID s id).length = 0 := by
            intro h0
            apply hlen2
            rw [hsel, List.length_eq_zero.mp h0]
            rfl
          rw [RunInspection_of_found c s vehicle id found hget hf1 hu hp,
            RunInspection_of_found c s2 vehicle id found hget hf2 hu hp,
            if_neg hlen1, if_neg hlen2]
          have hloop := photoLoop_filter_succeeded (c.analyzePhoto vehicle) id
            (InspectionPhotoRepository.GetByInspectionID s id)
          rw [← hsel] at hloop
          cases hfin : c.finalUpdateErr with
          | some e =>
            rw [analyseAndStore_store_before_update c _ vehicle id _ _ _ e hfin,
              analyseAndStore_store_before_update c _ vehicle id _ _ _ e hfin]
            refine ⟨rfl, ?_, ?_⟩
            · simp only [storeAfterBatch_inspections, hi]
            · simp only [hloop, hi, hfind, storeAfterBatch,
                InspectionFindingRepository.CreateBatch]
              split
              · split <;> rfl
              · rfl
          | none =>
            have hid := getByID_id s id found hf1
            have hid2 : ({ found with Status := InspectionProcessing } : Inspection).ID = id :=
              hid
            have hrow1 := getByID_updatedRows s id found
              { found with Status := InspectionProcessing } s.photos s.findings hf1
            have hrow2 := getByID_updatedRows s2 id found
              { found with Status := InspectionProcessing } s2.photos s2.findings hf2
            rw [analyseAndStore_ok c _ vehicle id _ _ _ _ hrow1 hid2 hfin,
              analyseAndStore_ok c _ vehicle id _ _ _ _ hrow2 hid2 hfin]
            refine ⟨rfl, ?_, ?_⟩
            · simp only [hi, hloop]
              exact updatedRows_scores _ id _ _ (completedInspection_scores c vehicle _ _ _ _)
            · simp only [hloop, hi, hfind, storeAfterBatch,
                InspectionFindingRepository.CreateBatch]
              split
              · split <;> rfl
              · rfl

/-- C11, amended, on the sample store with a provider that fails on the dashboard
photo only. -/
theorem RunInspection_failed_photos_removed_witness :
    twoPhotoStore.inspections = sampleStore.inspections ∧
    twoPhotoStore.findings = sampleStore.findings ∧
    twoPhotoStore.photos =
      sampleStore.photos.filter (analysisSucceeded (dashboardFails.analyzePhoto sampleVehicle)) ∧
    InspectionPhotoRepository.GetByInspectionID twoPhotoStore "i1" ≠ [] ∧
    (VisionService.RunInspection dashboardFails sampleStore sampleVehicle
      "i1").store.inspections.map Inspection.scores =
      (VisionService.RunInspection dashboardFails twoPhotoStore sampleVehicle
        "i1").store.inspections.map Inspection.scores ∧
    (VisionService.RunInspection dashboardFails sampleStore sampleVehicle
      "i1").store.inspections.map Inspection.scores
        = [[some 6, some 10, some 6, some 8, some 75]] :=
  ⟨rfl, rfl, by decide, by decide,
    (RunInspection_failed_photos_removed dashboardFails sampleStore twoPhotoStore sampleVehicle
      "i1" rfl rfl (by decide) (by decide)).2.1,
    by set_option maxRecDepth 100000 in decide⟩

/-- C12. Provided the inspection is found, the initial status update succeeds and the
photo list is read and non-empty, `RunInspection` returns an error exactly when the
final inspection update fails; that error wraps the failure of the update as an
internal error.  When the final update succeeds the run returns no error and the
completed record with its scores is stored, whatever the outcomes of the photo
analyses and of the batch save of the findings are. -/
theorem RunInspection_fails_iff_final_update_fails (c : Collaborators) (s : Store)
    (vehicle : Vehicle) (id : String) (found : Inspection) (hget : c.getByIDErr = none)
    (hfound : InspectionRepository.GetByID s id = Except.ok found)
    (hu : c.firstUpdateErr = none) (hp : c.photosErr = none)
    (hne : InspectionPhotoRepository.GetByInspectionID s id ≠ []) :
    ((VisionService.RunInspection c s vehicle id).err ≠ none ↔ c.finalUpdateErr ≠ none) ∧
    (∀ e, c.finalUpdateErr = some e →
      (VisionService.RunInspection c s vehicle id).err =
        some (errx.Wrap e "Failed to update inspection results" ErrorType.TypeInternal) ∧
      ∀ err, (VisionService.RunInspection c s vehicle id).err = some err →
        err.type? = some ErrorType.TypeInternal) ∧
    (c.finalUpdateErr = none →
      (VisionService.RunInspection c s vehicle id).err = none ∧
      InspectionRepository.GetByID (VisionService.RunInspection c s vehicle id).store id =
        Except.ok (completedInspection c vehicle { found with Status := InspectionProcessing }
          (photoLoop (c.analyzePhoto vehicle) id
            (InspectionPhotoRepository.GetByInspectionID s id))
          (InspectionPhotoRepository.GetByInspectionID s id))) := by
  have hlen : ¬ (InspectionPhotoRepository.GetByInspectionID s id).length = 0 :=
    fun h0 => hne (List.length_eq_zero.mp h0)
  have hid := getByID_id s id found hfound
  have hid2 : ({ found with Status := InspectionProcessing } : Inspection).ID = id := hid
  have hrow := getByID_updatedRows s id found { found with Status := InspectionProcessing }
    s.photos s.findings hfound
  have hfail : ∀ e, c.finalUpdateErr = some e →
      (VisionService.RunInspection c s vehicle id).err =
        some (errx.Wrap e "Failed to update inspection results" ErrorType.TypeInternal) := by
    intro e he
    rw [RunInspection_of_found c s vehicle id found hget hfound hu hp, if_neg hlen,
      analyseAndStore_store_before_update c _ vehicle id _ _ _ e he]
  have hok : c.finalUpdateErr = none →
      (VisionService.RunInspection c s vehicle id).err = none := by
    intro hnone
    rw [RunInspection_of_found c s vehicle id found hget hfound hu hp, if_neg hlen,
      analyseAndStore_ok c _ vehicle id _ _ _ _ hrow hid2 hnone]
  refine ⟨?_, ?_, ?_⟩
  · cases hfin : c.finalUpdateErr with
    | some e => simp [hfail e hfin]
    | none => simp [hok hfin]
  · intro e he
    refine ⟨hfail e he, ?_⟩
    intro err herr
    rw [hfail e he] at herr
    cases herr
    rfl
  · intro hnone
    exact ⟨hok hnone, RunInspection_success c s vehicle id found hfound (hok hnone)⟩

/-- C12 on the sample store: the dashboard analysis fails and the batch save fails,
and the run still succeeds and stores the scores; with a failing final update the
run returns an internal error. -/
theorem RunInspection_fails_iff_final_update_fails_witness :
    batchFails.getByIDErr = none ∧
    sampleStore.inspections.find? (fun r => r.ID == "i1") = some sampleInspection ∧
    batchFails.firstUpdateErr = none ∧ batchFails.photosErr = none ∧
    InspectionPhotoRepository.GetByInspectionID sampleStore "i1" ≠ [] ∧
    batchFails.createBatchErr ≠ none ∧
    ((VisionService.RunInspection batchFails sampleStore sampleVehicle "i1").err ≠ none ↔
      batchFails.finalUpdateErr ≠ none) ∧
    (VisionService.RunInspection batchFails sampleStore sampleVehicle "i1").err = none ∧
    (VisionService.RunInspection batchFails sampleStore sampleVehicle
      "i1").store.inspections.map Inspection.scores
        = [[some 6, some 10, some 6, some 8, some 75]] ∧
    (VisionService.RunInspection batchFails sampleStore sampleVehicle "i1").store.findings
      = [] ∧
    (VisionService.RunInspection batchFails sampleStore sampleVehicle "i1").calls.any
      Call.isCreateBatch = true ∧
    (VisionService.RunInspection batchFails sampleStore sampleVehicle
      "i1").store.inspections.map (fun i => i.FindingsCount) = [2] ∧
    ((VisionService.RunInspection { batchFails with finalUpdateErr := some (GoError.plain "x") }
      sampleStore sampleVehicle "i1").err.bind GoError.type?) = some ErrorType.TypeInternal :=
  ⟨rfl, by decide, rfl, rfl, by decide, by decide,
    (RunInspection_fails_iff_final_update_fails batchFails sampleStore sampleVehicle "i1"
      sampleInspection rfl ((getByID_eq_ok _ _ _).mpr (by decide)) rfl rfl (by decide)).1,
    by decide, by set_option maxRecDepth 100000 in decide, by decide, by decide, by decide,
    by decide⟩

/-- C13, as stated, fails. When the initial status update fails, `RunInspection`
returns that error and the stored status stays pending; when the inspection row is
missing, it returns a not-found error and there is no stored status at all. -/
theorem RunInspection_error_without_processing :
    (VisionService.RunInspection firstUpdateFails sampleStore sampleVehicle "i1").err =
      some (GoError.plain "connection refused") ∧
    storedStatus (VisionService.RunInspection firstUpdateFails sampleStore sampleVehicle
      "i1").store "i1" = some InspectionPending ∧
    storedStatus (VisionService.RunInspection firstUpdateFails sampleStore sampleVehicle
      "i1").store "i1" ≠ some InspectionProcessing ∧
    (VisionService.RunInspection (sampleCollaborators sampleScores) sampleStore sampleVehicle
      "i2").err = some (errx.NotFound "Inspection not found") ∧
    storedStatus (VisionService.RunInspection (sampleCollaborators sampleScores) sampleStore
      sampleVehicle "i2").store "i2" = none := by
  decide

/-- C13, amended. Whenever `RunInspection` returns an error after the inspection was
found and the initial status update succeeded, the stored status after the call is
processing; when the lookup or the initial update fails, the store is left as it was
before the call. -/
theorem RunInspection_error_leaves_processing (c : Collaborators) (s : Store)
    (vehicle : Vehicle) (id : String)
    (herr : (VisionService.RunInspection c s vehicle id).err ≠ none) :
    (∀ found, c.getByIDErr = none →
      InspectionRepository.GetByID s id = Except.ok found → c.firstUpdateErr = none →
      storedStatus (VisionService.RunInspection c s vehicle id).store id =
        some InspectionProcessing) ∧
    (c.getByIDErr ≠ none ∨ (∃ e, InspectionRepository.GetByID s id = Except.error e) ∨
        c.firstUpdateErr ≠ none →
      (VisionService.RunInspection c s vehicle id).store = s) := by
  constructor
  · intro found hget hfound hu
    have hrow := getByID_updatedRows s id found { found with Status := InspectionProcessing }
      s.photos s.findings hfound
    rw [writeColumns_of_same_key found { found with Status := InspectionProcessing } rfl rfl]
      at hrow
    rw [getByID_eq_ok] at hrow
    have hstat : ∀ photos findings, storedStatus
        { inspections := updatedRows s.inspections id { found with Status := InspectionProcessing },
          photos := photos, findings := findings } id = some InspectionProcessing := by
      intro photos findings
      unfold storedStatus
      rw [hrow]
      rfl
    cases hp : c.photosErr with
    | some e =>
      rw [RunInspection_photos_fault c s vehicle id found e hget hfound hu hp]
      exact hstat _ _
    | none =>
      rw [RunInspection_of_found c s vehicle id found hget hfound hu hp] at herr ⊢
      by_cases hlen : (InspectionPhotoRepository.GetByInspectionID s id).length = 0
      · rw [if_pos hlen]
        exact hstat _ _
      · rw [if_neg hlen] at herr ⊢
        cases hfin : c.finalUpdateErr with
        | some e =>
          rw [analyseAndStore_store_before_update c _ vehicle id _ _ _ e hfin]
          simp only []
          unfold storedStatus
          rw [storeAfterBatch_inspections]
          exact hstat s.photos s.findings
        | none =>
          have hid := getByID_id s id found hfound
          have hid2 : ({ found with Status := InspectionProcessing } : Inspection).ID = id :=
            hid
          have hrow2 := getByID_updatedRows s id found
            { found with Status := InspectionProcessing } s.photos s.findings hfound
          rw [analyseAndStore_ok c _ vehicle id _ _ _ _ hrow2 hid2 hfin] at herr
          exact absurd rfl herr
  · intro hcases
    cases hget : c.getByIDErr with
    | some e => rw [RunInspection_getByID_fault c s vehicle id e hget]
    | none =>
      cases hfound : InspectionRepository.GetByID s id with
      | error e => rw [RunInspection_not_found c s vehicle id e hget hfound]
      | ok found =>
        cases hu : c.firstUpdateErr with
        | some e => rw [RunInspection_first_update_fault c s vehicle id found e hget hfound hu]
        | none =>
          rcases hcases with h | ⟨e, h⟩ | h
          · exact absurd hget h
          · rw [hfound] at h
            cases h
          · exact absurd hu h

/-- C13, amended, on a run whose final update fails and on a run whose initial update
fails. -/
theorem RunInspection_error_leaves_processing_witness :
    (VisionService.RunInspection finalUpdateFails sampleStore sampleVehicle "i1").err ≠ none ∧
    storedStatus (VisionService.RunInspection finalUpdateFails sampleStore sampleVehicle
      "i1").store "i1" = some InspectionProcessing ∧
    (VisionService.RunInspection firstUpdateFails sampleStore sampleVehicle "i1").err ≠ none ∧
    (VisionService.RunInspection firstUpdateFails sampleStore sampleVehicle "i1").store
      = sampleStore :=
  ⟨by decide,
    (RunInspection_error_leaves_processing finalUpdateFails sampleStore sampleVehicle "i1"
      (by decide)).1 sampleInspection rfl ((getByID_eq_ok _ _ _).mpr (by decide)) rfl,
    by decide,
    (RunInspection_error_leaves_processing firstUpdateFails sampleStore sampleVehicle "i1"
      (by decide)).2 (Or.inr (Or.inr (by decide)))⟩

/-- C14. `RunInspection` turns every finding returned for a successfully analysed photo
into exactly one finding record, in photo order and finding order: the description is
"location - description" when the location is non-empty and the bare description
otherwise, the photo path is the photo's, the confidence the returned one, the zone
the mapped photo zone, the inspection id the run's, and the confirmation flag false.
In a run that succeeds these records are handed to the batch save, and when that save
succeeds they are the rows added to the findings. -/
theorem RunInspection_finding_records (c : Collaborators) (s : Store) (vehicle : Vehicle)
    (id : String) :
    ∃ records : List InspectionFinding,
      records = (InspectionPhotoRepository.GetByInspectionID s id).flatMap (fun p =>
        match c.analyzePhoto vehicle p (mapPhotoZoneToFindingZone p.Zone) with
        | Except.ok result => result.Findings.map (fun f =>
            { ID := "", InspectionID := id, PhotoURL := some p.PhotoURL,
              AnnotatedPhotoURL := none, Zone := mapPhotoZoneToFindingZone p.Zone,
              FindingType := f.Typ, Severity := f.Severity,
              Description := some (if f.Location ≠ "" then f.Location ++ " - " ++ f.Description
                else f.Description),
              AIConfidence := some f.Confidence, ConfirmedByHuman := false })
        | Except.error _ => []) ∧
      (photoLoop (c.analyzePhoto vehicle) id
        (InspectionPhotoRepository.GetByInspectionID s id)).allFindings = records ∧
      ((VisionService.RunInspection c s vehicle id).err = none → records ≠ [] →
        Call.CreateBatch records ∈ (VisionService.RunInspection c s vehicle id).calls) ∧
      ((VisionService.RunInspection c s vehicle id).err = none → c.createBatchErr = none →
        (VisionService.RunInspection c s vehicle id).store.findings = s.findings ++ records) := by
  have hall : (photoLoop (c.analyzePhoto vehicle) id
      (InspectionPhotoRepository.GetByInspectionID s id)).allFindings =
      (InspectionPhotoRepository.GetByInspectionID s id).flatMap (fun p =>
        match c.analyzePhoto vehicle p (mapPhotoZoneToFindingZone p.Zone) with
        | Except.ok result => result.Findings.map (fun f =>
            { ID := "", InspectionID := id, PhotoURL := some p.PhotoURL,
              AnnotatedPhotoURL := none, Zone := mapPhotoZoneToFindingZone p.Zone,
              FindingType := f.Typ, Severity := f.Severity,
              Description := some (if f.Location ≠ "" then f.Location ++ " - " ++ f.Description
                else f.Description),
              AIConfidence := some f.Confidence, ConfirmedByHuman := false })
        | Except.error _ => []) := by
    rw [photoLoop_eq]
    rfl
  refine ⟨_, rfl, hall, ?_, ?_⟩
  · intro herr hne
    rw [← hall] at hne ⊢
    exact RunInspection_success_calls c s vehicle id herr hne
  · intro herr hbatch
    rw [RunInspection_success_findings c s vehicle id herr, ← hall]
    unfold storeAfterBatch InspectionFindingRepository.CreateBatch
    by_cases hpos : (photoLoop (c.analyzePhoto vehicle) id
        (InspectionPhotoRepository.GetByInspectionID s id)).allFindings.length > 0
    · simp only [if_pos hpos, hbatch]
    · have hnil : (photoLoop (c.analyzePhoto vehicle) id
          (InspectionPhotoRepository.GetByInspectionID s id)).allFindings = [] :=
        List.length_eq_zero.mp (by omega)
      rw [if_neg hpos, hnil, List.append_nil]

/-- C14 on a dashboard photo with two findings, one with a location and one without. -/
theorem RunInspection_finding_records_witness :
    (VisionService.RunInspection twoFindingsProvider dashboardStore sampleVehicle "i1").err
      = none ∧
    twoFindingsProvider.createBatchErr = none ∧
    (VisionService.RunInspection twoFindingsProvider dashboardStore sampleVehicle
      "i1").store.findings =
      [{ ID := "", InspectionID := "i1", PhotoURL := some "inspections/i1/photos/p1",
          AnnotatedPhotoURL := none, Zone := ZoneInteriorFront, FindingType := "stain",
          Severity := "minor", Description := some "asiento - mancha",
          AIConfidence := some (F64.ofRatio 9 10), ConfirmedByHuman := false },
        { ID := "", InspectionID := "i1", PhotoURL := some "inspections/i1/photos/p1",
          AnnotatedPhotoURL := none, Zone := ZoneInteriorFront, FindingType := "dent",
          Severity := "moderate", Description := some "abolladura",
          AIConfidence := some (F64.ofRatio 8 10), ConfirmedByHuman := false }] ∧
    ∃ records : List InspectionFinding,
      (photoLoop (twoFindingsProvider.analyzePhoto sampleVehicle) "i1"
        (InspectionPhotoRepository.GetByInspectionID dashboardStore "i1")).allFindings
          = records ∧
      (VisionService.RunInspection twoFindingsProvider dashboardStore sampleVehicle
        "i1").store.findings = dashboardStore.findings ++ records :=
  ⟨by decide, rfl, by set_option maxRecDepth 100000 in decide,
    (RunInspection_finding_records twoFindingsProvider dashboardStore sampleVehicle "i1").elim
      fun records h => ⟨records, h.2.1, h.2.2.2 (by decide) rfl⟩⟩

/-- C15. After a run of `RunInspection` that returns no error, the stored inspection
has status completed, all five scores set, `inspected_at` set to the clock reading of
the update, a finding count equal to the number of finding records built in the run
and a photo count equal to the number of photos of the inspection, failed analyses
included. -/
theorem RunInspection_completed_record (c : Collaborators) (s : Store) (vehicle : Vehicle)
    (id : String) (h : (VisionService.RunInspection c s vehicle id).err = none) :
    ∃ stored,
      InspectionRepository.GetByID (VisionService.RunInspection c s vehicle id).store id
        = Except.ok stored ∧
      stored.Status = InspectionCompleted ∧
      stored.ScoreOverall.isSome = true ∧ stored.ScoreExterior.isSome = true ∧
      stored.ScoreInterior.isSome = true ∧ stored.ScoreMechanical.isSome = true ∧
      stored.ScoreTires.isSome = true ∧
      stored.InspectedAt = some c.nowUpdate ∧
      stored.FindingsCount =
        ((photoLoop (c.analyzePhoto vehicle) id
          (InspectionPhotoRepository.GetByInspectionID s id)).allFindings.length : Int) ∧
      stored.PhotosCount = ((InspectionPhotoRepository.GetByInspectionID s id).length : Int) := by
  obtain ⟨_, _, _, _, _, found, hfound⟩ := RunInspection_err_none_inv c s vehicle id h
  exact ⟨_, RunInspection_success c s vehicle id found hfound h, rfl, rfl, rfl, rfl, rfl, rfl,
    rfl, rfl, rfl⟩

/-- C15 on the sample store with a provider that fails on the dashboard photo: three
photos are counted, two findings. -/
theorem RunInspection_completed_record_witness :
    (VisionService.RunInspection batchFails sampleStore sampleVehicle "i1").err = none ∧
    (VisionService.RunInspection batchFails sampleStore sampleVehicle
      "i1").store.inspections.map (fun i => (i.Status, i.PhotosCount, i.FindingsCount,
        i.InspectedAt)) = [(InspectionCompleted, 3, 2, some ⟨1, 2026⟩)] ∧
    ∃ stored,
      InspectionRepository.GetByID (VisionService.RunInspection batchFails sampleStore
        sampleVehicle "i1").store "i1" = Except.ok stored ∧
      stored.Status = InspectionCompleted ∧
      stored.PhotosCount =
        ((InspectionPhotoRepository.GetByInspectionID sampleStore "i1").length : Int) :=
  ⟨by decide, by decide,
    (RunInspection_completed_record batchFails sampleStore sampleVehicle "i1" (by decide)).elim
      fun stored hs => ⟨stored, hs.1, hs.2.1, hs.2.2.2.2.2.2.2.2.2⟩⟩

/-- C16. Whenever at least one engine photo is analysed successfully in a run that
succeeds, the stored mechanical score is the truncating mean of the scores of the
engine photos; it is the same for any other vehicle for which the provider gives the
same answers, so the vehicle's year and mileage play no part; and every finding
record built for an engine photo has zone engine.  In particular a single engine
photo with score 6 and one moderate dent finding of confidence 0.8 gives mechanical
score 6 and exactly one stored finding, whose zone is engine. -/
theorem RunInspection_engine_mechanical (c : Collaborators) (s : Store) (vehicle : Vehicle)
    (id : String) (p : InspectionPhoto) (r : photoAnalysisResult)
    (h : (VisionService.RunInspection c s vehicle id).err = none)
    (hp : p ∈ InspectionPhotoRepository.GetByInspectionID s id)
    (hz : p.Zone = PhotoZoneEngine)
    (hr : c.analyzePhoto vehicle p (mapPhotoZoneToFindingZone p.Zone) = Except.ok r) :
    (∃ stored engineScores,
      InspectionRepository.GetByID (VisionService.RunInspection c s vehicle id).store id
        = Except.ok stored ∧
      engineScores = scoresWhere (c.analyzePhoto vehicle) (fun z => decide (z = PhotoZoneEngine))
        (InspectionPhotoRepository.GetByInspectionID s id) ∧
      engineScores ≠ [] ∧
      stored.ScoreMechanical =
        some (Int.tdiv (wrapInt64 engineScores.sum) (engineScores.length : Int)) ∧
      ∀ vehicle2, c.analyzePhoto vehicle2 = c.analyzePhoto vehicle →
        ∃ stored2,
          InspectionRepository.GetByID (VisionService.RunInspection c s vehicle2 id).store id
            = Except.ok stored2 ∧
          stored2.ScoreMechanical = stored.ScoreMechanical) ∧
    (photoLoop (c.analyzePhoto vehicle) id
        (InspectionPhotoRepository.GetByInspectionID s id)).allFindings =
      (InspectionPhotoRepository.GetByInspectionID s id).flatMap
        (findingsOfPhoto (c.analyzePhoto vehicle) id) ∧
    (∀ q ∈ InspectionPhotoRepository.GetByInspectionID s id, q.Zone = PhotoZoneEngine →
      ∀ f ∈ findingsOfPhoto (c.analyzePhoto vehicle) id q, f.Zone = ZoneEngine) ∧
    ((VisionService.RunInspection dentProvider engineOnlyStore sampleVehicle
        "i1").store.inspections.map (fun i => i.ScoreMechanical) = [some 6] ∧
      (VisionService.RunInspection dentProvider engineOnlyStore sampleVehicle
        "i1").store.findings.map (fun f => (f.Zone, f.FindingType, f.Severity, f.AIConfidence))
        = [(ZoneEngine, "dent", "moderate", some (F64.ofRatio 8 10))]) := by
  obtain ⟨hget, hu, hph, hf, hlen, found, hfound⟩ := RunInspection_err_none_inv c s vehicle id h
  have hbucket : feedsMechanical = fun z => decide (z = PhotoZoneEngine) := by
    funext z
    exact feedsMechanical_eq z
  have hne : scoresWhere (c.analyzePhoto vehicle) (fun z => decide (z = PhotoZoneEngine))
      (InspectionPhotoRepository.GetByInspectionID s id) ≠ [] :=
    scoresWhere_ne_nil _ _ _ p r hp hr (by simp [hz])
  have hmech : ∀ v2, c.analyzePhoto v2 = c.analyzePhoto vehicle →
      (completedInspection c v2 { found with Status := InspectionProcessing }
        (photoLoop (c.analyzePhoto v2) id (InspectionPhotoRepository.GetByInspectionID s id))
        (InspectionPhotoRepository.GetByInspectionID s id)).ScoreMechanical =
      some (Int.tdiv (wrapInt64 (scoresWhere (c.analyzePhoto vehicle)
          (fun z => decide (z = PhotoZoneEngine))
          (InspectionPhotoRepository.GetByInspectionID s id)).sum)
        ((scoresWhere (c.analyzePhoto vehicle) (fun z => decide (z = PhotoZoneEngine))
          (InspectionPhotoRepository.GetByInspectionID s id)).length : Int)) := by
    intro v2 hv2
    unfold completedInspection
    rw [hv2, photoLoop_eq, hbucket]
    simp only []
    rw [avgScore_of_ne_nil _ _ hne]
  refine ⟨⟨_, _, RunInspection_success c s vehicle id found hfound h, rfl, hne,
    hmech vehicle rfl, ?_⟩, ?_, ?_, ?_⟩
  · intro vehicle2 hv2
    have h2 := RunInspection_err_none_of c s vehicle2 id found hget hfound hu hph hlen hf
    refine ⟨_, RunInspection_success c s vehicle2 id found hfound h2, ?_⟩
    rw [hmech vehicle2 hv2, hmech vehicle rfl]
  · rw [photoLoop_eq]
  · intro q _ hq f hfq
    rw [findingsOfPhoto_zone _ id q f hfq, hq]
    decide
  · constructor
    · set_option maxRecDepth 100000 in decide
    · set_option maxRecDepth 100000 in decide

/-- C16 on the scenario of the specification: one engine photo, score 6, one moderate
dent finding of confidence 0.8. -/
theorem RunInspection_engine_mechanical_witness :
    (VisionService.RunInspection dentProvider engineOnlyStore sampleVehicle "i1").err = none ∧
    samplePhoto "p1" PhotoZoneEngine 0 ∈
      InspectionPhotoRepository.GetByInspectionID engineOnlyStore "i1" ∧
    (samplePhoto "p1" PhotoZoneEngine 0).Zone = PhotoZoneEngine ∧
    dentProvider.analyzePhoto sampleVehicle (samplePhoto "p1" PhotoZoneEngine 0)
      (mapPhotoZoneToFindingZone (samplePhoto "p1" PhotoZoneEngine 0).Zone)
        = Except.ok ⟨6, [dentFinding]⟩ ∧
    (VisionService.RunInspection dentProvider engineOnlyStore sampleVehicle
      "i1").store.findings.length = 1 ∧
    ∃ stored engineScores,
      InspectionRepository.GetByID (VisionService.RunInspection dentProvider engineOnlyStore
        sampleVehicle "i1").store "i1" = Except.ok stored ∧
      engineScores = scoresWhere (dentProvider.analyzePhoto sampleVehicle)
        (fun z => decide (z = PhotoZoneEngine))
        (InspectionPhotoRepository.GetByInspectionID engineOnlyStore "i1") ∧
      engineScores ≠ [] ∧
      stored.ScoreMechanical =
        some (Int.tdiv (wrapInt64 engineScores.sum) (engineScores.length : Int)) :=
  ⟨by decide, by decide, rfl, rfl, by decide,
    (RunInspection_engine_mechanical dentProvider engineOnlyStore sampleVehicle "i1"
      (samplePhoto "p1" PhotoZoneEngine 0) ⟨6, [dentFinding]⟩ (by decide) (by decide) rfl
      rfl).1.elim fun stored hs => hs.elim fun scores hsc =>
        ⟨stored, scores, hsc.1, hsc.2.1, hsc.2.2.1, hsc.2.2.2.1⟩⟩

/-- C17. Every byte offset recorded in the rendered document is exact.  The output is
a body followed by the cross-reference section and the trailer; the section lists,
after the free entry, one entry per recorded offset, `2N+3` of them; the bytes of the
output from the `k`-th recorded offset on begin with the text `k 0 obj` (and its line
end); and the number after `startxref` is the length of the body, which is the position
at which `xref` begins. -/
theorem pdfWriter_bytes_offsets_exact (w : pdfWriter) :
    ∃ (body : GoString) (offsets : List Nat),
      offsets.length = 2 * w.pages.length + 3 ∧
      w.bytes = body ++
        (bytesOf "xref\n0 " ++ decimal (2 * w.pages.length + 4) ++ bytesOf "\n" ++
          bytesOf "0000000000 65535 f \n" ++
          offsets.flatMap (fun offset => decimal10 offset ++ bytesOf " 00000 n \n") ++
          (bytesOf "trailer\n<< /Size " ++ decimal (2 * w.pages.length + 4) ++
            bytesOf " /Root 1 0 R >>\nstartxref\n" ++ decimal body.length ++
            bytesOf "\n%%EOF\n")) ∧
      bytesOf "xref\n" <+: w.bytes.drop body.length ∧
      ∀ k off, offsets[k]? = some off →
        (decimal (k + 1) ++ bytesOf " 0 obj\n") <+: w.bytes.drop off := by
  refine ⟨bytesOf "%PDF-1.4\n" ++ w.objects.flatten,
    offsetsFrom (bytesOf "%PDF-1.4\n").length w.objects, ?_, bytes_eq w, ?_, ?_⟩
  · rw [offsetsFrom_length, objects_length]
  · rw [bytes_eq, List.drop_left]
    exact ⟨_, by simp only [List.append_assoc]; rfl⟩
  · intro k off hk
    have hklen : k < w.objects.length := by
      have h := (List.getElem?_eq_some.mp hk).1
      rwa [offsetsFrom_length] at h
    rw [bytes_eq, drop_offsetsFrom w.objects _ _ k off hk, List.drop_eq_getElem_cons hklen,
      List.flatten_cons, List.append_assoc]
    exact (objects_numbered w k _ (List.getElem?_eq_getElem hklen)).trans
      (List.prefix_append _ _)

/-- C18. Rendering `N` pages writes, after the header, exactly `2N+3` objects: the
`k`-th of them declares object number `k`; the first three are the catalog, the pages
object and the font, and for the `i`-th page (from 0) objects `4+2i` and `5+2i` are its
page object and its content stream.  The cross-reference section has the free entry
followed by `2N+3` in-use entries, its subsection header and the trailer `/Size` both
state `2N+4`, and the trailer names object 1 as root.  `addPage` adds exactly one
page. -/
theorem pdfWriter_bytes_object_structure (w : pdfWriter) :
    ∃ (objs : List GoString) (offsets : List Nat),
      objs.length = 2 * w.pages.length + 3 ∧ offsets.length = 2 * w.pages.length + 3 ∧
      w.bytes = bytesOf "%PDF-1.4\n" ++ objs.flatten ++
        (bytesOf "xref\n0 " ++ decimal (2 * w.pages.length + 4) ++ bytesOf "\n" ++
          bytesOf "0000000000 65535 f \n" ++
          offsets.flatMap (fun offset => decimal10 offset ++ bytesOf " 00000 n \n") ++
          (bytesOf "trailer\n<< /Size " ++ decimal (2 * w.pages.length + 4) ++
            bytesOf " /Root 1 0 R >>\nstartxref\n" ++
            decimal (bytesOf "%PDF-1.4\n" ++ objs.flatten).length ++ bytesOf "\n%%EOF\n")) ∧
      (∀ k obj, objs[k]? = some obj → (decimal (k + 1) ++ bytesOf " 0 obj\n") <+: obj) ∧
      objs[0]? = some catalogObject ∧ objs[1]? = some w.pagesObject ∧
      objs[2]? = some fontObject ∧
      (∀ i page, w.pages[i]? = some page →
        objs[3 + 2 * i]? = some (pageObject (4 + 2 * i) (5 + 2 * i)) ∧
        objs[4 + 2 * i]? = some (contentObject (5 + 2 * i) (buildTextStream page))) ∧
      ∀ content, (w.addPage content).pages = w.pages ++ [content] := by
  refine ⟨w.objects, offsetsFrom (bytesOf "%PDF-1.4\n").length w.objects, objects_length w, ?_,
    bytes_eq w, objects_numbered w, rfl, rfl, ?_, ?_, fun _ => rfl⟩
  · rw [offsetsFrom_length, objects_length]
  · simp [pdfWriter.objects]
  · intro i page hi
    obtain ⟨h1, h2⟩ := pageObjects_at w.pages 4 i page hi
    have e1 : 3 + 2 * i = 2 * i + 1 + 1 + 1 := by omega
    have e2 : 4 + 2 * i = 2 * i + 1 + 1 + 1 + 1 := by omega
    have e3 : 5 + 2 * i = 4 + 2 * i + 1 := by omega
    constructor
    · rw [e1]
      simp only [pdfWriter.objects, List.getElem?_cons_succ]
      rw [h1, e3]
    · rw [e2]
      simp only [pdfWriter.objects, List.getElem?_cons_succ]
      rw [h2, e3]

/-- C19. For every input string, `pdfEscapeString` puts one backslash before each
backslash, each `(` and each `)` that `range` reads from the input and adds no other
backslash (bytes that are not ASCII become `?`): the output has twice the input's
backslashes plus one per parenthesis, and the input's parentheses.  Hence in the
output every parenthesis is preceded by an odd number of consecutive backslashes and
every maximal run of backslashes not followed by a parenthesis has even length. -/
theorem pdfEscapeString_escapes_delimiters (s : GoString) :
    pdfEscapeString s = (rangeRunes 0 s).flatMap (fun r =>
      if r = 92 ∨ r = 40 ∨ r = 41 then [92, r] else if r > 127 then [63] else [r]) ∧
    (pdfEscapeString s).count 92 = 2 * s.count 92 + s.count 40 + s.count 41 ∧
    (pdfEscapeString s).count 40 = s.count 40 ∧
    (pdfEscapeString s).count 41 = s.count 41 ∧
    delimitersEscaped 0 (pdfEscapeString s) = true := by
  have hc := escaped_count (rangeRunes 0 s)
  rw [← pdfEscapeString_eq] at hc
  rw [rangeRunes_count 92 (by omega) s 0 (by simp), rangeRunes_count 40 (by omega) s 0 (by simp),
    rangeRunes_count 41 (by omega) s 0 (by simp)] at hc
  refine ⟨pdfEscapeString_eq s, hc.1, hc.2.1, hc.2.2, ?_⟩
  rw [pdfEscapeString_eq]
  exact escaped_delimiters _ 0 rfl

/-- C20, as stated, fails: a tab and the character DEL are emitted unchanged, so the
output is not always made of printable characters. -/
theorem pdfEscapeString_emits_control_characters :
    pdfEscapeString [65, 9, 66] = [65, 9, 66] ∧ pdfEscapeString [127] = [127] ∧
    ¬ (∀ s : GoString, ∀ b ∈ pdfEscapeString s, 32 ≤ b ∧ b < 127) := by
  refine ⟨by decide, by decide, ?_⟩
  intro h
  have h9 := h [9] 9 (by decide)
  omega

/-- C20, amended. For every input string, `pdfEscapeString` replaces every rune above
0x7F that `range` reads from the input (a well-formed multi-byte character or an
invalid byte) with `?`; ASCII characters, control characters and DEL included, are
emitted unchanged apart from the escaping backslashes.  Its output consists of 7-bit
bytes only. -/
theorem pdfEscapeString_seven_bit (s : GoString) :
    pdfEscapeString s = (rangeRunes 0 s).flatMap (fun r =>
      if r > 127 then [63] else if r = 92 ∨ r = 40 ∨ r = 41 then [92, r] else [r]) ∧
    (∀ b ∈ pdfEscapeString s, b < 128) ∧
    ((∀ b ∈ s, b < 128) → pdfEscapeString s = s.flatMap (fun b =>
      if b = 92 ∨ b = 40 ∨ b = 41 then [92, b] else [b])) := by
  refine ⟨?_, ?_, ?_⟩
  · rw [pdfEscapeString_eq]
    congr 1
    funext r
    by_cases h1 : r > 127
    · have h2 : ¬ (r = 92 ∨ r = 40 ∨ r = 41) := by omega
      simp [h1, h2]
    · simp [h1]
  · rw [pdfEscapeString_eq]
    exact escaped_seven_bit _
  · intro hascii
    have hrunes : rangeRunes 0 s = s := by
      have := rangeRunes_ascii_append s [] hascii
      simpa [rangeRunes] using this
    rw [pdfEscapeString_eq, hrunes]
    apply List.flatMap_congr
    intro b hb
    have h1 : ¬ b > 127 := by have := hascii b hb; omega
    simp [h1]

/-- C21. The document writer is deterministic.  A writer to which the page texts
`pages` have been added in order holds exactly these texts in that order; any two
writers holding the same page texts in the same order render the same bytes; and so
every rendering of such a writer is the rendering of the writer built from `pages`,
however often it is repeated.  (`pdfWriter.bytes` reads the page texts and nothing
else, and changes no field of the writer.) -/
theorem pdfWriter_bytes_deterministic (pages : List GoString) :
    (pages.foldl pdfWriter.addPage newPDFWriter).pages = pages ∧
    (∀ w1 w2 : pdfWriter, w1.pages = pages → w2.pages = pages → w1.bytes = w2.bytes) ∧
    ∀ w : pdfWriter, w.pages = pages →
      w.bytes = (pages.foldl pdfWriter.addPage newPDFWriter).bytes := by
  have h1 : (pages.foldl pdfWriter.addPage newPDFWriter).pages = pages := by
    rw [foldl_addPage]
    rfl
  have h2 : ∀ w1 w2 : pdfWriter, w1.pages = w2.pages → w1.bytes = w2.bytes := by
    intro w1 w2 h
    cases w1
    cases w2
    cases h
    rfl
  exact ⟨h1, fun w1 w2 e1 e2 => h2 w1 w2 (e1.trans e2.symm), fun w e => h2 _ _ (e.trans h1.symm)⟩

/-- C22, as stated, fails: a run on an inspection that is already completed, failing
while it fetches the photos, leaves the stored status at processing.  This change,
completed to processing, is none of the two the claim allows. -/
theorem RunInspection_completed_to_processing :
    storedStatus completedStore "i1" = some InspectionCompleted ∧
    storedStatus (VisionService.RunInspection photosFetchFails completedStore sampleVehicle
      "i1").store "i1" = some InspectionProcessing ∧
    (InspectionCompleted, InspectionProcessing) ∉
      [(InspectionPending, InspectionProcessing), (InspectionProcessing, InspectionCompleted)] := by
  refine ⟨?_, ?_, by decide⟩
  · set_option maxRecDepth 100000 in decide
  · set_option maxRecDepth 100000 in decide

/-- C22, amended. `RunInspection` changes stored statuses at most twice, and only in the
rows of the inspection it is called for.  Either it returns an error and no status has
changed; or its first update has set the rows of the inspection to processing,
whatever their status was before, and then either the run returns an error and nothing
else has changed, or it returns no error and its final update has set these rows, all
of them processing, to completed. -/
theorem RunInspection_status_changes (c : Collaborators) (s : Store) (vehicle : Vehicle)
    (id : String) :
    ((VisionService.RunInspection c s vehicle id).err ≠ none ∧
      statusColumn (VisionService.RunInspection c s vehicle id).store = statusColumn s) ∨
    ∃ found s1, InspectionRepository.GetByID s id = Except.ok found ∧
      InspectionRepository.Update s { found with Status := InspectionProcessing } =
        Except.ok s1 ∧
      statusColumn s1 = withStatus id InspectionProcessing (statusColumn s) ∧
      (∀ p ∈ statusColumn s1, p.1 = id → p.2 = InspectionProcessing) ∧
      (((VisionService.RunInspection c s vehicle id).err ≠ none ∧
          statusColumn (VisionService.RunInspection c s vehicle id).store = statusColumn s1) ∨
        ((VisionService.RunInspection c s vehicle id).err = none ∧
          statusColumn (VisionService.RunInspection c s vehicle id).store =
            withStatus id InspectionCompleted (statusColumn s1))) := by
  rcases RunInspection_store_cases c s vehicle id with
    ⟨hne, h⟩ | ⟨found, hfound, hupd, hcase⟩
  · exact Or.inl ⟨hne, by rw [h]⟩
  · have hcol := statusColumn_updatedRows s.inspections id
      { found with Status := InspectionProcessing } s.photos s.findings
    refine Or.inr ⟨found, _, hfound, hupd, hcol, ?_, ?_⟩
    · rw [hcol]
      exact withStatus_status id InspectionProcessing _
    · rcases hcase with ⟨hne, h⟩ | ⟨herr, h⟩
      · exact Or.inl ⟨hne, statusColumn_congr _ _ h⟩
      · refine Or.inr ⟨herr, ?_⟩
        rw [statusColumn_congr _ ⟨_, s.photos, s.findings⟩ h]
        exact statusColumn_updatedRows _ id _ s.photos s.findings

/-- C23, as stated, fails: the inspection is created, a photo is uploaded, a run
completes and a second run fails while it fetches the photos.  The stored status is
then processing and all five scores are set, the ones of the completed run. -/
theorem RunInspection_processing_with_scores :
    (InspectionService.CreateInspection ⟨none, none, "i1"⟩ emptyStore "v1" none none).1 =
      Except.ok sampleInspection ∧
    (runOperations createdStore
      [Operation.UploadPhoto (sampleUpload "1") "i1" PhotoZoneFront "a.jpg",
        Operation.RunInspection (sampleCollaborators sampleScores) sampleVehicle "i1",
        Operation.RunInspection photosFetchFails sampleVehicle "i1"]).inspections.map
      (fun r => (r.ID, r.Status, r.scores)) =
        [("i1", InspectionProcessing, [some 3, some 10, some 5, some 8, some 63])] := by
  refine ⟨rfl, ?_⟩
  set_option maxRecDepth 100000 in decide

/-- C23, amended. An inspection made by `CreateInspection` (under a fresh identifier) has
status pending and all five scores unset and is stored.  In every state reached from
there by photo uploads and calls of `RunInspection`, succeeding or failing, for this or
another inspection: a stored status of pending implies that all five scores are unset;
a stored status of processing implies it as long as no run of the inspection has
returned without error; and once such a run has completed the status is never pending
again and all five scores stay set. -/
theorem scores_unset_until_run_completes (c : CreateCollaborators) (s0 : Store)
    (vehicleID : String) (inspectorName inspectorBranch : Option String) (created : Inspection)
    (ops : List Operation)
    (hfresh : ∀ r ∈ s0.inspections, r.ID ≠ c.newID)
    (hcreated :
      (InspectionService.CreateInspection c s0 vehicleID inspectorName inspectorBranch).1 =
        Except.ok created) :
    created.Status = InspectionPending ∧ created.scores = [none, none, none, none, none] ∧
    created ∈
      (InspectionService.CreateInspection c s0 vehicleID inspectorName inspectorBranch).2.inspections ∧
    ∀ r ∈ (runOperations
        (InspectionService.CreateInspection c s0 vehicleID inspectorName inspectorBranch).2
        ops).inspections,
      r.ID = created.ID →
        (r.Status = InspectionPending → r.scores = [none, none, none, none, none]) ∧
        (r.Status = InspectionProcessing →
          completedRuns created.ID
            (InspectionService.CreateInspection c s0 vehicleID inspectorName inspectorBranch).2
            ops = 0 →
          r.scores = [none, none, none, none, none]) ∧
        (completedRuns created.ID
            (InspectionService.CreateInspection c s0 vehicleID inspectorName inspectorBranch).2
            ops ≠ 0 →
          r.Status ≠ InspectionPending ∧ ∀ x ∈ r.scores, x.isSome = true) := by
  obtain ⟨hrec, hstore⟩ := CreateInspection_ok c s0 vehicleID inspectorName inspectorBranch
    created hcreated
  have hid : created.ID = c.newID := by rw [hrec]
  have hunset : rowsUnset created.ID
      (InspectionService.CreateInspection c s0 vehicleID inspectorName inspectorBranch).2 := by
    intro r hr hrid
    rw [hstore] at hr
    rcases List.mem_append.mp hr with h | h
    · exact absurd (hrid.trans hid) (hfresh r h)
    · rw [List.mem_singleton.mp h, hrec]
      exact ⟨Or.inl rfl, rfl⟩
  obtain ⟨h0, h1⟩ := rows_runOperations created.ID ops _ hunset
  have hpp : InspectionProcessing ≠ InspectionPending := by decide
  have hcp : InspectionCompleted ≠ InspectionPending := by decide
  refine ⟨by rw [hrec], by rw [hrec]; rfl, by rw [hstore]; simp, ?_⟩
  intro r hr hrid
  by_cases hruns : completedRuns created.ID
      (InspectionService.CreateInspection c s0 vehicleID inspectorName inspectorBranch).2 ops = 0
  · have hrow := h0 hruns r hr hrid
    exact ⟨fun _ => hrow.2, fun _ _ => hrow.2, fun hne => absurd hruns hne⟩
  · have hrow := h1 hruns r hr hrid
    have hnp : r.Status ≠ InspectionPending := by
      rcases hrow.1 with h | h <;> rw [h]
      · exact hpp
      · exact hcp
    exact ⟨fun hp => absurd hp hnp, fun _ h => absurd h hruns, fun _ => ⟨hnp, hrow.2⟩⟩

/-- C23 on the sample inspection: after an upload and a run that fails while fetching
the photos, the status is processing and no score is set. -/
theorem scores_unset_until_run_completes_witness :
    (∀ r ∈ emptyStore.inspections, r.ID ≠ "i1") ∧
    (InspectionService.CreateInspection ⟨none, none, "i1"⟩ emptyStore "v1" none none).1 =
      Except.ok sampleInspection ∧
    (runOperations createdStore
      [Operation.UploadPhoto (sampleUpload "1") "i1" PhotoZoneFront "a.jpg",
        Operation.RunInspection photosFetchFails sampleVehicle "i1"]).inspections.map
      (fun r => (r.ID, r.Status, r.PhotosCount)) = [("i1", InspectionProcessing, 1)] ∧
    ∀ r ∈ (runOperations createdStore
        [Operation.UploadPhoto (sampleUpload "1") "i1" PhotoZoneFront "a.jpg",
          Operation.RunInspection photosFetchFails sampleVehicle "i1"]).inspections,
      r.ID = "i1" → r.Status = InspectionProcessing →
        r.scores = [none, none, none, none, none] :=
  ⟨fun _ hr => absurd hr (List.not_mem_nil _), rfl, by set_option maxRecDepth 100000 in decide,
    fun r hr hid hst =>
      ((scores_unset_until_run_completes ⟨none, none, "i1"⟩ emptyStore "v1" none none
        sampleInspection
        [Operation.UploadPhoto (sampleUpload "1") "i1" PhotoZoneFront "a.jpg",
          Operation.RunInspection photosFetchFails sampleVehicle "i1"]
        (fun _ hr => absurd hr (List.not_mem_nil _)) rfl).2.2.2 r hr hid).2.1 hst
        (by set_option maxRecDepth 100000 in decide)⟩

/-- C24. If every score the provider returns is in `1..10`, the scores stored by a
successful `RunInspection` are in range: exterior, interior and tires in `0..10`,
mechanical (the mean of the engine scores or the base of `calculateMechanicalBase`) in
`1..10`, overall in `0..100`.  The number of photos is taken small enough for ten times
it to be an `int`, which holds for every slice that fits in memory. -/
theorem RunInspection_scores_in_range (c : Collaborators) (s : Store) (vehicle : Vehicle)
    (id : String)
    (hscore : ∀ p z r, c.analyzePhoto vehicle p z = Except.ok r → 1 ≤ r.Score ∧ r.Score ≤ 10)
    (hlen : 10 * (InspectionPhotoRepository.GetByInspectionID s id).length < 2 ^ 63)
    (h : (VisionService.RunInspection c s vehicle id).err = none) :
    ∃ stored exterior interior mechanical tires overall,
      InspectionRepository.GetByID (VisionService.RunInspection c s vehicle id).store id
        = Except.ok stored ∧
      stored.ScoreExterior = some exterior ∧ stored.ScoreInterior = some interior ∧
      stored.ScoreMechanical = some mechanical ∧ stored.ScoreTires = some tires ∧
      stored.ScoreOverall = some overall ∧
      0 ≤ exterior ∧ exterior ≤ 10 ∧ 0 ≤ interior ∧ interior ≤ 10 ∧
      0 ≤ tires ∧ tires ≤ 10 ∧ 1 ≤ mechanical ∧ mechanical ≤ 10 ∧
      0 ≤ overall ∧ overall ≤ 100 := by
  obtain ⟨_, _, _, _, _, found, hfound⟩ := RunInspection_err_none_inv c s vehicle id h
  have hstored := RunInspection_success c s vehicle id found hfound h
  rw [photoLoop_eq] at hstored
  have hbase : 1 ≤ calculateMechanicalBase c.nowScoring vehicle ∧
      calculateMechanicalBase c.nowScoring vehicle ≤ 10 := by
    rw [calculateMechanicalBase_eq]
    constructor <;> split_ifs <;> omega
  have he := avgScore_bucket_range (c.analyzePhoto vehicle) isExteriorZone
    (InspectionPhotoRepository.GetByInspectionID s id) 10 hscore hlen (by omega)
  have hi := avgScore_bucket_range (c.analyzePhoto vehicle) feedsInterior
    (InspectionPhotoRepository.GetByInspectionID s id) 10 hscore hlen (by omega)
  have hm := avgScore_bucket_range (c.analyzePhoto vehicle) feedsMechanical
    (InspectionPhotoRepository.GetByInspectionID s id)
    (calculateMechanicalBase c.nowScoring vehicle) hscore hlen hbase
  have ho := overallScore_range _ _ _ he hi hm
  refine ⟨_, _, _, _, _, _, hstored, rfl, rfl, rfl, rfl, rfl, ?_⟩
  simp only [avgScore_nil]
  refine ⟨by omega, he.2, by omega, hi.2, by omega, by omega, hm.1, hm.2, ?_, ?_⟩
  · exact ho.1
  · exact ho.2

/-- C24 on the sample store: the stored scores are 3, 9, 5, 8 and 59. -/
theorem RunInspection_scores_in_range_witness :
    (∀ p z r, (sampleCollaborators sampleScores).analyzePhoto sampleVehicle p z = Except.ok r →
      1 ≤ r.Score ∧ r.Score ≤ 10) ∧
    10 * (InspectionPhotoRepository.GetByInspectionID sampleStore "i1").length < 2 ^ 63 ∧
    (VisionService.RunInspection (sampleCollaborators sampleScores) sampleStore sampleVehicle
      "i1").err = none ∧
    (VisionService.RunInspection (sampleCollaborators sampleScores) sampleStore sampleVehicle
      "i1").store.inspections.map Inspection.scores = [[some 3, some 9, some 5, some 8, some 59]] ∧
    ∃ stored overall,
      InspectionRepository.GetByID (VisionService.RunInspection (sampleCollaborators sampleScores)
        sampleStore sampleVehicle "i1").store "i1" = Except.ok stored ∧
      stored.ScoreOverall = some overall ∧ 0 ≤ overall ∧ overall ≤ 100 :=
  ⟨sampleCollaborators_range sampleVehicle, by decide, by decide,
    by set_option maxRecDepth 100000 in decide,
    (RunInspection_scores_in_range (sampleCollaborators sampleScores) sampleStore sampleVehicle
      "i1" (sampleCollaborators_range sampleVehicle) (by decide) (by decide)).elim
      fun stored h1 => h1.elim fun _ h2 => h2.elim fun _ h3 => h3.elim fun _ h4 =>
        h4.elim fun _ h5 => h5.elim fun overall h6 =>
          ⟨stored, overall, h6.1, h6.2.2.2.2.2.1, h6.2.2.2.2.2.2.2.2.2.2.2.2.2.2.1,
            h6.2.2.2.2.2.2.2.2.2.2.2.2.2.2.2⟩⟩

/-- C25. For every page text, `buildTextStream` emits the prologue (`BT`, font F1 at
size 9, text origin 40 800, leading 12), then one instruction `(escaped line) Tj T*`
per line of the text, in order, then `ET`.  The lines are the pieces of the text between
its newline characters: joined by newlines they give the text back, none contains a
newline, and there is one more of them than newline characters.  An empty text gives
one empty instruction, and `addPage` adds the text as one page whatever its line
count. -/
theorem buildTextStream_structure (content : GoString) :
    buildTextStream content =
      bytesOf "BT\n/F1 9 Tf\n1 0 0 1 40 800 Tm\n12 TL\n" ++
        (stringsSplit 10 content).flatMap
          (fun line => bytesOf "(" ++ pdfEscapeString line ++ bytesOf ") Tj T*\n") ++
        bytesOf "ET" ∧
    [10].intercalate (stringsSplit 10 content) = content ∧
    (∀ line ∈ stringsSplit 10 content, 10 ∉ line) ∧
    (stringsSplit 10 content).length = content.count 10 + 1 ∧
    buildTextStream [] = bytesOf "BT\n/F1 9 Tf\n1 0 0 1 40 800 Tm\n12 TL\n() Tj T*\nET" ∧
    ∀ w : pdfWriter, (w.addPage content).pages = w.pages ++ [content] ∧
      (w.addPage content).pages.length = w.pages.length + 1 :=
  ⟨buildTextStream_eq content, stringsSplit_intercalate 10 content,
    stringsSplit_no_sep 10 content, stringsSplit_length 10 content, by decide,
    fun w => ⟨rfl, by simp [pdfWriter.addPage]⟩⟩

/-- C26. For every page of a document, the rendered bytes contain the content-stream
object of that page, in which the number after `/Length` is the exact number of bytes
between the newline after `stream` and the newline before `endstream`.  These bytes
are the text stream of the page, counted after escaping: 38 bytes of frame plus, for
each line, the length of the escaped line and 9. -/
theorem contentObject_length_exact (w : pdfWriter) (i : Nat) (page : GoString)
    (hi : w.pages[i]? = some page) :
    ∃ before after stream : GoString,
      stream = buildTextStream page ∧
      stream.length = 38 +
        ((stringsSplit 10 page).map fun line => (pdfEscapeString line).length + 9).sum ∧
      before = bytesOf "%PDF-1.4\n" ++ (w.objects.take (4 + 2 * i)).flatten ∧
      w.bytes = before ++
        (decimal (5 + 2 * i) ++ bytesOf " 0 obj\n<< /Length " ++ decimal stream.length ++
          bytesOf " >>\nstream\n" ++ stream ++ bytesOf "\nendstream\nendobj\n") ++ after := by
  obtain ⟨tail, ht, _⟩ := bytes_split w
  refine ⟨_, (w.objects.drop (4 + 2 * i + 1)).flatten ++ tail, _, rfl,
    buildTextStream_length page, rfl, ?_⟩
  rw [ht, flatten_split_at w.objects (4 + 2 * i) _ (objects_at w i page hi).2]
  simp only [contentObject, List.append_assoc]

/-- C26 on a page with a non-ASCII character, a backslash and parentheses: the stream
has 71 bytes and the object states `/Length 71`. -/
theorem contentObject_length_exact_witness :
    (newPDFWriter.addPage samplePage).pages[0]? = some samplePage ∧
    buildTextStream samplePage =
      bytesOf "BT\n/F1 9 Tf\n1 0 0 1 40 800 Tm\n12 TL\n(caf? \\\\ \\(x\\)) Tj T*\n(ok) Tj T*\nET" ∧
    (buildTextStream samplePage).length = 71 ∧
    ∃ before after : GoString,
      (newPDFWriter.addPage samplePage).bytes = before ++
        (bytesOf "5 0 obj\n<< /Length 71 >>\nstream\n" ++ buildTextStream samplePage ++
          bytesOf "\nendstream\nendobj\n") ++ after :=
  ⟨rfl, by decide, by decide,
    (contentObject_length_exact (newPDFWriter.addPage samplePage) 0 samplePage rfl).elim
      fun before h => h.elim fun after h2 => h2.elim fun stream h3 =>
        ⟨before, after, by
          have h4 := h3.2.2.2
          rw [h3.1] at h4
          rw [h4]
          have e : (buildTextStream samplePage).length = 71 := by decide
          rw [e]
          simp only [List.append_assoc]
          rfl⟩⟩

/-- C27. In the document rendered from `N` pages, object 2 is the pages object with
`/Count N` and a `/Kids` list made of the references `4 0 R`, `6 0 R`, ... to the
objects `4 + 2i` for `i < N`, in page order; object 3 is the Courier font; and for the
`i`-th page object `4 + 2i` is its page object, naming object 2 as parent, object 3 as
font F1 and object `5 + 2i` as contents, and object `5 + 2i` is the content stream
built from the `i`-th page text. -/
theorem pdfWriter_bytes_page_tree (w : pdfWriter) :
    ∃ (objs : List GoString) (tail : GoString),
      w.bytes = bytesOf "%PDF-1.4\n" ++ objs.flatten ++ tail ∧
      bytesOf "xref\n" <+: tail ∧
      objs.length = 2 * w.pages.length + 3 ∧
      objs[1]? = some (bytesOf "2 0 obj\n<< /Type /Pages /Kids [ " ++
        (bytesOf " ").intercalate
          ((List.range w.pages.length).map fun i => decimal (4 + 2 * i) ++ bytesOf " 0 R") ++
        bytesOf " ] /Count " ++ decimal w.pages.length ++ bytesOf " >>\nendobj\n") ∧
      objs[2]? = some
        (bytesOf "3 0 obj\n<< /Type /Font /Subtype /Type1 /BaseFont /Courier >>\nendobj\n") ∧
      ∀ i page, w.pages[i]? = some page →
        objs[3 + 2 * i]? = some (decimal (4 + 2 * i) ++
          bytesOf " 0 obj\n<< /Type /Page /Parent 2 0 R /MediaBox [0 0 595 842] /Contents " ++
          decimal (5 + 2 * i) ++
          bytesOf " 0 R /Resources << /Font << /F1 3 0 R >> >> >>\nendobj\n") ∧
        objs[4 + 2 * i]? = some (decimal (5 + 2 * i) ++ bytesOf " 0 obj\n<< /Length " ++
          decimal (buildTextStream page).length ++ bytesOf " >>\nstream\n" ++
          buildTextStream page ++ bytesOf "\nendstream\nendobj\n") := by
  obtain ⟨tail, ht, hx⟩ := bytes_split w
  refine ⟨w.objects, tail, ht, hx, objects_length w, ?_, ?_, ?_⟩
  · rw [← pagesObject_eq]
    rfl
  · simp [pdfWriter.objects, fontObject]
  · intro i page hi
    exact objects_at w i page hi

/-- C28. On strings of 7-bit characters `pdfEscapeString` is reversible: replacing, from
left to right, each backslash and the character after it by that character gives the
input back; hence two different 7-bit strings never escape to the same output; and the
output is as long as the input plus the number of its backslashes and parentheses. -/
theorem pdfEscapeString_reversible (s : GoString) (hs : ∀ b ∈ s, b < 128) :
    specUnescape (pdfEscapeString s) = s ∧
    (∀ t : GoString, (∀ b ∈ t, b < 128) → pdfEscapeString t = pdfEscapeString s → t = s) ∧
    (pdfEscapeString s).length = s.length + s.count 92 + s.count 40 + s.count 41 := by
  have hrev : ∀ u : GoString, (∀ b ∈ u, b < 128) → specUnescape (pdfEscapeString u) = u := by
    intro u hu
    rw [pdfEscapeString_ascii u hu, specUnescape_escaped]
  refine ⟨hrev s hs, ?_, ?_⟩
  · intro t ht heq
    rw [← hrev t ht, heq, hrev s hs]
  · rw [pdfEscapeString_ascii s hs, length_escaped]

/-- C28 on the string `a\b (c)`. -/
theorem pdfEscapeString_reversible_witness :
    (∀ b ∈ bytesOf "a\\b (c)", b < 128) ∧
    pdfEscapeString (bytesOf "a\\b (c)") = bytesOf "a\\\\b \\(c\\)" ∧
    specUnescape (pdfEscapeString (bytesOf "a\\b (c)")) = bytesOf "a\\b (c)" ∧
    (pdfEscapeString (bytesOf "a\\b (c)")).length = 7 + 1 + 1 + 1 :=
  ⟨by decide, by decide,
    (pdfEscapeString_reversible (bytesOf "a\\b (c)") (by decide)).1,
    (pdfEscapeString_reversible (bytesOf "a\\b (c)") (by decide)).2.2⟩

/-- C29. For every clock reading, model year and mileage, `calculateMechanicalBase`
returns a value between 5 and 10: it is 10 minus at most 2 for the age and at most 3 for
the mileage, so the score is never below 1 and the closing floor is never applied. -/
theorem calculateMechanicalBase_range (now : Time) (vehicle : Vehicle) :
    5 ≤ calculateMechanicalBase now vehicle ∧ calculateMechanicalBase now vehicle ≤ 10 ∧
    calculateMechanicalBase now vehicle =
      10 - (if vehicleAge now vehicle > 5 then (2 : Int)
          else if vehicleAge now vehicle > 2 then 1 else 0)
        - (if vehicle.MileageKM > 100000 then (3 : Int)
          else if vehicle.MileageKM > 50000 then 2
          else if vehicle.MileageKM > 20000 then 1 else 0) ∧
    ¬ (10 - (if vehicleAge now vehicle > 5 then (2 : Int)
          else if vehicleAge now vehicle > 2 then 1 else 0)
        - (if vehicle.MileageKM > 100000 then (3 : Int)
          else if vehicle.MileageKM > 50000 then 2
          else if vehicle.MileageKM > 20000 then 1 else 0) < 1) := by
  have h := calculateMechanicalBase_eq now vehicle
  have ha := ageDeduction_mono (vehicleAge now vehicle) (vehicleAge now vehicle) le_rfl
  refine ⟨?_, ?_, h, ?_⟩ <;> (try rw [h]) <;> split_ifs <;> omega

/-- C30. The zone table and the scoring buckets agree, for every zone string: a zone of
the exterior bucket maps to front, rear, left or right; a zone of the interior bucket
maps to interior_front or interior_rear; engine maps to engine; nothing maps to roof or
tires; and closeup, like every string that is not one of the 14 photo zones, maps to
front while its score changes no bucket. -/
theorem zone_table_agrees_with_buckets (pz : PhotoZone) :
    (isExteriorZone pz = true →
      mapPhotoZoneToFindingZone pz ∈ [ZoneFront, ZoneRear, ZoneLeft, ZoneRight]) ∧
    (isInteriorZone pz = true →
      mapPhotoZoneToFindingZone pz ∈ [ZoneInteriorFront, ZoneInteriorRear]) ∧
    mapPhotoZoneToFindingZone PhotoZoneEngine = ZoneEngine ∧
    mapPhotoZoneToFindingZone pz ≠ ZoneRoof ∧ mapPhotoZoneToFindingZone pz ≠ ZoneTires ∧
    (pz = PhotoZoneCloseup ∨ pz ∉ allPhotoZones →
      mapPhotoZoneToFindingZone pz = ZoneFront ∧
      ∀ (acc : Accumulators) (score : Int), classifyScore acc pz score = acc) := by
  have hmem := mapPhotoZoneToFindingZone_mem pz
  refine ⟨?_, ?_, by decide, ?_, ?_, ?_⟩
  · intro h
    have hz := (isExteriorZone_iff pz).mp h
    simp only [List.mem_cons, List.mem_singleton, List.not_mem_nil, or_false] at hz
    rcases hz with hz | hz | hz | hz | hz | hz <;> rw [hz] <;> decide
  · intro h
    have hz := (isInteriorZone_iff pz).mp h
    simp only [List.mem_cons, List.mem_singleton, List.not_mem_nil, or_false] at hz
    rcases hz with hz | hz | hz | hz | hz <;> rw [hz] <;> decide
  · intro h
    rw [h] at hmem
    revert hmem
    decide
  · intro h
    rw [h] at hmem
    revert hmem
    decide
  · intro h
    have hfacts : mapPhotoZoneToFindingZone pz = ZoneFront ∧ isExteriorZone pz = false ∧
        isInteriorZone pz = false ∧ pz ≠ PhotoZoneEngine := by
      rcases h with h | h
      · rw [h]
        decide
      · simp only [allPhotoZones, List.mem_cons, List.mem_singleton, List.not_mem_nil, or_false,
          not_or] at h
        obtain ⟨h1, h2, h3, h4, h5, h6, h7, h8, h9, h10, h11, h12, h13, h14⟩ := h
        refine ⟨?_, ?_, ?_, h12⟩
        · unfold mapPhotoZoneToFindingZone
          simp [h1, h2, h3, h4, h5, h6, h7, h8, h9, h10, h11, h12, h13]
        · unfold isExteriorZone
          simp [h1, h2, h3, h4, h5, h6]
        · unfold isInteriorZone
          simp [h7, h8, h9, h10, h11]
    exact ⟨hfacts.1, fun acc score =>
      classifyScore_of_no_bucket acc pz score hfacts.2.1 hfacts.2.2.1 hfacts.2.2.2⟩

end Divi
